import Mathlib

/-!
MQTT v3.1.1 client (`mqtt_client.c`): packet encoders, send loop, `mqtt_init`, the inbound
dispatcher and the PUBLISH receive parser

Shallow embedding of `mqtt_client/mqtt_client.c` and `mqtt_client/mqtt_client.h`.

Conventions of the embedding
* A byte is a `Nat`; a value stored into a `uint8_t` / `uint16_t` / `uint32_t` variable is
  reduced `% 256` / `% 65536` / `% 4294967296` at the assignment, as the C conversion does.
* A heap object obtained from `malloc` (and the static receive buffers) is a `Buf`: the list of
  its bytes together with a flag `oob` that records that some store or copy addressed a byte
  outside of the object.  A store outside of the object does not change the bytes of the object.
  A read outside of an object has no defined value: a single read is modelled as `0`, a copy
  takes the bytes that exist, and the flag is set.  Once `oob` is set the C program has left
  defined behaviour; the bytes are then those a run that survives the stray access holds inside
  the object.
* A `char *` argument is the list of the bytes it points to; `strlen` counts up to the first NUL.
* The encoders return the globals they changed and the buffer `(packet, packet_length)` they hand
  to `socket_send_data`.
* The socket is a list of `write` outcomes (return value and `errno`), consumed one per call of
  `write`; `socket_send_data` returns the value the C function returns, the chunks the socket
  accepted and the unused outcomes, and no value when the outcomes end while bytes are pending
  (the C loop goes on retrying).
* The dispatcher returns the list of what it does that can be observed: the lines it logs and
  the calls of the user callback with their arguments.
-/

namespace Mqtt

/-! ## Constants of `mqtt_client.h` -/

def MQTT_MSG_CONNECT : Nat := 0x10
def MQTT_MSG_CONNACK : Nat := 0x20
def MQTT_MSG_PUBLISH : Nat := 0x30
def MQTT_MSG_PUBACK : Nat := 0x40
def MQTT_MSG_PUBREC : Nat := 0x50
def MQTT_MSG_PUBREL : Nat := 0x60
def MQTT_MSG_PUBCOMP : Nat := 0x70
def MQTT_MSG_SUBSCRIBE : Nat := 0x80 ||| 0x02
def MQTT_MSG_SUBACK : Nat := 0x90
def MQTT_MSG_UNSUBSCRIBE : Nat := 0xA0 ||| 0x02
def MQTT_MSG_UNSUBACK : Nat := 0xB0
def MQTT_MSG_PINGREQ : Nat := 0xC0
def MQTT_MSG_PINGRESP : Nat := 0xD0
def MQTT_MSG_DISCONNECT : Nat := 0xE0

def MQTT_CLEAN_SESSION : Nat := 1 <<< 1
def MQTT_WILL_FLAG : Nat := 1 <<< 2
def MQTT_WILL_RETAIN : Nat := 1 <<< 5
def MQTT_PASSWORD_FLAG : Nat := 1 <<< 6
def MQTT_USERNAME_FLAG : Nat := 1 <<< 7

def MQTT_DUP_FLAG : Nat := 1 <<< 3
def MQTT_QOS0_FLAG : Nat := 0 <<< 1
def MQTT_QOS1_FLAG : Nat := 1 <<< 1
def MQTT_QOS2_FLAG : Nat := 2 <<< 1
def MQTT_RETAIN_FLAG : Nat := 1

def MQTT_RX_BUFFER_MAX_LEN : Nat := 1024

/-! ## Memory model -/

/-- Length of the C string stored in `s`: the number of bytes before the first NUL. -/
def strlen (s : List Nat) : Nat :=
  (s.takeWhile (fun b => b != 0)).length

/-- A memory object: its bytes and whether an access fell outside of it. -/
structure Buf where
  bytes : List Nat
  oob : Bool
deriving DecidableEq, Repr

/-- Result of `malloc n` followed by `memset(p, 0, n)`: `n` zero bytes. -/
def malloc (n : Nat) : Buf :=
  ⟨List.replicate n 0, false⟩

/-- The store `p[i] = v` into the object `b`. -/
def Buf.store (b : Buf) (i v : Nat) : Buf :=
  if i < b.bytes.length then ⟨b.bytes.set i v, b.oob⟩ else ⟨b.bytes, true⟩

/-- Consecutive stores `p[off] = x0; p[off+1] = x1; ...`. -/
def Buf.storeList : Buf → Nat → List Nat → Buf
  | b, _, [] => b
  | b, off, x :: xs => Buf.storeList (b.store off x) (off + 1) xs

/-- The copy `memcpy(dst + off, src, n)`; reading more than `src` holds is out of bounds. -/
def Buf.memcpy (dst : Buf) (off : Nat) (src : List Nat) (n : Nat) : Buf :=
  let r := dst.storeList off (src.take n)
  ⟨r.bytes, r.oob || decide (src.length < n)⟩

/-- The read `p[i]`: the byte at index `i`, `0` outside of the object. -/
def rd (p : List Nat) (i : Nat) : Nat :=
  p.getD i 0

/-! ## Global state -/

/-- The struct `MqttParamStruct` (the callback pointer is not part of the byte-level model). -/
structure MqttParamStruct where
  keep_alive : Nat
  port : Nat
  ipaddr : List Nat
  user_name : List Nat
  client_id : List Nat
  password : List Nat
deriving DecidableEq, Repr

/-- The file-scope variables of `mqtt_client.c` that the encoders read or write. -/
structure MqttState where
  gsst_mqtt_param_data : MqttParamStruct
  gs_unsubscribe_identifier : Nat
  gs_subscribe_identifier : Nat
  gs_publish_identifier : Nat
deriving DecidableEq, Repr

/-- The state at program start: zeroed parameter struct, counters `1`, `1`, `0`. -/
def initial_state : MqttState :=
  ⟨⟨0, 0, List.replicate 32 0, List.replicate 64 0, List.replicate 64 0, List.replicate 64 0⟩,
    1, 1, 0⟩

/-! ## `mqtt_publish` -/

/-- The function `mqtt_publish(topic, msg, msg_len, retain, qos)`: the new globals and the
buffer handed to `socket_send_data`. -/
def mqtt_publish (st : MqttState) (topic msg : List Nat) (msg_len retain qos : Nat) :
    MqttState × Buf :=
  let topic_length := strlen topic % 65536
  let qos_flag := if qos = 1 then MQTT_QOS1_FLAG else if qos = 2 then MQTT_QOS2_FLAG
    else MQTT_QOS0_FLAG
  let qos_size := if qos = 1 then 2 else if qos = 2 then 2 else 0
  let variable_header_size := (2 + topic_length + qos_size) % 256
  let remain_length := (variable_header_size + msg_len) % 65536
  let fixed_header_size := if remain_length > 127 then 3 else 2
  -- fixed header
  let byte0 := MQTT_MSG_PUBLISH ||| qos_flag
  let byte0 := if retain ≠ 0 then byte0 ||| MQTT_RETAIN_FLAG else byte0
  let fixed_header := (malloc fixed_header_size).store 0 byte0
  let fixed_header :=
    if remain_length ≤ 127 then fixed_header.store 1 (remain_length % 256)
    else ((fixed_header.store 1 (remain_length % 128)).store 1
      ((remain_length % 128) ||| 0x80)).store 2 ((remain_length / 128) % 256)
  -- variable header
  let variable_header := (malloc variable_header_size).store 0 ((topic_length >>> 8) &&& 0xFF)
  let variable_header := variable_header.store 1 (topic_length &&& 0xFF)
  let variable_header := variable_header.memcpy 2 topic topic_length
  let incremented := (st.gs_publish_identifier + 1) % 65536
  let gs_publish_identifier :=
    if qos_size ≠ 0 then (if incremented = 0 then 1 else incremented)
    else st.gs_publish_identifier
  let variable_header :=
    if qos_size ≠ 0 then
      (variable_header.store (topic_length + 2) ((gs_publish_identifier >>> 8) &&& 0xFF)).store
        (topic_length + 3) (gs_publish_identifier &&& 0xFF)
    else variable_header
  -- packet
  let packet_length := (fixed_header_size + variable_header_size + msg_len) % 65536
  let packet := (malloc packet_length).memcpy 0 fixed_header.bytes fixed_header_size
  let packet := packet.memcpy fixed_header_size variable_header.bytes variable_header_size
  let packet := packet.memcpy (fixed_header_size + variable_header_size) msg msg_len
  (⟨st.gsst_mqtt_param_data, st.gs_unsubscribe_identifier, st.gs_subscribe_identifier,
      gs_publish_identifier⟩,
    ⟨packet.bytes, packet.oob || fixed_header.oob || variable_header.oob⟩)

/-! ## `mqtt_subscribe` and `mqtt_unsubscribe` -/

/-- The function `mqtt_subscribe(topic, qos)`: the new globals and the buffer handed to
`socket_send_data`. -/
def mqtt_subscribe (st : MqttState) (topic : List Nat) (qos : Nat) : MqttState × Buf :=
  let fixed_header_size := 2
  let variable_header_size := 2
  let topic_length := strlen topic % 4294967296
  let remain_length := (variable_header_size + 2 + topic_length + 1) % 65536
  -- fixed header
  let fixed_header := (malloc fixed_header_size).store 0 MQTT_MSG_SUBSCRIBE
  let fixed_header := fixed_header.store 1 (remain_length % 256)
  -- variable header
  let message_id := st.gs_subscribe_identifier
  let gs_subscribe_identifier := (st.gs_subscribe_identifier + 1) % 65536
  let variable_header := (malloc variable_header_size).store 0 ((message_id >>> 8) &&& 0xFF)
  let variable_header := variable_header.store 1 (message_id &&& 0xFF)
  -- payload
  let payload_size := (2 + topic_length + 1) % 256
  let payload := (malloc payload_size).store 0 ((topic_length >>> 8) &&& 0xFF)
  let payload := payload.store 1 (topic_length &&& 0xFF)
  let payload := payload.memcpy 2 topic topic_length
  let payload := payload.store (2 + topic_length) qos
  -- packet
  let packet_length := (fixed_header_size + variable_header_size + payload_size) % 4294967296
  let packet := (malloc packet_length).memcpy 0 fixed_header.bytes fixed_header_size
  let packet := packet.memcpy fixed_header_size variable_header.bytes variable_header_size
  let packet := packet.memcpy (fixed_header_size + variable_header_size) payload.bytes
    payload_size
  (⟨st.gsst_mqtt_param_data, st.gs_unsubscribe_identifier, gs_subscribe_identifier,
      st.gs_publish_identifier⟩,
    ⟨packet.bytes, packet.oob || fixed_header.oob || variable_header.oob || payload.oob⟩)

/-- The function `mqtt_unsubscribe(topic)`: the new globals and the buffer handed to
`socket_send_data`. -/
def mqtt_unsubscribe (st : MqttState) (topic : List Nat) : MqttState × Buf :=
  let fixed_header_size := 2
  let variable_header_size := 2
  let topic_length := strlen topic % 4294967296
  let remain_length := (variable_header_size + 2 + topic_length) % 65536
  -- fixed header
  let fixed_header := (malloc fixed_header_size).store 0 MQTT_MSG_UNSUBSCRIBE
  let fixed_header := fixed_header.store 1 (remain_length % 256)
  -- variable header
  let message_id := st.gs_unsubscribe_identifier
  let gs_unsubscribe_identifier := (st.gs_unsubscribe_identifier + 1) % 65536
  let variable_header := (malloc variable_header_size).store 0 ((message_id >>> 8) &&& 0xFF)
  let variable_header := variable_header.store 1 (message_id &&& 0xFF)
  -- payload
  let payload_size := (2 + topic_length) % 256
  let payload := (malloc payload_size).store 0 ((topic_length >>> 8) &&& 0xFF)
  let payload := payload.store 1 (topic_length &&& 0xFF)
  let payload := payload.memcpy 2 topic topic_length
  -- packet
  let packet_length := (fixed_header_size + variable_header_size + payload_size) % 4294967296
  let packet := (malloc packet_length).memcpy 0 fixed_header.bytes fixed_header_size
  let packet := packet.memcpy fixed_header_size variable_header.bytes variable_header_size
  let packet := packet.memcpy (fixed_header_size + variable_header_size) payload.bytes
    payload_size
  (⟨st.gsst_mqtt_param_data, gs_unsubscribe_identifier, st.gs_subscribe_identifier,
      st.gs_publish_identifier⟩,
    ⟨packet.bytes, packet.oob || fixed_header.oob || variable_header.oob || payload.oob⟩)

/-! ## `mqtt_connect` -/

/-- The function `mqtt_connect()`: the buffer handed to `socket_send_data`, built from the
stored `gsst_mqtt_param_data`.  No file-scope variable is written. -/
def mqtt_connect (st : MqttState) : Buf :=
  let flags := 0x00
  let packet_offset := 0
  let fixed_header_size := 2
  let clientid_length := strlen st.gsst_mqtt_param_data.client_id % 65536
  let username_length := strlen st.gsst_mqtt_param_data.user_name % 65536
  let password_length := strlen st.gsst_mqtt_param_data.password % 65536
  let payload_length := (clientid_length + 2) % 65536
  let payload_length :=
    if username_length ≠ 0 then (payload_length + (username_length + 2)) % 65536
    else payload_length
  let flags := if username_length ≠ 0 then flags ||| MQTT_USERNAME_FLAG else flags
  let payload_length :=
    if password_length ≠ 0 then (payload_length + (password_length + 2)) % 65536
    else payload_length
  let flags := if password_length ≠ 0 then flags ||| MQTT_PASSWORD_FLAG else flags
  let flags := flags ||| MQTT_CLEAN_SESSION
  let remain_length := (10 + payload_length) % 256
  let fixed_header_size := if remain_length > 127 then fixed_header_size + 1
    else fixed_header_size
  -- fixed header
  let fixed_header := (malloc fixed_header_size).store 0 MQTT_MSG_CONNECT
  let fixed_header :=
    if remain_length ≤ 127 then fixed_header.store 1 remain_length
    else ((fixed_header.store 1 (remain_length % 128)).store 1
      ((remain_length % 128) ||| 0x80)).store 2 (remain_length / 128)
  -- variable header
  let variable_header : List Nat :=
    [0x00, 0x04, 0x4D, 0x51, 0x54, 0x54, 0x04, flags,
      (st.gsst_mqtt_param_data.keep_alive >>> 8) &&& 0xFF,
      st.gsst_mqtt_param_data.keep_alive &&& 0xFF]
  let packet_length := (fixed_header_size + 10 + payload_length) % 65536
  -- packet
  let packet := (malloc packet_length).memcpy 0 fixed_header.bytes fixed_header_size
  let packet_offset := (packet_offset + fixed_header_size) % 65536
  let packet := packet.memcpy packet_offset variable_header 10
  let packet_offset := (packet_offset + 10) % 65536
  let packet := packet.store packet_offset ((clientid_length >>> 8) &&& 0xFF)
  let packet_offset := (packet_offset + 1) % 65536
  let packet := packet.store packet_offset (clientid_length &&& 0xFF)
  let packet_offset := (packet_offset + 1) % 65536
  let packet := packet.memcpy packet_offset st.gsst_mqtt_param_data.client_id clientid_length
  let packet_offset := (packet_offset + clientid_length) % 65536
  let packet := packet.store packet_offset ((username_length >>> 8) &&& 0xFF)
  let packet_offset := (packet_offset + 1) % 65536
  let packet := packet.store packet_offset (username_length &&& 0xFF)
  let packet_offset := (packet_offset + 1) % 65536
  let packet := packet.memcpy packet_offset st.gsst_mqtt_param_data.user_name username_length
  let packet_offset := (packet_offset + username_length) % 65536
  let packet := packet.store packet_offset ((password_length >>> 8) &&& 0xFF)
  let packet_offset := (packet_offset + 1) % 65536
  let packet := packet.store packet_offset (password_length &&& 0xFF)
  let packet_offset := (packet_offset + 1) % 65536
  let packet := packet.memcpy packet_offset st.gsst_mqtt_param_data.password password_length
  ⟨packet.bytes, packet.oob || fixed_header.oob⟩

/-! ## The receive path -/

/-- The loop `do { digit = *temp_data; value += (digit & 127) * multiplier; multiplier *= 128;
temp_data++; } while ((digit & 128) != 0);` of `mqtt_receive_data_parse`, run on the bytes from
`temp_data` to the end of the buffer with `uint16_t value, multiplier`.  Returns `value`, the
number of bytes read, and whether the loop ran past the end of the buffer. -/
def decode_loop : List Nat → Nat → Nat → Nat → Nat × Nat × Bool
  | [], value, _, count => (value, count, true)
  | digit :: rest, value, multiplier, count =>
      let value := (value + (digit &&& 127) * multiplier) % 65536
      let multiplier := (multiplier * 128) % 65536
      if digit &&& 128 ≠ 0 then decode_loop rest value multiplier (count + 1)
      else (value, count + 1, false)

/-- The locals of `mqtt_receive_data_parse` at the call of `memcpy`. -/
structure ParseLocals where
  remain_bytes : Nat
  src_data_offset : Nat
  value : Nat
  digits_read : Nat
  msg_length : Nat
  ran_off : Bool
deriving DecidableEq, Repr

/-- The body of the `if` of `mqtt_receive_data_parse` up to the `memcpy`, for a buffer whose first
byte has high nibble `0x3`. -/
def parse_locals (src_data : List Nat) : ParseLocals :=
  let remain_bytes :=
    if rd src_data 1 &&& 0x80 = 0x80 then
      if rd src_data 2 &&& 0x80 = 0x80 then
        if rd src_data 3 &&& 0x80 = 0x80 then 4 else 3
      else 2
    else 1
  let src_data_offset := (rd src_data (1 + remain_bytes) <<< 8) % 256
  let src_data_offset := (src_data_offset ||| rd src_data (1 + remain_bytes + 1)) % 256
  let src_data_offset := (src_data_offset + (1 + remain_bytes + 2)) % 256
  let src_data_offset :=
    if (rd src_data 0 &&& 0x06) >>> 1 ≠ 0 then (src_data_offset + 2) % 256
    else src_data_offset
  let loop := decode_loop (src_data.drop 1) 0 1 0
  let value := loop.1
  let msg_length :=
    (((value : Int) - ((src_data_offset : Int) - ((remain_bytes : Int) + 1))) % 65536).toNat
  ⟨remain_bytes, src_data_offset, value, loop.2.1, msg_length,
    loop.2.2 || decide (src_data.length < 1 + remain_bytes + 2)⟩

/-- The function `mqtt_receive_data_parse(src_data, msg_data)`: the returned `msg_length` and
the output buffer `msg_data` after the call. -/
def mqtt_receive_data_parse (src_data : List Nat) (msg_data : Buf) : Nat × Buf :=
  if rd src_data 0 &&& 0xF0 = MQTT_MSG_PUBLISH then
    let l := parse_locals src_data
    let out := msg_data.memcpy 0 (src_data.drop l.src_data_offset) l.msg_length
    (l.msg_length, ⟨out.bytes, out.oob || l.ran_off⟩)
  else (0, msg_data)

/-- The receive buffer `gs_mqtt_rx_buffer` after `memset(.., 0, 1024)` and a `read` that
delivered `data`: at most 1024 bytes of `data`, the rest zero. -/
def rx_buffer_after_read (data : List Nat) : List Nat :=
  data.take MQTT_RX_BUFFER_MAX_LEN ++
    List.replicate (MQTT_RX_BUFFER_MAX_LEN - data.length) 0

/-! ## Auxiliary definitions used in the statements -/

/-- Value of `gs_publish_identifier` after the increment-and-skip-zero of `mqtt_publish`. -/
def next_publish_identifier (cur : Nat) : Nat :=
  if (cur + 1) % 65536 = 0 then 1 else (cur + 1) % 65536

/-- First byte of the PUBLISH fixed header as `mqtt_publish` computes it. -/
def publish_byte0 (retain qos : Nat) : Nat :=
  if retain ≠ 0 then
    (MQTT_MSG_PUBLISH ||| (if qos = 1 then MQTT_QOS1_FLAG else if qos = 2 then MQTT_QOS2_FLAG
      else MQTT_QOS0_FLAG)) ||| MQTT_RETAIN_FLAG
  else MQTT_MSG_PUBLISH ||| (if qos = 1 then MQTT_QOS1_FLAG else if qos = 2 then MQTT_QOS2_FLAG
      else MQTT_QOS0_FLAG)

/-- Remaining-length bytes as the `if (remain_length <= 127) .. else ..` of `mqtt_publish`
writes them. -/
def publish_remain_bytes (remain_length : Nat) : List Nat :=
  if remain_length ≤ 127 then [remain_length % 256]
  else [(remain_length % 128) ||| 0x80, (remain_length / 128) % 256]

/-- Base-128 remaining-length encoding as section 4.1 of the specification words it: emit
`value % 128`, OR'd with `0x80` if more bytes follow, then `value /= 128`, until the value
is `0`.  This is the reference the encoders of the source are compared with. -/
def spec_encode_remaining_length (value : Nat) : List Nat :=
  if h : value / 128 = 0 then [value % 128]
  else ((value % 128) ||| 0x80) :: spec_encode_remaining_length (value / 128)
termination_by value
decreasing_by omega

/-- A call of one of the encoders of the client API. -/
inductive ApiCall where
  | publish (topic msg : List Nat) (msg_len retain qos : Nat)
  | subscribe (topic : List Nat) (qos : Nat)
  | unsubscribe (topic : List Nat)
  | connect
deriving DecidableEq, Repr

/-- Effect of one API call on the globals, and the buffer it hands to `socket_send_data`. -/
def api_step (st : MqttState) : ApiCall → MqttState × Buf
  | .publish topic msg msg_len retain qos => mqtt_publish st topic msg msg_len retain qos
  | .subscribe topic qos => mqtt_subscribe st topic qos
  | .unsubscribe topic => mqtt_unsubscribe st topic
  | .connect => (st, mqtt_connect st)

/-- The globals after a sequence of API calls. -/
def api_run (st : MqttState) : List ApiCall → MqttState
  | [] => st
  | c :: cs => api_run (api_step st c).1 cs

/-- Number of `mqtt_publish` calls with `qos` 1 or 2 in a sequence of calls. -/
def count_publish_qos : List ApiCall → Nat
  | [] => 0
  | .publish _ _ _ _ qos :: cs =>
      (if qos = 1 ∨ qos = 2 then 1 else 0) + count_publish_qos cs
  | _ :: cs => count_publish_qos cs

/-- Number of `mqtt_subscribe` calls in a sequence of calls. -/
def count_subscribe : List ApiCall → Nat
  | [] => 0
  | .subscribe _ _ :: cs => 1 + count_subscribe cs
  | _ :: cs => count_subscribe cs

/-- Number of `mqtt_unsubscribe` calls in a sequence of calls. -/
def count_unsubscribe : List ApiCall → Nat
  | [] => 0
  | .unsubscribe _ :: cs => 1 + count_unsubscribe cs
  | _ :: cs => count_unsubscribe cs

/-- Size of the fixed header found at the start of a packet: the type byte and the
remaining-length bytes the decode loop of `mqtt_receive_data_parse` reads. -/
def fixed_header_length (packet : List Nat) : Nat :=
  1 + (decode_loop (packet.drop 1) 0 1 0).2.1

/-- The `payload_length` of `mqtt_connect` after the two `if`s on the credential lengths. -/
def connect_payload_length (c u p : Nat) : Nat :=
  if p ≠ 0 then
    ((if u ≠ 0 then ((c + 2) % 65536 + (u + 2)) % 65536 else (c + 2) % 65536) + (p + 2)) % 65536
  else if u ≠ 0 then ((c + 2) % 65536 + (u + 2)) % 65536 else (c + 2) % 65536

/-- The `flags` of `mqtt_connect` when the variable header is filled. -/
def connect_flags (u p : Nat) : Nat :=
  (if p ≠ 0 then (if u ≠ 0 then 0x00 ||| MQTT_USERNAME_FLAG else 0x00) ||| MQTT_PASSWORD_FLAG
    else if u ≠ 0 then 0x00 ||| MQTT_USERNAME_FLAG else 0x00) ||| MQTT_CLEAN_SESSION

/-! ## The transport: `socket_send_data` and the calls that send -/

/-- Value of `EINTR` in the Linux `<errno.h>`; no theorem depends on the value. -/
def EINTR : Nat := 4

/-- Value of `EAGAIN` in the Linux `<errno.h>`; no theorem depends on the value. -/
def EAGAIN : Nat := 11

/-- Outcome of one call of `write`: the value assigned to `nwritten` and the value of `errno`
when the call returns. -/
structure WriteOutcome where
  ret : Int
  errno : Nat
deriving DecidableEq, Repr

/-- What a run of `socket_send_data` leaves behind: the returned value (`none` while the loop is
still retrying when the given outcomes are used up), the bytes each successful `write` accepted,
in order, and the outcomes not consumed. -/
structure SendResult where
  ret : Option Int
  chunks : List (List Nat)
  rest : List WriteOutcome
deriving DecidableEq, Repr

/-- The conversion of `return len;` from `uint64_t` to the `int` result. -/
def int_of_uint64 (len : Nat) : Int :=
  if len % 4294967296 < 2147483648 then ((len % 4294967296 : Nat) : Int)
  else ((len % 4294967296 : Nat) : Int) - 4294967296

/-- The loop `while (nleft > 0) { .. }` of `socket_send_data` followed by `return len;`, run
against the outcomes of the successive `write` calls. -/
def socket_send_loop (len : Nat) :
    List WriteOutcome → List Nat → Nat → List (List Nat) → SendResult
  | [], _, nleft, chunks =>
      if nleft > 0 then ⟨none, chunks, []⟩ else ⟨some (int_of_uint64 len), chunks, []⟩
  | o :: os, bufp, nleft, chunks =>
      if nleft > 0 then
        if o.ret ≤ 0 then
          if o.errno = EINTR ∨ o.errno = EAGAIN then
            socket_send_loop len os bufp nleft chunks
          else ⟨some (-1), chunks, os⟩
        else
          socket_send_loop len os (bufp.drop o.ret.toNat)
            ((nleft + 18446744073709551616 - o.ret.toNat % 18446744073709551616)
              % 18446744073709551616)
            (chunks ++ [bufp.take o.ret.toNat])
      else ⟨some (int_of_uint64 len), chunks, o :: os⟩

/-- The function `socket_send_data(fd, buffer, len)`. -/
def socket_send_data (outcomes : List WriteOutcome) (buffer : List Nat) (len : Nat) :
    SendResult :=
  socket_send_loop (len % 18446744073709551616) outcomes buffer (len % 18446744073709551616) []

/-- The call `mqtt_publish(..)` with its transport: the returned value, the new globals and the
run of `socket_send_data` on the packet. -/
def mqtt_publish_send (outcomes : List WriteOutcome) (st : MqttState) (topic msg : List Nat)
    (msg_len retain qos : Nat) : Option Int × MqttState × SendResult :=
  let built := mqtt_publish st topic msg msg_len retain qos
  let sent := socket_send_data outcomes built.2.bytes built.2.bytes.length
  (sent.ret.map (fun r => if r < 0 then -1 else 0), built.1, sent)

/-- The call `mqtt_subscribe(..)` with its transport. -/
def mqtt_subscribe_send (outcomes : List WriteOutcome) (st : MqttState) (topic : List Nat)
    (qos : Nat) : MqttState × SendResult :=
  let built := mqtt_subscribe st topic qos
  (built.1, socket_send_data outcomes built.2.bytes built.2.bytes.length)

/-- The call `mqtt_unsubscribe(..)` with its transport. -/
def mqtt_unsubscribe_send (outcomes : List WriteOutcome) (st : MqttState) (topic : List Nat) :
    MqttState × SendResult :=
  let built := mqtt_unsubscribe st topic
  (built.1, socket_send_data outcomes built.2.bytes built.2.bytes.length)

/-- The call `mqtt_connect()` with its transport (up to the return of `socket_send_data`). -/
def mqtt_connect_send (outcomes : List WriteOutcome) (st : MqttState) : SendResult :=
  socket_send_data outcomes (mqtt_connect st).bytes (mqtt_connect st).bytes.length

/-- The function `mqtt_pingreq()`: the run of `socket_send_data` on `packet[2]`. -/
def mqtt_pingreq (outcomes : List WriteOutcome) : SendResult :=
  socket_send_data outcomes [MQTT_MSG_PINGREQ, 0x00] 2

/-- The function `mqtt_disconnect()`: the run of `socket_send_data` on `packet[2]`, and whether
`socket_deinit(g_sockfd)` is reached. -/
def mqtt_disconnect (outcomes : List WriteOutcome) : SendResult × Bool :=
  let sent := socket_send_data outcomes [MQTT_MSG_DISCONNECT, 0x00] 2
  (sent, match sent.ret with
    | some r => if r < 0 then false else true
    | none => false)

/-- A call of one of the seven sending functions of the client API. -/
inductive ClientCall where
  | publish (topic msg : List Nat) (msg_len retain qos : Nat)
  | subscribe (topic : List Nat) (qos : Nat)
  | unsubscribe (topic : List Nat)
  | connect
  | pingreq
  | disconnect
deriving DecidableEq, Repr

/-- The globals after a call, and the run of `socket_send_data` the call makes. -/
def client_call (outcomes : List WriteOutcome) (st : MqttState) :
    ClientCall → MqttState × SendResult
  | .publish topic msg msg_len retain qos =>
      ((mqtt_publish_send outcomes st topic msg msg_len retain qos).2.1,
        (mqtt_publish_send outcomes st topic msg msg_len retain qos).2.2)
  | .subscribe topic qos => mqtt_subscribe_send outcomes st topic qos
  | .unsubscribe topic => mqtt_unsubscribe_send outcomes st topic
  | .connect => (st, mqtt_connect_send outcomes st)
  | .pingreq => (st, mqtt_pingreq outcomes)
  | .disconnect => (st, (mqtt_disconnect outcomes).1)

/-! ## `mqtt_init` -/

/-- An array after `memset(p, 0, n)`. -/
def memset_zero (n : Nat) : Buf :=
  ⟨List.replicate n 0, false⟩

/-- Result of `mqtt_init`: the globals, the returned value, and whether a copy left its field. -/
structure InitResult where
  state : MqttState
  ret : Int
  oob : Bool
deriving DecidableEq, Repr

/-- The function `mqtt_init(param_data)`; `socket_init_ret` is the value `socket_init()`
returns. -/
def mqtt_init (st : MqttState) (param_data : MqttParamStruct) (socket_init_ret : Int) :
    InitResult :=
  let ipaddr := (memset_zero 32).memcpy 0 param_data.ipaddr (strlen param_data.ipaddr)
  let client_id :=
    (memset_zero 64).memcpy 0 param_data.client_id (strlen param_data.client_id)
  let password := (memset_zero 64).memcpy 0 param_data.password (strlen param_data.password)
  let user_name :=
    (memset_zero 64).memcpy 0 param_data.user_name (strlen param_data.user_name)
  ⟨⟨⟨param_data.keep_alive, param_data.port, ipaddr.bytes, user_name.bytes, client_id.bytes,
        password.bytes⟩,
      st.gs_unsubscribe_identifier, st.gs_subscribe_identifier, st.gs_publish_identifier⟩,
    if socket_init_ret < 0 then -1 else 0,
    ipaddr.oob || client_id.oob || password.oob || user_name.oob⟩

/-! ## The inbound dispatcher -/

/-- What the dispatcher does that can be observed: a line it logs, or a call of the user
callback `mqtt_callback_function(msg_data, msg_len)`. -/
inductive Event where
  | log (message : String)
  | callback (msg_data : Buf) (msg_len : Nat)
deriving DecidableEq, Repr

/-- Modelled from the spec: the macro `PRINT_LOG` is used throughout `mqtt_client.c` but is
defined in none of the source files; the specification only says that these outcomes are
"logged".  It is modelled as the event that records the message. -/
def PRINT_LOG (message : String) : Event :=
  Event.log message

/-- The function `mqtt_receive_ack_code(ack_type, ack_code)`: the lines it logs. -/
def mqtt_receive_ack_code (ack_type ack_code : Nat) : List Event :=
  if ack_type = MQTT_MSG_CONNACK then
    if ack_code = 0x00 then
      [PRINT_LOG ("The connection has been accepted by the server")]
    else if ack_code = 0x01 then
      [PRINT_LOG
        ("The server does not support the MQTT protocol level requested by the client")]
    else if ack_code = 0x02 then
      [PRINT_LOG ("The client identifier is the correct UTF-8 encoding, but is not allowed " ++
        "on the server")]
    else if ack_code = 0x03 then
      [PRINT_LOG ("Network connection established, but MQTT service unavailable")]
    else if ack_code = 0x04 then
      [PRINT_LOG ("The data format of the user name or password is invalid")]
    else if ack_code = 0x05 then
      [PRINT_LOG ("The client is not authorized to connect to this server, and check that " ++
        "the password and so on are correct")]
    else []
  else if ack_type = MQTT_MSG_SUBACK then
    if ack_code = 0x00 then [PRINT_LOG ("The maximum QoS 0")]
    else if ack_code = 0x01 then [PRINT_LOG ("The maximum QoS 1")]
    else if ack_code = 0x02 then [PRINT_LOG ("The maximum QoS 2")]
    else if ack_code = 0x80 then [PRINT_LOG ("mqtt SUBACK error")]
    else []
  else []

/-- The function `mqtt_fasync_callback_function(signal)`: what it logs and the callback calls
it makes.  `read_result` is `none` when `read` returns a negative value, else the bytes that
`read` delivered into the zeroed `gs_mqtt_rx_buffer`. -/
def mqtt_fasync_callback_function (read_result : Option (List Nat)) : List Event :=
  match read_result with
  | none => [PRINT_LOG ("read mqtt ack eeror")]
  | some data =>
    let gs_mqtt_rx_buffer := rx_buffer_after_read data
    let temp_data := memset_zero MQTT_RX_BUFFER_MAX_LEN
    if rd gs_mqtt_rx_buffer 0 = MQTT_MSG_CONNACK then
      PRINT_LOG ("receive mqtt CONNACK ack") ::
        mqtt_receive_ack_code MQTT_MSG_CONNACK (rd gs_mqtt_rx_buffer 3)
    else if rd gs_mqtt_rx_buffer 0 = MQTT_MSG_PUBACK then
      [PRINT_LOG ("receive mqtt PUBACK ack")]
    else if rd gs_mqtt_rx_buffer 0 = MQTT_MSG_PUBREC then
      [PRINT_LOG ("receive mqtt PUBREC ack")]
    else if rd gs_mqtt_rx_buffer 0 = MQTT_MSG_SUBACK then
      PRINT_LOG ("receive mqtt SUBACK ack") ::
        mqtt_receive_ack_code MQTT_MSG_SUBACK (rd gs_mqtt_rx_buffer 4)
    else if rd gs_mqtt_rx_buffer 0 = MQTT_MSG_UNSUBACK then
      [PRINT_LOG ("receive mqtt UNSUBACK ack")]
    else if rd gs_mqtt_rx_buffer 0 = MQTT_MSG_PINGRESP then
      [PRINT_LOG ("receive mqtt PINGRESP ack")]
    else
      [Event.callback (mqtt_receive_data_parse gs_mqtt_rx_buffer temp_data).2
        (mqtt_receive_data_parse gs_mqtt_rx_buffer temp_data).1]

/-- Number of calls of the user callback among the events. -/
def count_callbacks : List Event → Nat
  | [] => 0
  | Event.callback _ _ :: es => 1 + count_callbacks es
  | Event.log _ :: es => count_callbacks es

/-! ## Auxiliary definitions for the send loop -/

/-- A `write` outcome that makes `socket_send_data` give up: a non-positive result with `errno`
neither `EINTR` nor `EAGAIN`. -/
def WriteOutcome.fatal (o : WriteOutcome) : Bool :=
  decide (o.ret ≤ 0) && !(decide (o.errno = EINTR) || decide (o.errno = EAGAIN))

/-- Number of bytes the outcomes with a positive result accepted. -/
def accepted_bytes : List WriteOutcome → Nat
  | [] => 0
  | o :: os => (if 0 < o.ret then o.ret.toNat else 0) + accepted_bytes os

/-- Every `write` that is reached while `nleft` bytes are still to be sent accepts at most the
bytes left. -/
def outcomes_fit : List WriteOutcome → Nat → Bool
  | [], _ => true
  | o :: os, nleft =>
      if nleft = 0 then true
      else if 0 < o.ret then decide (o.ret.toNat ≤ nleft) && outcomes_fit os (nleft - o.ret.toNat)
      else if o.fatal then true
      else outcomes_fit os nleft

/-- Some `write` fails with a fatal outcome while fewer than `n` bytes have been accepted by the
writes before it, none of which is fatal. -/
def fatal_before_flush (outs : List WriteOutcome) (n : Nat) : Prop :=
  ∃ pre o post, outs = pre ++ o :: post ∧ o.fatal = true ∧ (∀ x ∈ pre, x.fatal = false) ∧
    accepted_bytes pre < n

/-! ## Auxiliary definitions for the remaining-length field of a received packet -/

/-- Whether `field` is a complete remaining-length field: every byte but the last has its high
bit set (the continuation bit), the last one has it clear. -/
def remaining_length_field : List Nat → Bool
  | [] => false
  | d :: [] => decide (d < 128)
  | d :: e :: rest => decide (128 ≤ d ∧ d < 256) && remaining_length_field (e :: rest)

/-- Base-128 value of a remaining-length field: the low seven bits of each byte, least
significant group first. -/
def base128_value : List Nat → Nat
  | [] => 0
  | d :: rest => d % 128 + 128 * base128_value rest

/-! ## Lemmas on the memory model -/

theorem strlen_of_nul_free (s : List Nat) (h : ∀ b ∈ s, b ≠ 0) : strlen s = s.length := by
  unfold strlen
  have hs : s.takeWhile (fun b => b != 0) = s := by
    rw [List.takeWhile_eq_self_iff]
    intro x hx
    simpa using h x hx
  rw [hs]

theorem strlen_le_length (s : List Nat) : strlen s ≤ s.length := by
  unfold strlen
  exact (List.takeWhile_sublist _).length_le

theorem strlen_lt_of_mem_zero (s : List Nat) (h : 0 ∈ s) : strlen s < s.length := by
  induction s with
  | nil => simp at h
  | cons a t ih =>
    unfold strlen at ih ⊢
    by_cases ha : a = 0
    · subst ha
      simp [List.takeWhile]
    · have ht : 0 ∈ t := by
        rcases List.mem_cons.mp h with h0 | h0
        · exact absurd h0.symm ha
        · exact h0
      have := ih ht
      have hb : (a != 0) = true := by simpa using ha
      simp only [List.takeWhile, hb, List.length_cons]
      omega

theorem store_length (b : Buf) (i v : Nat) : (b.store i v).bytes.length = b.bytes.length := by
  unfold Buf.store
  split <;> simp

theorem storeList_length (xs : List Nat) :
    ∀ (b : Buf) (off : Nat), (b.storeList off xs).bytes.length = b.bytes.length := by
  induction xs with
  | nil => intro b off; rfl
  | cons x xs ih =>
    intro b off
    show ((b.store off x).storeList (off + 1) xs).bytes.length = _
    rw [ih, store_length]

theorem memcpy_length (b : Buf) (off : Nat) (src : List Nat) (n : Nat) :
    (b.memcpy off src n).bytes.length = b.bytes.length := by
  unfold Buf.memcpy
  exact storeList_length _ _ _

/-- A store at index `i` leaves the first `k ≤ i` bytes as they were. -/
theorem store_take (b : Buf) (i v k : Nat) (h : k ≤ i) :
    (b.store i v).bytes.take k = b.bytes.take k := by
  unfold Buf.store
  split
  · rcases Nat.eq_or_lt_of_le h with h1 | h1
    · subst h1
      simp [List.set_eq_take_append_cons_drop, *]
      rw [List.take_append_of_le_length (by simp; omega)]
      simp
    · exact List.take_set_of_lt _ _ h1
  · rfl

theorem storeList_take (xs : List Nat) :
    ∀ (b : Buf) (off k : Nat), k ≤ off →
      (b.storeList off xs).bytes.take k = b.bytes.take k := by
  induction xs with
  | nil => intro b off k _; rfl
  | cons x xs ih =>
    intro b off k h
    show ((b.store off x).storeList (off + 1) xs).bytes.take k = _
    rw [ih _ _ _ (by omega), store_take _ _ _ _ h]

theorem memcpy_take (b : Buf) (off : Nat) (src : List Nat) (n k : Nat) (h : k ≤ off) :
    (b.memcpy off src n).bytes.take k = b.bytes.take k := by
  unfold Buf.memcpy
  exact storeList_take _ _ _ _ h

/-- Writing `xs` right behind the bytes `w` already written into a zeroed object. -/
theorem storeList_seq (xs : List Nat) :
    ∀ (w : List Nat) (k : Nat) (o : Bool) (off : Nat), off = w.length → xs.length ≤ k →
      Buf.storeList ⟨w ++ List.replicate k 0, o⟩ off xs
        = ⟨(w ++ xs) ++ List.replicate (k - xs.length) 0, o⟩ := by
  induction xs with
  | nil => intro w k o off _ _; simp [Buf.storeList]
  | cons x xs ih =>
    intro w k o off hoff hk
    subst hoff
    simp only [List.length_cons] at hk
    obtain ⟨k', rfl⟩ : ∃ k', k = k' + 1 := ⟨k - 1, by omega⟩
    have hst : Buf.store ⟨w ++ List.replicate (k' + 1) 0, o⟩ w.length x
        = ⟨(w ++ [x]) ++ List.replicate k' 0, o⟩ := by
      unfold Buf.store
      simp [List.set_append_right, List.replicate_succ]
    show Buf.storeList (Buf.store _ _ x) (w.length + 1) xs = _
    rw [hst, ih (w ++ [x]) k' o (w.length + 1) (by simp) (by omega)]
    simp only [List.length_cons, List.append_assoc, List.singleton_append, Buf.mk.injEq,
      and_true, List.append_cancel_left_eq, List.cons.injEq, true_and]
    congr 1
    omega

theorem store_seq (w : List Nat) (k : Nat) (o : Bool) (off v : Nat) (hoff : off = w.length)
    (hk : 1 ≤ k) :
    Buf.store ⟨w ++ List.replicate k 0, o⟩ off v
      = ⟨(w ++ [v]) ++ List.replicate (k - 1) 0, o⟩ :=
  storeList_seq [v] w k o off hoff hk

theorem memcpy_seq (w src : List Nat) (k n : Nat) (o : Bool) (off : Nat) (hoff : off = w.length)
    (hn : n ≤ src.length) (hk : n ≤ k) :
    Buf.memcpy ⟨w ++ List.replicate k 0, o⟩ off src n
      = ⟨(w ++ src.take n) ++ List.replicate (k - n) 0, o⟩ := by
  unfold Buf.memcpy
  have hl : (src.take n).length = n := by simp [hn]
  rw [storeList_seq _ w k o off hoff (by omega), hl]
  simp
  omega

theorem malloc_eq (n : Nat) : malloc n = ⟨[] ++ List.replicate n 0, false⟩ := rfl

/-! ## Layout of the packet built by `mqtt_publish` -/

theorem fixed_header_short (b0 r : Nat) :
    ((malloc 2).store 0 b0).store 1 r = ⟨[b0, r], false⟩ := by
  simp [malloc, Buf.store, List.replicate]

theorem fixed_header_long (b0 r1 r1' r2 : Nat) :
    ((((malloc 3).store 0 b0).store 1 r1).store 1 r1').store 2 r2 = ⟨[b0, r1', r2], false⟩ := by
  simp [malloc, Buf.store, List.replicate]

theorem header_topic (topic : List Nat) (a b extra : Nat) :
    (((malloc (2 + topic.length + extra)).store 0 a).store 1 b).memcpy 2 topic topic.length
      = ⟨([] ++ [a] ++ [b] ++ topic) ++ List.replicate extra 0, false⟩ := by
  rw [malloc_eq, store_seq _ _ _ _ _ (by simp) (by omega),
    store_seq _ _ _ _ _ (by simp) (by omega),
    memcpy_seq _ _ _ _ _ _ (by simp) (by simp) (by omega)]
  simp
  omega

theorem packet_assemble (fh vh msg : List Nat) (f v m : Nat) (hf : fh.length = f)
    (hv : vh.length = v) (hm : m ≤ msg.length) :
    (((malloc (f + v + m)).memcpy 0 fh f).memcpy f vh v).memcpy (f + v) msg m
      = ⟨fh ++ vh ++ msg.take m, false⟩ := by
  subst hf hv
  rw [malloc_eq, memcpy_seq _ _ _ _ _ _ (by simp) (by simp) (by omega),
    memcpy_seq _ _ _ _ _ _ (by simp) (by simp) (by omega),
    memcpy_seq _ _ _ _ _ _ (by simp) hm (by omega)]
  simp
  omega

theorem header_topic_id (topic : List Nat) (a b c d : Nat) :
    (((((malloc (2 + topic.length + 2)).store 0 a).store 1 b).memcpy 2 topic
      topic.length).store (topic.length + 2) c).store (topic.length + 3) d
      = ⟨a :: b :: topic ++ [c, d], false⟩ := by
  rw [header_topic, store_seq _ _ _ _ _ (by simp) (by omega),
    store_seq _ _ _ _ _ (by simp) (by omega)]
  simp

theorem header_topic_only (topic : List Nat) (a b : Nat) :
    (((malloc (2 + topic.length + 0)).store 0 a).store 1 b).memcpy 2 topic topic.length
      = ⟨a :: b :: topic, false⟩ := by
  rw [header_topic]
  simp

theorem publish_layout (st : MqttState) (topic msg : List Nat) (msg_len retain qos : Nat)
    (hnul : ∀ b ∈ topic, b ≠ 0)
    (hvh : 2 + topic.length + (if qos = 1 ∨ qos = 2 then 2 else 0) ≤ 255)
    (hmsg : msg_len ≤ msg.length)
    (hN : 2 + topic.length + (if qos = 1 ∨ qos = 2 then 2 else 0) + msg_len ≤ 65532) :
    mqtt_publish st topic msg msg_len retain qos =
      (⟨st.gsst_mqtt_param_data, st.gs_unsubscribe_identifier, st.gs_subscribe_identifier,
          if qos = 1 ∨ qos = 2 then next_publish_identifier st.gs_publish_identifier
          else st.gs_publish_identifier⟩,
        ⟨publish_byte0 retain qos ::
          (publish_remain_bytes
              (2 + topic.length + (if qos = 1 ∨ qos = 2 then 2 else 0) + msg_len) ++
            ((topic.length >>> 8) &&& 0xFF) :: (topic.length &&& 0xFF) :: topic ++
            (if qos = 1 ∨ qos = 2 then
              [(next_publish_identifier st.gs_publish_identifier >>> 8) &&& 0xFF,
                next_publish_identifier st.gs_publish_identifier &&& 0xFF]
             else []) ++ msg.take msg_len), false⟩) := by
  have hs := strlen_of_nul_free topic hnul
  have h1 : topic.length % 65536 = topic.length := Nat.mod_eq_of_lt (by omega)
  unfold mqtt_publish publish_byte0 publish_remain_bytes next_publish_identifier
  simp only [hs, h1]
  by_cases hq1 : qos = 1
  · subst hq1
    simp only [if_true, ne_eq, OfNat.ofNat_ne_zero, not_false_eq_true, true_or] at hvh hN ⊢
    have h2 : (2 + topic.length + 2) % 256 = 2 + topic.length + 2 := Nat.mod_eq_of_lt (by omega)
    have h3 : (2 + topic.length + 2 + msg_len) % 65536 = 2 + topic.length + 2 + msg_len :=
      Nat.mod_eq_of_lt (by omega)
    simp only [h2, h3, header_topic_id]
    by_cases hR : 2 + topic.length + 2 + msg_len ≤ 127
    · have hR' : ¬ (2 + topic.length + 2 + msg_len > 127) := by omega
      have h4 : (2 + (2 + topic.length + 2) + msg_len) % 65536
          = 2 + (2 + topic.length + 2) + msg_len := Nat.mod_eq_of_lt (by omega)
      simp only [hR, hR', if_true, if_false, h4, fixed_header_short]
      rw [packet_assemble _ _ _ _ _ _ (by simp) (by simp; omega) hmsg]
      simp
    · have hR' : (2 + topic.length + 2 + msg_len > 127) := by omega
      have h4 : (3 + (2 + topic.length + 2) + msg_len) % 65536
          = 3 + (2 + topic.length + 2) + msg_len := Nat.mod_eq_of_lt (by omega)
      simp only [hR, hR', if_true, if_false, h4, fixed_header_long]
      rw [packet_assemble _ _ _ _ _ _ (by simp) (by simp; omega) hmsg]
      simp
  by_cases hq2 : qos = 2
  · subst hq2
    simp only [if_true, if_false, ne_eq, OfNat.ofNat_ne_zero, not_false_eq_true, or_true,
      OfNat.ofNat_ne_one] at hvh hN ⊢
    have h2 : (2 + topic.length + 2) % 256 = 2 + topic.length + 2 := Nat.mod_eq_of_lt (by omega)
    have h3 : (2 + topic.length + 2 + msg_len) % 65536 = 2 + topic.length + 2 + msg_len :=
      Nat.mod_eq_of_lt (by omega)
    simp only [h2, h3, header_topic_id]
    by_cases hR : 2 + topic.length + 2 + msg_len ≤ 127
    · have hR' : ¬ (2 + topic.length + 2 + msg_len > 127) := by omega
      have h4 : (2 + (2 + topic.length + 2) + msg_len) % 65536
          = 2 + (2 + topic.length + 2) + msg_len := Nat.mod_eq_of_lt (by omega)
      simp only [hR, hR', if_true, if_false, h4, fixed_header_short]
      rw [packet_assemble _ _ _ _ _ _ (by simp) (by simp; omega) hmsg]
      simp
    · have hR' : (2 + topic.length + 2 + msg_len > 127) := by omega
      have h4 : (3 + (2 + topic.length + 2) + msg_len) % 65536
          = 3 + (2 + topic.length + 2) + msg_len := Nat.mod_eq_of_lt (by omega)
      simp only [hR, hR', if_true, if_false, h4, fixed_header_long]
      rw [packet_assemble _ _ _ _ _ _ (by simp) (by simp; omega) hmsg]
      simp
  · simp only [hq1, hq2, if_false, or_self, ne_eq, not_true_eq_false] at hvh hN ⊢
    have h2 : (2 + topic.length + 0) % 256 = 2 + topic.length + 0 := Nat.mod_eq_of_lt (by omega)
    have h3 : (2 + topic.length + 0 + msg_len) % 65536 = 2 + topic.length + 0 + msg_len :=
      Nat.mod_eq_of_lt (by omega)
    simp only [h2, h3, header_topic_only]
    by_cases hR : 2 + topic.length + 0 + msg_len ≤ 127
    · have hR' : ¬ (2 + topic.length + 0 + msg_len > 127) := by omega
      have h4 : (2 + (2 + topic.length + 0) + msg_len) % 65536
          = 2 + (2 + topic.length + 0) + msg_len := Nat.mod_eq_of_lt (by omega)
      simp only [hR, hR', if_true, if_false, h4, fixed_header_short]
      rw [packet_assemble _ _ _ _ _ _ (by simp) (by simp; omega) hmsg]
      simp
    · have hR' : (2 + topic.length + 0 + msg_len > 127) := by omega
      have h4 : (3 + (2 + topic.length + 0) + msg_len) % 65536
          = 3 + (2 + topic.length + 0) + msg_len := Nat.mod_eq_of_lt (by omega)
      simp only [hR, hR', if_true, if_false, h4, fixed_header_long]
      rw [packet_assemble _ _ _ _ _ _ (by simp) (by simp; omega) hmsg]
      simp

/-! ## Bit-level facts -/

theorem and_255 (x : Nat) : x &&& 0xFF = x % 256 := Nat.and_pow_two_sub_one_eq_mod x 8

theorem shr8_and_255 (x : Nat) : (x >>> 8) &&& 0xFF = x / 256 % 256 := by
  rw [and_255, Nat.shiftRight_eq_div_pow]

theorem bits_lt_128 : ∀ x < 128, x &&& 128 = 0 ∧ x &&& 127 = x ∧
    (x ||| 128) &&& 128 = 128 ∧ (x ||| 128) &&& 127 = x ∧ (x ||| 128) = x + 128 := by
  decide

theorem spec_encode_one (n : Nat) (h : n ≤ 127) : spec_encode_remaining_length n = [n] := by
  rw [spec_encode_remaining_length]
  have h1 : n / 128 = 0 := Nat.div_eq_of_lt (by omega)
  have h2 : n % 128 = n := Nat.mod_eq_of_lt (by omega)
  simp [h1, h2]

theorem spec_encode_two (n : Nat) (h : 127 < n) (h' : n ≤ 16383) :
    spec_encode_remaining_length n = [(n % 128) ||| 0x80, n / 128] := by
  rw [spec_encode_remaining_length]
  have h1 : ¬ (n / 128 = 0) := by omega
  rw [dif_neg h1, spec_encode_one (n / 128) (by omega)]

theorem spec_encode_eq_publish (n : Nat) (h : n ≤ 16383) :
    spec_encode_remaining_length n = publish_remain_bytes n := by
  unfold publish_remain_bytes
  by_cases h1 : n ≤ 127
  · rw [if_pos h1, spec_encode_one n h1, Nat.mod_eq_of_lt (show n < 256 by omega)]
  · rw [if_neg h1, spec_encode_two n (by omega) h,
      Nat.mod_eq_of_lt (show n / 128 < 256 by omega)]

theorem publish_byte0_eq (retain qos : Nat) (hq : qos = 0 ∨ qos = 1 ∨ qos = 2) :
    publish_byte0 retain qos = 0x30 ||| (qos <<< 1) ||| (if retain ≠ 0 then 1 else 0) := by
  unfold publish_byte0
  rcases hq with h | h | h <;> subst h <;> by_cases hr : retain = 0 <;> simp [hr] <;> decide

theorem publish_byte0_bits (retain qos : Nat) :
    publish_byte0 retain qos &&& 0xF0 = MQTT_MSG_PUBLISH ∧
    ((publish_byte0 retain qos &&& 0x06) >>> 1 ≠ 0 ↔ (qos = 1 ∨ qos = 2)) := by
  unfold publish_byte0
  by_cases h1 : qos = 1
  · subst h1; by_cases hr : retain = 0 <;> simp [hr] <;> decide
  · by_cases h2 : qos = 2
    · subst h2; by_cases hr : retain = 0 <;> simp [hr] <;> decide
    · by_cases hr : retain = 0 <;> simp [hr, h1, h2] <;> decide

/-! ## The receive parser on a well-formed PUBLISH packet -/

theorem storeList_fits (xs : List Nat) :
    ∀ (b : Buf) (off : Nat), off + xs.length ≤ b.bytes.length →
      b.storeList off xs = ⟨b.bytes.take off ++ xs ++ b.bytes.drop (off + xs.length), b.oob⟩ := by
  induction xs with
  | nil => intro b off _; simp [Buf.storeList]
  | cons x xs ih =>
    intro b off h
    simp only [List.length_cons] at h
    have hlt : off < b.bytes.length := by omega
    show (b.store off x).storeList (off + 1) xs = _
    rw [ih _ _ (by rw [store_length]; omega)]
    simp only [Buf.store, if_pos hlt, List.set_eq_take_append_cons_drop, List.length_cons]
    have e1 : List.take (off + 1) (List.take off b.bytes ++ x :: List.drop (off + 1) b.bytes)
        = List.take off b.bytes ++ [x] := by
      rw [List.take_append_eq_append_take]
      simp [List.length_take, Nat.min_eq_left (Nat.le_of_lt hlt)]
    have e2 : List.drop (off + 1 + xs.length)
        (List.take off b.bytes ++ x :: List.drop (off + 1) b.bytes)
        = List.drop (off + (xs.length + 1)) b.bytes := by
      rw [List.drop_append_eq_append_drop]
      simp [List.length_take, Nat.min_eq_left (Nat.le_of_lt hlt)]
      have : off + 1 + xs.length - off = (xs.length + 1) := by omega
      rw [List.drop_eq_nil_of_le (by simp; omega), this]
      simp [List.drop_drop]
      congr 1
      omega
    rw [e1, e2]
    simp

theorem memcpy_fits (dst : Buf) (src : List Nat) (n : Nat) (hn : n ≤ src.length)
    (hd : n ≤ dst.bytes.length) :
    dst.memcpy 0 src n = ⟨src.take n ++ dst.bytes.drop n, dst.oob⟩ := by
  unfold Buf.memcpy
  have hl : (src.take n).length = n := by simp [hn]
  rw [storeList_fits _ _ _ (by omega), hl]
  simp
  omega

theorem decode_loop_last (d : Nat) (rest : List Nat) (v m c : Nat) (h : d &&& 128 = 0) :
    decode_loop (d :: rest) v m c = ((v + (d &&& 127) * m) % 65536, c + 1, false) := by
  simp [decode_loop, h]

theorem decode_loop_more (d : Nat) (rest : List Nat) (v m c : Nat) (h : d &&& 128 ≠ 0) :
    decode_loop (d :: rest) v m c
      = decode_loop rest ((v + (d &&& 127) * m) % 65536) ((m * 128) % 65536) (c + 1) := by
  simp [decode_loop, h]

theorem drop_header_short (b0 n z t : Nat) (topic ids tail : List Nat) (k : Nat)
    (hk : k = topic.length + 4 + ids.length) :
    List.drop k (b0 :: n :: z :: t :: (topic ++ (ids ++ tail))) = tail := by
  subst hk
  have : topic.length + 4 + ids.length = (topic.length + ids.length) + 4 := by omega
  rw [this]
  simp only [List.drop_succ_cons]
  rw [← List.append_assoc, ← List.length_append, List.drop_left]

theorem parse_short (b0 n t : Nat) (topic ids payload rest : List Nat) (dst : Buf)
    (hb0 : b0 &&& 0xF0 = MQTT_MSG_PUBLISH)
    (hids : ids.length = if (b0 &&& 0x06) >>> 1 ≠ 0 then 2 else 0)
    (ht : topic.length = t)
    (hn : n = 2 + t + ids.length + payload.length) (hn' : n ≤ 127)
    (hdst : payload.length ≤ dst.bytes.length) :
    mqtt_receive_data_parse (b0 :: n :: 0 :: t :: (topic ++ (ids ++ (payload ++ rest)))) dst
      = (payload.length, ⟨payload ++ dst.bytes.drop payload.length, dst.oob⟩) := by
  obtain ⟨hb1, hb2, -, -, -⟩ := bits_lt_128 n (by omega)
  have hloop : decode_loop (List.drop 1 (b0 :: n :: 0 :: t :: (topic ++ (ids ++ (payload ++ rest)))))
      0 1 0 = (n, 1, false) := by
    rw [List.drop_succ_cons, List.drop_zero, decode_loop_last _ _ _ _ _ hb1, hb2]
    simp
    omega
  have hoff : (0 <<< 8 % 256 ||| t) % 256 = t := by
    simp
    omega
  have hlen : ¬ ((b0 :: n :: 0 :: t :: (topic ++ (ids ++ (payload ++ rest)))).length < 1 + 1 + 2) := by
    simp
  unfold mqtt_receive_data_parse parse_locals
  simp only [hloop, hlen]
  simp only [rd, List.getD_cons_zero, List.getD_cons_succ, hb0, if_true, hb1,
    show (0 : Nat) ≠ 0x80 from by decide, if_false, hoff,
    show (1 : Nat) + 1 = 2 from rfl, show (1 : Nat) + 1 + 1 = 3 from rfl,
    show ((0 : Nat) = 0x80) = False from by simp]
  by_cases hq : (b0 &&& 0x06) >>> 1 ≠ 0
  · rw [if_pos hq] at hids
    have h1 : ((t + (2 + 2)) % 256 + 2) % 256 = topic.length + 4 + ids.length := by omega
    simp only [if_pos hq, h1]
    have h2 : ((((n : Nat) : Int) - (((topic.length + 4 + ids.length : Nat) : Int)
        - (((1 : Nat) : Int) + 1))) % 65536).toNat = payload.length := by omega
    rw [h2, drop_header_short _ _ _ _ _ _ _ _ rfl,
      memcpy_fits _ _ _ (by simp) hdst]
    simp
  · rw [if_neg hq] at hids
    have h1 : (t + (2 + 2)) % 256 = topic.length + 4 + ids.length := by omega
    simp only [if_neg hq, h1]
    have h2 : ((((n : Nat) : Int) - (((topic.length + 4 + ids.length : Nat) : Int)
        - (((1 : Nat) : Int) + 1))) % 65536).toNat = payload.length := by omega
    rw [h2, drop_header_short _ _ _ _ _ _ _ _ rfl,
      memcpy_fits _ _ _ (by simp) hdst]
    simp

theorem decode_loop_two (n : Nat) (rest : List Nat) (h : 127 < n) (h' : n ≤ 16383) :
    decode_loop (((n % 128) ||| 0x80) :: (n / 128) :: rest) 0 1 0 = (n, 2, false) := by
  obtain ⟨-, -, hc1, hc2, -⟩ := bits_lt_128 (n % 128) (Nat.mod_lt _ (by decide))
  obtain ⟨hd1, hd2, -, -, -⟩ := bits_lt_128 (n / 128) (by omega)
  rw [decode_loop_more _ _ _ _ _ (by rw [hc1]; decide), decode_loop_last _ _ _ _ _ hd1, hc2, hd2]
  simp
  omega

theorem drop_header_long (b0 r1 r2 z t : Nat) (topic ids tail : List Nat) (k : Nat)
    (hk : k = topic.length + 5 + ids.length) :
    List.drop k (b0 :: r1 :: r2 :: z :: t :: (topic ++ (ids ++ tail))) = tail := by
  subst hk
  have : topic.length + 5 + ids.length = (topic.length + ids.length) + 5 := by omega
  rw [this]
  simp only [List.drop_succ_cons]
  rw [← List.append_assoc, ← List.length_append, List.drop_left]

theorem parse_long (b0 n t : Nat) (topic ids payload rest : List Nat) (dst : Buf)
    (hb0 : b0 &&& 0xF0 = MQTT_MSG_PUBLISH)
    (hids : ids.length = if (b0 &&& 0x06) >>> 1 ≠ 0 then 2 else 0)
    (ht : topic.length = t) (ht' : t + 5 + ids.length ≤ 255)
    (hn : n = 2 + t + ids.length + payload.length) (hn' : 127 < n) (hn'' : n ≤ 16383)
    (hdst : payload.length ≤ dst.bytes.length) :
    mqtt_receive_data_parse
        (b0 :: ((n % 128) ||| 0x80) :: (n / 128) :: 0 :: t ::
          (topic ++ (ids ++ (payload ++ rest)))) dst
      = (payload.length, ⟨payload ++ dst.bytes.drop payload.length, dst.oob⟩) := by
  obtain ⟨-, -, hc1, -, -⟩ := bits_lt_128 (n % 128) (Nat.mod_lt _ (by decide))
  obtain ⟨hd1, -, -, -, -⟩ := bits_lt_128 (n / 128) (by omega)
  have hloop : decode_loop (List.drop 1 (b0 :: ((n % 128) ||| 0x80) :: (n / 128) :: 0 :: t ::
      (topic ++ (ids ++ (payload ++ rest))))) 0 1 0 = (n, 2, false) := by
    rw [List.drop_succ_cons, List.drop_zero, decode_loop_two _ _ hn' hn'']
  have hoff : (0 <<< 8 % 256 ||| t) % 256 = t := by
    simp
    omega
  have hlen : ¬ ((b0 :: ((n % 128) ||| 0x80) :: (n / 128) :: 0 :: t ::
      (topic ++ (ids ++ (payload ++ rest)))).length < 1 + 2 + 2) := by
    simp
  unfold mqtt_receive_data_parse parse_locals
  simp only [hloop, hlen]
  simp only [rd, List.getD_cons_zero, List.getD_cons_succ, hb0, if_true, hc1, hd1,
    show (0 : Nat) ≠ 0x80 from by decide, if_false, hoff,
    show (1 : Nat) + 2 = 3 from rfl, show (1 : Nat) + 2 + 1 = 4 from rfl,
    show ((0 : Nat) = 0x80) = False from by simp]
  by_cases hq : (b0 &&& 0x06) >>> 1 ≠ 0
  · rw [if_pos hq] at hids
    have h1 : ((t + (3 + 2)) % 256 + 2) % 256 = topic.length + 5 + ids.length := by omega
    simp only [if_pos hq, h1]
    have h2 : ((((n : Nat) : Int) - (((topic.length + 5 + ids.length : Nat) : Int)
        - (((2 : Nat) : Int) + 1))) % 65536).toNat = payload.length := by omega
    rw [h2, drop_header_long _ _ _ _ _ _ _ _ _ rfl,
      memcpy_fits _ _ _ (by simp) hdst]
    simp
  · rw [if_neg hq] at hids
    have h1 : (t + (3 + 2)) % 256 = topic.length + 5 + ids.length := by omega
    simp only [if_neg hq, h1]
    have h2 : ((((n : Nat) : Int) - (((topic.length + 5 + ids.length : Nat) : Int)
        - (((2 : Nat) : Int) + 1))) % 65536).toNat = payload.length := by omega
    rw [h2, drop_header_long _ _ _ _ _ _ _ _ _ rfl,
      memcpy_fits _ _ _ (by simp) hdst]
    simp

theorem rx_buffer_of_short (data : List Nat) (h : data.length ≤ 1024) :
    rx_buffer_after_read data = data ++ List.replicate (1024 - data.length) 0 := by
  unfold rx_buffer_after_read MQTT_RX_BUFFER_MAX_LEN
  rw [List.take_of_length_le h]

theorem next_publish_identifier_bounds (cur : Nat) :
    0 < next_publish_identifier cur ∧ next_publish_identifier cur < 65536 := by
  unfold next_publish_identifier
  split <;> omega

/-! ## Layout of the SUBSCRIBE and UNSUBSCRIBE packets -/

theorem subscribe_layout (st : MqttState) (topic : List Nat) (qos : Nat)
    (hnul : ∀ b ∈ topic, b ≠ 0) (hlen : topic.length ≤ 252) :
    mqtt_subscribe st topic qos =
      (⟨st.gsst_mqtt_param_data, st.gs_unsubscribe_identifier,
          (st.gs_subscribe_identifier + 1) % 65536, st.gs_publish_identifier⟩,
        ⟨MQTT_MSG_SUBSCRIBE :: ((topic.length + 5) % 256) ::
          ((st.gs_subscribe_identifier >>> 8) &&& 0xFF) ::
          (st.gs_subscribe_identifier &&& 0xFF) ::
          ((topic.length >>> 8) &&& 0xFF) :: (topic.length &&& 0xFF) :: (topic ++ [qos]),
          false⟩) := by
  have hs := strlen_of_nul_free topic hnul
  have h1 : topic.length % 4294967296 = topic.length := Nat.mod_eq_of_lt (by omega)
  have h2 : (2 + topic.length + 1) % 256 = 2 + topic.length + 1 := Nat.mod_eq_of_lt (by omega)
  have h3 : (2 + 2 + topic.length + 1) % 65536 % 256 = (topic.length + 5) % 256 := by omega
  have h4 : (2 + 2 + (2 + topic.length + 1)) % 4294967296 = 2 + 2 + (2 + topic.length + 1) :=
    Nat.mod_eq_of_lt (by omega)
  unfold mqtt_subscribe
  simp only [hs, h1, h2, h3, h4, fixed_header_short, header_topic]
  rw [store_seq _ _ _ _ _ (by simp; omega) (by omega),
    packet_assemble _ _ _ _ _ _ (by simp) (by simp) (by simp; omega)]
  simp
  omega

theorem unsubscribe_layout (st : MqttState) (topic : List Nat)
    (hnul : ∀ b ∈ topic, b ≠ 0) (hlen : topic.length ≤ 253) :
    mqtt_unsubscribe st topic =
      (⟨st.gsst_mqtt_param_data, (st.gs_unsubscribe_identifier + 1) % 65536,
          st.gs_subscribe_identifier, st.gs_publish_identifier⟩,
        ⟨MQTT_MSG_UNSUBSCRIBE :: ((topic.length + 4) % 256) ::
          ((st.gs_unsubscribe_identifier >>> 8) &&& 0xFF) ::
          (st.gs_unsubscribe_identifier &&& 0xFF) ::
          ((topic.length >>> 8) &&& 0xFF) :: (topic.length &&& 0xFF) :: topic, false⟩) := by
  have hs := strlen_of_nul_free topic hnul
  have h1 : topic.length % 4294967296 = topic.length := Nat.mod_eq_of_lt (by omega)
  have h2 : (2 + topic.length) % 256 = 2 + topic.length + 0 := by omega
  have h3 : (2 + 2 + topic.length) % 65536 % 256 = (topic.length + 4) % 256 := by omega
  have h4 : (2 + 2 + (2 + topic.length + 0)) % 4294967296 = 2 + 2 + (2 + topic.length + 0) :=
    Nat.mod_eq_of_lt (by omega)
  unfold mqtt_unsubscribe
  simp only [hs, h1, h2, h3, h4, fixed_header_short, header_topic_only]
  rw [packet_assemble _ _ _ _ _ _ (by simp) (by simp) (by simp; omega)]
  simp
  omega

/-! ## The identifier counters along a sequence of calls -/

theorem publish_state (st : MqttState) (topic msg : List Nat) (msg_len retain qos : Nat) :
    (mqtt_publish st topic msg msg_len retain qos).1 =
      ⟨st.gsst_mqtt_param_data, st.gs_unsubscribe_identifier, st.gs_subscribe_identifier,
        if qos = 1 ∨ qos = 2 then next_publish_identifier st.gs_publish_identifier
        else st.gs_publish_identifier⟩ := by
  unfold mqtt_publish next_publish_identifier
  by_cases h1 : qos = 1
  · simp [h1]
  · by_cases h2 : qos = 2
    · simp [h2]
    · simp [h1, h2]

theorem subscribe_state (st : MqttState) (topic : List Nat) (qos : Nat) :
    (mqtt_subscribe st topic qos).1 =
      ⟨st.gsst_mqtt_param_data, st.gs_unsubscribe_identifier,
        (st.gs_subscribe_identifier + 1) % 65536, st.gs_publish_identifier⟩ := rfl

theorem unsubscribe_state (st : MqttState) (topic : List Nat) :
    (mqtt_unsubscribe st topic).1 =
      ⟨st.gsst_mqtt_param_data, (st.gs_unsubscribe_identifier + 1) % 65536,
        st.gs_subscribe_identifier, st.gs_publish_identifier⟩ := rfl

theorem next_publish_identifier_step (k : Nat) :
    next_publish_identifier (if k = 0 then 0 else (k - 1) % 65535 + 1)
      = (if k + 1 = 0 then 0 else (k + 1 - 1) % 65535 + 1) := by
  unfold next_publish_identifier
  by_cases hk : k = 0
  · subst hk
    decide
  · obtain ⟨j, rfl⟩ : ∃ j, k = j + 1 := ⟨k - 1, by omega⟩
    simp only [Nat.add_sub_cancel, Nat.succ_ne_zero, if_false]
    split <;> omega

theorem api_run_publish_identifier (calls : List ApiCall) :
    ∀ (st : MqttState) (k : Nat),
      st.gs_publish_identifier = (if k = 0 then 0 else (k - 1) % 65535 + 1) →
      (api_run st calls).gs_publish_identifier
        = (if k + count_publish_qos calls = 0 then 0
            else (k + count_publish_qos calls - 1) % 65535 + 1) := by
  induction calls with
  | nil => intro st k h; simpa [api_run, count_publish_qos] using h
  | cons c cs ih =>
    intro st k h
    cases c with
    | publish topic msg msg_len retain qos =>
      by_cases hq : qos = 1 ∨ qos = 2
      · have := ih (mqtt_publish st topic msg msg_len retain qos).1 (k + 1)
          (by rw [publish_state, if_pos hq]; simp only; rw [h, next_publish_identifier_step])
        simp only [api_run, api_step, count_publish_qos, if_pos hq]
        rw [this]
        have e : k + 1 + count_publish_qos cs = k + (1 + count_publish_qos cs) := by omega
        rw [e]
      · have := ih (mqtt_publish st topic msg msg_len retain qos).1 k
          (by rw [publish_state, if_neg hq]; exact h)
        simp only [api_run, api_step, count_publish_qos, if_neg hq]
        rw [this]
        have e : k + (0 + count_publish_qos cs) = k + count_publish_qos cs := by omega
        rw [e]
    | subscribe topic qos =>
      simpa [api_run, api_step, count_publish_qos] using
        ih (mqtt_subscribe st topic qos).1 k (by rw [subscribe_state]; exact h)
    | unsubscribe topic =>
      simpa [api_run, api_step, count_publish_qos] using
        ih (mqtt_unsubscribe st topic).1 k (by rw [unsubscribe_state]; exact h)
    | connect =>
      simpa [api_run, api_step, count_publish_qos] using ih st k h

theorem api_run_subscribe_identifier (calls : List ApiCall) :
    ∀ (st : MqttState), st.gs_subscribe_identifier < 65536 →
      (api_run st calls).gs_subscribe_identifier
        = (st.gs_subscribe_identifier + count_subscribe calls) % 65536 := by
  induction calls with
  | nil =>
    intro st h
    simp only [api_run, count_subscribe]
    omega
  | cons c cs ih =>
    intro st h
    cases c with
    | publish topic msg msg_len retain qos =>
      have := ih (mqtt_publish st topic msg msg_len retain qos).1
        (by rw [publish_state]; exact h)
      rw [publish_state] at this
      simpa [api_run, api_step, count_subscribe, publish_state] using this
    | subscribe topic qos =>
      have := ih (mqtt_subscribe st topic qos).1
        (by rw [subscribe_state]; exact Nat.mod_lt _ (by decide))
      simp only [api_run, api_step, count_subscribe]
      rw [this, subscribe_state]
      simp only
      omega
    | unsubscribe topic =>
      have := ih (mqtt_unsubscribe st topic).1 (by rw [unsubscribe_state]; exact h)
      rw [unsubscribe_state] at this
      simpa [api_run, api_step, count_subscribe, unsubscribe_state] using this
    | connect =>
      simpa [api_run, api_step, count_subscribe] using ih st h

theorem api_run_unsubscribe_identifier (calls : List ApiCall) :
    ∀ (st : MqttState), st.gs_unsubscribe_identifier < 65536 →
      (api_run st calls).gs_unsubscribe_identifier
        = (st.gs_unsubscribe_identifier + count_unsubscribe calls) % 65536 := by
  induction calls with
  | nil =>
    intro st h
    simp only [api_run, count_unsubscribe]
    omega
  | cons c cs ih =>
    intro st h
    cases c with
    | publish topic msg msg_len retain qos =>
      have := ih (mqtt_publish st topic msg msg_len retain qos).1
        (by rw [publish_state]; exact h)
      rw [publish_state] at this
      simpa [api_run, api_step, count_unsubscribe, publish_state] using this
    | subscribe topic qos =>
      have := ih (mqtt_subscribe st topic qos).1 (by rw [subscribe_state]; exact h)
      rw [subscribe_state] at this
      simpa [api_run, api_step, count_unsubscribe, subscribe_state] using this
    | unsubscribe topic =>
      have := ih (mqtt_unsubscribe st topic).1
        (by rw [unsubscribe_state]; exact Nat.mod_lt _ (by decide))
      simp only [api_run, api_step, count_unsubscribe]
      rw [this, unsubscribe_state]
      simp only
      omega
    | connect =>
      simpa [api_run, api_step, count_unsubscribe] using ih st h

theorem count_publish_qos_replicate (n : Nat) (topic msg : List Nat) (msg_len retain : Nat) :
    count_publish_qos (List.replicate n (ApiCall.publish topic msg msg_len retain 1)) = n := by
  induction n with
  | zero => rfl
  | succ n ih =>
    simp only [List.replicate_succ, count_publish_qos, ih]
    simp
    omega

theorem count_subscribe_replicate (n : Nat) (topic : List Nat) (qos : Nat) :
    count_subscribe (List.replicate n (ApiCall.subscribe topic qos)) = n := by
  induction n with
  | zero => rfl
  | succ n ih =>
    simp only [List.replicate_succ, count_subscribe, ih]
    omega

theorem count_unsubscribe_replicate (n : Nat) (topic : List Nat) :
    count_unsubscribe (List.replicate n (ApiCall.unsubscribe topic)) = n := by
  induction n with
  | zero => rfl
  | succ n ih =>
    simp only [List.replicate_succ, count_unsubscribe, ih]
    omega

/-! ## Start of the CONNECT packet -/

theorem connect_payload_length_eq (c u p : Nat) (hc : c ≤ 63) (hu : u ≤ 63) (hp : p ≤ 63) :
    connect_payload_length c u p
      = c + 2 + (if u ≠ 0 then u + 2 else 0) + (if p ≠ 0 then p + 2 else 0) := by
  unfold connect_payload_length
  by_cases h1 : u = 0 <;> by_cases h2 : p = 0 <;> simp [h1, h2] <;> omega

theorem connect_fill_take (fh vh s1 s2 s3 : List Nat) (f L o0 o1 o2 o3 o4 o5 o6 o7 o8 o9 : Nat)
    (a1 a2 a3 a4 a5 a6 n1 n2 n3 : Nat)
    (hf : fh.length = f) (hv : vh.length = 10) (hL : f + 10 ≤ L) (h0 : o0 = f)
    (h1 : f + 10 ≤ o1) (h2 : f + 10 ≤ o2) (h3 : f + 10 ≤ o3) (h4 : f + 10 ≤ o4)
    (h5 : f + 10 ≤ o5) (h6 : f + 10 ≤ o6) (h7 : f + 10 ≤ o7) (h8 : f + 10 ≤ o8)
    (h9 : f + 10 ≤ o9) :
    ((((((((((((malloc L).memcpy 0 fh f).memcpy o0 vh 10).store o1 a1).store o2 a2).memcpy o3
      s1 n1).store o4 a3).store o5 a4).memcpy o6 s2 n2).store o7 a5).store o8 a6).memcpy o9 s3
      n3).bytes.take (f + 10) = fh ++ vh := by
  subst hf h0
  rw [memcpy_take _ _ _ _ _ h9, store_take _ _ _ _ h8, store_take _ _ _ _ h7,
    memcpy_take _ _ _ _ _ h6, store_take _ _ _ _ h5, store_take _ _ _ _ h4,
    memcpy_take _ _ _ _ _ h3, store_take _ _ _ _ h2, store_take _ _ _ _ h1,
    malloc_eq, memcpy_seq _ _ _ _ _ _ (by simp) (by simp) (by omega),
    memcpy_seq _ _ _ _ _ _ (by simp) (by omega) (by omega)]
  simp only [List.nil_append, List.take_length, ← hv]
  rw [List.take_append_of_le_length (by simp)]
  simp

theorem connect_prefix (st : MqttState)
    (hc : strlen st.gsst_mqtt_param_data.client_id ≤ 63)
    (hu : strlen st.gsst_mqtt_param_data.user_name ≤ 63)
    (hp : strlen st.gsst_mqtt_param_data.password ≤ 63) :
    (mqtt_connect st).bytes.take
        ((if 10 + connect_payload_length (strlen st.gsst_mqtt_param_data.client_id)
            (strlen st.gsst_mqtt_param_data.user_name)
            (strlen st.gsst_mqtt_param_data.password) ≤ 127 then 2 else 3) + 10)
      = MQTT_MSG_CONNECT ::
        (publish_remain_bytes (10 + connect_payload_length
            (strlen st.gsst_mqtt_param_data.client_id)
            (strlen st.gsst_mqtt_param_data.user_name)
            (strlen st.gsst_mqtt_param_data.password)) ++
          [0x00, 0x04, 0x4D, 0x51, 0x54, 0x54, 0x04,
            connect_flags (strlen st.gsst_mqtt_param_data.user_name)
              (strlen st.gsst_mqtt_param_data.password),
            (st.gsst_mqtt_param_data.keep_alive >>> 8) &&& 0xFF,
            st.gsst_mqtt_param_data.keep_alive &&& 0xFF]) := by
  have h1 : strlen st.gsst_mqtt_param_data.client_id % 65536
      = strlen st.gsst_mqtt_param_data.client_id := Nat.mod_eq_of_lt (by omega)
  have h2 : strlen st.gsst_mqtt_param_data.user_name % 65536
      = strlen st.gsst_mqtt_param_data.user_name := Nat.mod_eq_of_lt (by omega)
  have h3 : strlen st.gsst_mqtt_param_data.password % 65536
      = strlen st.gsst_mqtt_param_data.password := Nat.mod_eq_of_lt (by omega)
  have hpl := connect_payload_length_eq _ _ _ hc hu hp
  have hb1 : (if strlen st.gsst_mqtt_param_data.user_name ≠ 0
      then strlen st.gsst_mqtt_param_data.user_name + 2 else 0) ≤ 65 := by split <;> omega
  have hb2 : (if strlen st.gsst_mqtt_param_data.password ≠ 0
      then strlen st.gsst_mqtt_param_data.password + 2 else 0) ≤ 65 := by split <;> omega
  unfold mqtt_connect
  simp only [h1, h2, h3]
  generalize strlen st.gsst_mqtt_param_data.client_id = c at *
  generalize strlen st.gsst_mqtt_param_data.user_name = u at *
  generalize strlen st.gsst_mqtt_param_data.password = p at *
  have hE : (if p ≠ 0 then
      ((if u ≠ 0 then ((c + 2) % 65536 + (u + 2)) % 65536 else (c + 2) % 65536) + (p + 2))
        % 65536
      else if u ≠ 0 then ((c + 2) % 65536 + (u + 2)) % 65536 else (c + 2) % 65536)
      = connect_payload_length c u p := rfl
  have hF : ((if p ≠ 0 then (if u ≠ 0 then 0x00 ||| MQTT_USERNAME_FLAG else 0x00)
      ||| MQTT_PASSWORD_FLAG else if u ≠ 0 then 0x00 ||| MQTT_USERNAME_FLAG else 0x00)
      ||| MQTT_CLEAN_SESSION) = connect_flags u p := rfl
  simp only [hE, hF]
  generalize connect_payload_length c u p = PL at *
  have hR : (10 + PL) % 256 = 10 + PL := Nat.mod_eq_of_lt (by omega)
  simp only [hR]
  by_cases hs : 10 + PL ≤ 127
  · have hs' : ¬ (10 + PL > 127) := by omega
    simp only [if_pos hs, if_neg hs', fixed_header_short]
    rw [connect_fill_take _ _ _ _ _ 2 _ _ _ _ _ _ _ _ _ _ _ _ _ _ _ _ _ _ _ _ (by rfl) (by rfl)
      (by omega) (by omega) (by omega) (by omega) (by omega) (by omega) (by omega) (by omega)
      (by omega) (by omega) (by omega)]
    unfold publish_remain_bytes
    rw [if_pos hs, hR]
    rfl
  · have hs' : 10 + PL > 127 := by omega
    simp only [if_neg hs, if_pos hs', Nat.reduceAdd, fixed_header_long]
    rw [connect_fill_take _ _ _ _ _ 3 _ _ _ _ _ _ _ _ _ _ _ _ _ _ _ _ _ _ _ _ (by rfl) (by rfl)
      (by omega) (by omega) (by omega) (by omega) (by omega) (by omega) (by omega) (by omega)
      (by omega) (by omega) (by omega)]
    unfold publish_remain_bytes
    rw [if_neg hs, Nat.mod_eq_of_lt (show (10 + PL) / 128 < 256 by omega)]
    rfl

theorem connect_split (st : MqttState)
    (hc : strlen st.gsst_mqtt_param_data.client_id ≤ 63)
    (hu : strlen st.gsst_mqtt_param_data.user_name ≤ 63)
    (hp : strlen st.gsst_mqtt_param_data.password ≤ 63) :
    ∃ tail : List Nat, (mqtt_connect st).bytes = MQTT_MSG_CONNECT ::
        (publish_remain_bytes (10 + connect_payload_length
            (strlen st.gsst_mqtt_param_data.client_id)
            (strlen st.gsst_mqtt_param_data.user_name)
            (strlen st.gsst_mqtt_param_data.password)) ++
          ([0x00, 0x04, 0x4D, 0x51, 0x54, 0x54, 0x04,
            connect_flags (strlen st.gsst_mqtt_param_data.user_name)
              (strlen st.gsst_mqtt_param_data.password),
            (st.gsst_mqtt_param_data.keep_alive >>> 8) &&& 0xFF,
            st.gsst_mqtt_param_data.keep_alive &&& 0xFF] ++ tail)) := by
  refine ⟨(mqtt_connect st).bytes.drop
    ((if 10 + connect_payload_length (strlen st.gsst_mqtt_param_data.client_id)
        (strlen st.gsst_mqtt_param_data.user_name)
        (strlen st.gsst_mqtt_param_data.password) ≤ 127 then 2 else 3) + 10), ?_⟩
  have h := connect_prefix st hc hu hp
  rw [← List.append_assoc, ← List.cons_append, ← h, List.take_append_drop]

theorem fixed_header_length_of_layout (b0 r : Nat) (rest : List Nat) (hr : r ≤ 16383) :
    fixed_header_length (b0 :: (publish_remain_bytes r ++ rest)) = if r ≤ 127 then 2 else 3 := by
  unfold fixed_header_length publish_remain_bytes
  rw [List.drop_succ_cons, List.drop_zero]
  by_cases h : r ≤ 127
  · rw [if_pos h, if_pos h, Nat.mod_eq_of_lt (show r < 256 by omega)]
    show 1 + (decode_loop (r :: rest) 0 1 0).2.1 = 2
    rw [decode_loop_last _ _ _ _ _ (bits_lt_128 r (by omega)).1]
    rfl
  · rw [if_neg h, if_neg h, Nat.mod_eq_of_lt (show r / 128 < 256 by omega)]
    show 1 + (decode_loop (((r % 128) ||| 0x80) :: (r / 128) :: rest) 0 1 0).2.1 = 3
    rw [decode_loop_two r _ (by omega) hr]
    rfl

theorem connect_flags_eq (u p : Nat) :
    connect_flags u p = 0x02 ||| (if u ≠ 0 then 0x80 else 0) ||| (if p ≠ 0 then 0x40 else 0) := by
  unfold connect_flags
  by_cases h1 : u = 0 <;> by_cases h2 : p = 0 <;> simp [h1, h2] <;> decide

/-! ## The dispatcher -/

theorem rx_buffer_length (data : List Nat) :
    (rx_buffer_after_read data).length = 1024 := by
  unfold rx_buffer_after_read MQTT_RX_BUFFER_MAX_LEN
  simp only [List.length_append, List.length_take, List.length_replicate]
  omega

theorem next_publish_identifier_ne (cur : Nat) : next_publish_identifier cur ≠ cur := by
  unfold next_publish_identifier
  split <;> omega

theorem parse_not_publish (src : List Nat) (dst : Buf)
    (h : rd src 0 &&& 0xF0 ≠ MQTT_MSG_PUBLISH) : mqtt_receive_data_parse src dst = (0, dst) := by
  unfold mqtt_receive_data_parse
  rw [if_neg h]

theorem dispatch_default (data : List Nat)
    (h1 : rd (rx_buffer_after_read data) 0 ≠ MQTT_MSG_CONNACK)
    (h2 : rd (rx_buffer_after_read data) 0 ≠ MQTT_MSG_PUBACK)
    (h3 : rd (rx_buffer_after_read data) 0 ≠ MQTT_MSG_PUBREC)
    (h4 : rd (rx_buffer_after_read data) 0 ≠ MQTT_MSG_SUBACK)
    (h5 : rd (rx_buffer_after_read data) 0 ≠ MQTT_MSG_UNSUBACK)
    (h6 : rd (rx_buffer_after_read data) 0 ≠ MQTT_MSG_PINGRESP) :
    mqtt_fasync_callback_function (some data)
      = [Event.callback
          (mqtt_receive_data_parse (rx_buffer_after_read data)
            (memset_zero MQTT_RX_BUFFER_MAX_LEN)).2
          (mqtt_receive_data_parse (rx_buffer_after_read data)
            (memset_zero MQTT_RX_BUFFER_MAX_LEN)).1] := by
  simp only [mqtt_fasync_callback_function, if_neg h1, if_neg h2, if_neg h3, if_neg h4,
    if_neg h5, if_neg h6]

theorem count_callbacks_ack_code (t c : Nat) : count_callbacks (mqtt_receive_ack_code t c) = 0 := by
  unfold mqtt_receive_ack_code PRINT_LOG
  repeat' split
  all_goals rfl

theorem publish_topic_length_zero (st : MqttState) (topic msg : List Nat)
    (msg_len retain qos : Nat) (h : strlen topic % 65536 = 0) :
    mqtt_publish st topic msg msg_len retain qos = mqtt_publish st [] msg msg_len retain qos := by
  have h0 : strlen ([] : List Nat) % 65536 = 0 := rfl
  unfold mqtt_publish
  simp only [h, h0, Buf.memcpy, List.take_zero, Buf.storeList, List.length_nil, Nat.not_lt_zero,
    decide_False, Bool.or_false]

theorem packet_length_lt (st : MqttState) (topic msg : List Nat) (msg_len retain qos : Nat) :
    (mqtt_publish st topic msg msg_len retain qos).2.bytes.length < 65536 := by
  unfold mqtt_publish
  simp only [memcpy_length, malloc, List.length_replicate]
  exact Nat.mod_lt _ (by decide)

theorem int_of_uint64_nonneg (len : Nat) (h : len < 2147483648) :
    int_of_uint64 len = (len : Int) := by
  unfold int_of_uint64
  have : len % 4294967296 = len := Nat.mod_eq_of_lt (by omega)
  rw [this, if_pos h]

theorem send_loop_negative (len : Nat) (hl : 0 ≤ int_of_uint64 len) (outs : List WriteOutcome) :
    ∀ (bufp : List Nat) (nleft : Nat) (chunks : List (List Nat)) (v : Int),
      (socket_send_loop len outs bufp nleft chunks).ret = some v → v < 0 →
      ∃ o ∈ outs, o.fatal = true := by
  induction outs with
  | nil =>
    intro bufp nleft chunks v hv hneg
    unfold socket_send_loop at hv
    split at hv
    · simp at hv
    · simp only [Option.some.injEq] at hv
      omega
  | cons o os ih =>
    intro bufp nleft chunks v hv hneg
    unfold socket_send_loop at hv
    split at hv
    · split at hv
      · rename_i hret
        split at hv
        · obtain ⟨x, hx, hf⟩ := ih _ _ _ _ hv hneg
          exact ⟨x, List.mem_cons_of_mem _ hx, hf⟩
        · rename_i herr
          refine ⟨o, List.mem_cons_self _ _, ?_⟩
          simp only [not_or] at herr
          simp [WriteOutcome.fatal, hret, herr.1, herr.2]
      · obtain ⟨x, hx, hf⟩ := ih _ _ _ _ hv hneg
        exact ⟨x, List.mem_cons_of_mem _ hx, hf⟩
    · simp only [Option.some.injEq] at hv
      omega

theorem send_all_at_once (buffer : List Nat) (errno : Nat) (rest : List WriteOutcome)
    (hpos : 0 < buffer.length) (hlt : buffer.length < 2147483648) :
    socket_send_data (⟨(buffer.length : Int), errno⟩ :: rest) buffer buffer.length
      = ⟨some (buffer.length : Int), [buffer], rest⟩ := by
  have hm : buffer.length % 18446744073709551616 = buffer.length := Nat.mod_eq_of_lt (by omega)
  unfold socket_send_data
  rw [hm]
  unfold socket_send_loop
  have h1 : ¬ ((buffer.length : Int) ≤ 0) := by omega
  simp only [if_pos hpos, if_neg h1, Int.toNat_ofNat, hm, List.drop_length, List.take_length,
    List.nil_append]
  have h2 : (buffer.length + 18446744073709551616 - buffer.length) % 18446744073709551616
      = 0 := by omega
  rw [h2]
  cases rest with
  | nil => simp [socket_send_loop, int_of_uint64_nonneg _ hlt]
  | cons r rs => simp [socket_send_loop, int_of_uint64_nonneg _ hlt]

theorem parse_locals_topic_256 (T : List Nat) :
    parse_locals (0x30 :: 0x85 :: 0x02 :: 0x01 :: 0x00 :: T) = ⟨2, 5, 261, 2, 259, false⟩ := by
  have hloop : decode_loop (List.drop 1 (0x30 :: 0x85 :: 0x02 :: 0x01 :: 0x00 :: T)) 0 1 0
      = (261, 2, false) := by
    rw [List.drop_succ_cons, List.drop_zero, decode_loop_more _ _ _ _ _ (by decide),
      decode_loop_last _ _ _ _ _ (by decide)]
    decide
  unfold parse_locals
  simp only [hloop, rd, List.getD_cons_zero, List.getD_cons_succ,
    show (0x85 &&& 0x80 : Nat) = 0x80 from by decide,
    show ((0x02 &&& 0x80 : Nat) = 0x80) = False from by decide, if_true, if_false,
    show (1 : Nat) + 2 = 3 from rfl, show (1 : Nat) + 2 + 1 = 4 from rfl,
    show ((0x30 &&& 0x06 : Nat) >>> 1 ≠ 0) = False from by decide,
    show ((((0x01 : Nat) <<< 8) % 256 ||| 0x00) % 256 + (3 + 2)) % 256 = 5 from by decide,
    List.length_cons]
  have hlen : decide (T.length + 1 + 1 + 1 + 1 + 1 < 3 + 2) = false := by
    rw [decide_eq_false_iff_not]
    omega
  rw [hlen]
  rfl

theorem parse_topic_256 (T : List Nat) (dst : Buf) (hT : 259 ≤ T.length)
    (hd : 259 ≤ dst.bytes.length) :
    mqtt_receive_data_parse (0x30 :: 0x85 :: 0x02 :: 0x01 :: 0x00 :: T) dst
      = (259, ⟨T.take 259 ++ dst.bytes.drop 259, dst.oob⟩) := by
  unfold mqtt_receive_data_parse
  rw [parse_locals_topic_256]
  simp only [rd, List.getD_cons_zero]
  rw [if_pos (by decide)]
  simp only [List.drop_succ_cons, List.drop_zero]
  rw [memcpy_fits _ _ _ hT hd]
  simp

/-! ## The send loop -/

theorem fatal_of_pos (o : WriteOutcome) (h : 0 < o.ret) : o.fatal = false := by
  unfold WriteOutcome.fatal
  have : ¬ (o.ret ≤ 0) := by omega
  simp [this]

theorem fatal_before_flush_nil (n : Nat) : ¬ fatal_before_flush [] n := by
  rintro ⟨pre, o, post, h, -⟩
  cases pre <;> simp at h

theorem fatal_before_flush_cons (o : WriteOutcome) (os : List WriteOutcome) (n : Nat) :
    fatal_before_flush (o :: os) n ↔
      (o.fatal = true ∧ 0 < n) ∨
      (o.fatal = false ∧ (if 0 < o.ret then o.ret.toNat else 0) < n ∧
        fatal_before_flush os (n - (if 0 < o.ret then o.ret.toNat else 0))) := by
  constructor
  · rintro ⟨pre, x, post, heq, hx, hpre, hacc⟩
    cases pre with
    | nil =>
      simp only [List.nil_append, List.cons.injEq] at heq
      left
      rw [heq.1]
      exact ⟨hx, by simpa [accepted_bytes] using hacc⟩
    | cons p ps =>
      simp only [List.cons_append, List.cons.injEq] at heq
      right
      obtain ⟨rfl, hos⟩ := heq
      simp only [accepted_bytes] at hacc
      refine ⟨hpre _ (List.mem_cons_self _ _), by omega, ps, x, post, hos, hx, ?_, by omega⟩
      intro y hy
      exact hpre y (List.mem_cons_of_mem _ hy)
  · rintro (⟨hf, hn⟩ | ⟨hf, hlt, pre, x, post, hos, hx, hpre, hacc⟩)
    · exact ⟨[], o, os, rfl, hf, by simp, by simpa [accepted_bytes] using hn⟩
    · refine ⟨o :: pre, x, post, by rw [hos]; rfl, hx, ?_, ?_⟩
      · intro y hy
        rcases List.mem_cons.mp hy with rfl | hy
        · exact hf
        · exact hpre y hy
      · simp only [accepted_bytes]
        omega

theorem send_loop_spec (len : Nat) (hl : 0 ≤ int_of_uint64 len) (outs : List WriteOutcome) :
    ∀ (bufp : List Nat) (nleft : Nat) (chunks : List (List Nat)),
      bufp.length = nleft → nleft < 18446744073709551616 → outcomes_fit outs nleft = true →
      ((socket_send_loop len outs bufp nleft chunks).ret = some (-1)
        ↔ fatal_before_flush outs nleft) ∧
      ((socket_send_loop len outs bufp nleft chunks).ret = none
        ↔ (∀ x ∈ outs, x.fatal = false) ∧ accepted_bytes outs < nleft) ∧
      (∀ v, (socket_send_loop len outs bufp nleft chunks).ret = some v → v ≠ -1 →
        v = int_of_uint64 len ∧
        (socket_send_loop len outs bufp nleft chunks).chunks.flatten = chunks.flatten ++ bufp) ∧
      (∃ k, (socket_send_loop len outs bufp nleft chunks).chunks.flatten
        = chunks.flatten ++ bufp.take k) := by
  induction outs with
  | nil =>
    intro bufp nleft chunks hb hn hfit
    unfold socket_send_loop
    by_cases h0 : nleft > 0
    · simp only [if_pos h0]
      refine ⟨⟨fun h => by simp at h, fun h => absurd h (fatal_before_flush_nil _)⟩,
        ⟨fun _ => ⟨by simp, by simpa [accepted_bytes] using h0⟩, fun _ => trivial⟩,
        fun v h => by simp at h, ⟨0, by simp⟩⟩
    · simp only [if_neg h0]
      have hb0 : bufp = [] := List.eq_nil_of_length_eq_zero (by omega)
      refine ⟨⟨fun h => ?_, fun h => absurd h (fatal_before_flush_nil _)⟩,
        ⟨fun h => by simp at h, fun h => ?_⟩, fun v h _ => ?_, ⟨0, by simp⟩⟩
      · simp only [Option.some.injEq] at h
        omega
      · simp only [accepted_bytes] at h
        omega
      · simp only [Option.some.injEq] at h
        exact ⟨h.symm, by rw [hb0]; simp⟩
  | cons o os ih =>
    intro bufp nleft chunks hb hn hfit
    unfold socket_send_loop
    by_cases h0 : nleft > 0
    · simp only [if_pos h0]
      have hne : ¬ (nleft = 0) := by omega
      unfold outcomes_fit at hfit
      simp only [if_neg hne] at hfit
      by_cases hret : o.ret ≤ 0
      · have hnp : ¬ (0 < o.ret) := by omega
        simp only [if_pos hret]
        simp only [if_neg hnp] at hfit
        by_cases herr : o.errno = EINTR ∨ o.errno = EAGAIN
        · have hnf : o.fatal = false := by
            unfold WriteOutcome.fatal
            rcases herr with e | e <;> simp [e]
          simp only [hnf, Bool.false_eq_true, if_false] at hfit
          simp only [if_pos herr]
          obtain ⟨i1, i2, i3, i4⟩ := ih bufp nleft chunks hb hn hfit
          refine ⟨?_, ?_, i3, i4⟩
          · rw [i1, fatal_before_flush_cons]
            simp [hnf, hnp, h0]
          · rw [i2]
            simp [hnf, accepted_bytes, hnp]
        · have hf : o.fatal = true := by
            unfold WriteOutcome.fatal
            simp only [not_or] at herr
            simp [hret, herr.1, herr.2]
          simp only [if_neg herr]
          refine ⟨⟨fun _ => ?_, fun _ => trivial⟩, ⟨fun h => by simp at h, fun h => ?_⟩,
            fun v h hv => ?_, ⟨0, by simp⟩⟩
          · rw [fatal_before_flush_cons]
            exact Or.inl ⟨hf, h0⟩
          · have := h.1 o (List.mem_cons_self _ _)
            rw [hf] at this
            simp at this
          · simp only [Option.some.injEq] at h
            exact absurd h.symm hv
      · have hpos : 0 < o.ret := by omega
        simp only [if_neg hret]
        simp only [if_pos hpos, Bool.and_eq_true, decide_eq_true_eq] at hfit
        obtain ⟨hk, hfit'⟩ := hfit
        have hnl : (nleft + 18446744073709551616 - o.ret.toNat % 18446744073709551616)
            % 18446744073709551616 = nleft - o.ret.toNat := by omega
        rw [hnl]
        obtain ⟨i1, i2, i3, i4⟩ := ih (bufp.drop o.ret.toNat) (nleft - o.ret.toNat)
          (chunks ++ [bufp.take o.ret.toNat]) (by rw [List.length_drop, hb]) (by omega) hfit'
        have hnf := fatal_of_pos o hpos
        have hjoin : (chunks ++ [bufp.take o.ret.toNat]).flatten
            = chunks.flatten ++ bufp.take o.ret.toNat := by simp
        refine ⟨?_, ?_, ?_, ?_⟩
        · rw [i1, fatal_before_flush_cons]
          simp only [hnf, Bool.false_eq_true, false_and, false_or, true_and, if_pos hpos]
          constructor
          · intro h
            refine ⟨?_, h⟩
            obtain ⟨pre, x, post, -, -, -, hacc⟩ := h
            omega
          · intro h
            exact h.2
        · rw [i2]
          simp only [List.mem_cons, forall_eq_or_imp, hnf, true_and, accepted_bytes, if_pos hpos]
          constructor
          · rintro ⟨ha, hb'⟩
            exact ⟨ha, by omega⟩
          · rintro ⟨ha, hb'⟩
            exact ⟨ha, by omega⟩
        · intro v h hv
          obtain ⟨e1, e2⟩ := i3 v h hv
          refine ⟨e1, ?_⟩
          rw [e2, hjoin, List.append_assoc, List.take_append_drop]
        · obtain ⟨k, hk'⟩ := i4
          refine ⟨o.ret.toNat + k, ?_⟩
          rw [hk', hjoin, List.append_assoc, List.take_add]
    · simp only [if_neg h0]
      have hb0 : bufp = [] := List.eq_nil_of_length_eq_zero (by omega)
      refine ⟨⟨fun h => ?_, fun h => ?_⟩, ⟨fun h => by simp at h, fun h => ?_⟩,
        fun v h _ => ?_, ⟨0, by simp⟩⟩
      · simp only [Option.some.injEq] at h
        omega
      · obtain ⟨pre, x, post, -, -, -, hacc⟩ := h
        omega
      · omega
      · simp only [Option.some.injEq] at h
        exact ⟨h.symm, by rw [hb0]; simp⟩

/-! ## The parser on a packet cut short -/

theorem parse_returns_msg_length (src : List Nat) (dst : Buf)
    (h : rd src 0 &&& 0xF0 = MQTT_MSG_PUBLISH) :
    (mqtt_receive_data_parse src dst).1 = (parse_locals src).msg_length := by
  unfold mqtt_receive_data_parse
  rw [if_pos h]

theorem parse_truncated (b0 t m n : Nat) (topic ids p1 : List Nat)
    (hb0 : b0 &&& 0xF0 = MQTT_MSG_PUBLISH)
    (hids : ids.length = if (b0 &&& 0x06) >>> 1 ≠ 0 then 2 else 0)
    (ht : topic.length = t)
    (hn : n = 2 + t + ids.length + (p1.length + m)) (hn' : n ≤ 16383)
    (hoff : (if n ≤ 127 then 2 else 3) + 2 + t + ids.length ≤ 255)
    (hfull : (if n ≤ 127 then 2 else 3) + n ≤ 1024) :
    mqtt_receive_data_parse
        (rx_buffer_after_read
          (b0 :: (publish_remain_bytes n ++ (0 :: t :: (topic ++ (ids ++ p1))))))
        (memset_zero MQTT_RX_BUFFER_MAX_LEN)
      = (p1.length + m, ⟨p1 ++ List.replicate (1024 - p1.length) 0, false⟩) := by
  have hdst : (memset_zero MQTT_RX_BUFFER_MAX_LEN).bytes = List.replicate 1024 0 := rfl
  have hout : (p1 ++ List.replicate m 0) ++
      List.drop (p1 ++ List.replicate m 0).length (List.replicate 1024 0)
      = p1 ++ List.replicate (1024 - p1.length) 0 := by
    rw [List.drop_replicate, List.append_assoc, List.append_replicate_replicate]
    simp only [List.length_append, List.length_replicate]
    congr 2
    split at hfull <;> omega
  by_cases hs : n ≤ 127
  · rw [if_pos hs] at hoff hfull
    have hrb : publish_remain_bytes n = [n] := by
      unfold publish_remain_bytes
      rw [if_pos hs, Nat.mod_eq_of_lt (show n < 256 by omega)]
    rw [hrb]
    have hlen : (b0 :: ([n] ++ (0 :: t :: (topic ++ (ids ++ p1))))).length
        = 4 + t + ids.length + p1.length := by
      simp only [List.length_cons, List.length_append, List.length_nil, ht]
      omega
    rw [rx_buffer_of_short _ (by rw [hlen]; omega), hlen]
    have hpad : List.replicate (1024 - (4 + t + ids.length + p1.length)) 0
        = List.replicate m 0 ++ List.replicate (1024 - (4 + t + ids.length + p1.length) - m) 0 := by
      rw [List.append_replicate_replicate]
      congr 1
      omega
    rw [hpad]
    have hshape : (b0 :: ([n] ++ (0 :: t :: (topic ++ (ids ++ p1))))) ++
        (List.replicate m 0 ++ List.replicate (1024 - (4 + t + ids.length + p1.length) - m) 0)
        = b0 :: n :: 0 :: t :: (topic ++ (ids ++ ((p1 ++ List.replicate m 0) ++
            List.replicate (1024 - (4 + t + ids.length + p1.length) - m) 0))) := by
      simp
    rw [hshape, parse_short b0 n t topic ids (p1 ++ List.replicate m 0) _ _ hb0 hids ht
      (by simp only [List.length_append, List.length_replicate]; omega) hs
      (by
        rw [hdst]
        simp only [List.length_append, List.length_replicate]
        omega), hdst, hout]
    simp [memset_zero]
  · rw [if_neg hs] at hoff hfull
    have hrb : publish_remain_bytes n = [(n % 128) ||| 0x80, n / 128] := by
      unfold publish_remain_bytes
      rw [if_neg hs, Nat.mod_eq_of_lt (show n / 128 < 256 by omega)]
    rw [hrb]
    have hlen : (b0 :: ([(n % 128) ||| 0x80, n / 128] ++
        (0 :: t :: (topic ++ (ids ++ p1))))).length = 5 + t + ids.length + p1.length := by
      simp only [List.length_cons, List.length_append, List.length_nil, ht]
      omega
    rw [rx_buffer_of_short _ (by rw [hlen]; omega), hlen]
    have hpad : List.replicate (1024 - (5 + t + ids.length + p1.length)) 0
        = List.replicate m 0 ++ List.replicate (1024 - (5 + t + ids.length + p1.length) - m) 0 := by
      rw [List.append_replicate_replicate]
      congr 1
      omega
    rw [hpad]
    have hshape : (b0 :: ([(n % 128) ||| 0x80, n / 128] ++
        (0 :: t :: (topic ++ (ids ++ p1))))) ++
        (List.replicate m 0 ++ List.replicate (1024 - (5 + t + ids.length + p1.length) - m) 0)
        = b0 :: ((n % 128) ||| 0x80) :: (n / 128) :: 0 :: t ::
          (topic ++ (ids ++ ((p1 ++ List.replicate m 0) ++
            List.replicate (1024 - (5 + t + ids.length + p1.length) - m) 0))) := by
      simp
    rw [hshape, parse_long b0 n t topic ids (p1 ++ List.replicate m 0) _ _ hb0 hids ht
      (by omega) (by simp only [List.length_append, List.length_replicate]; omega)
      (by omega) hn'
      (by
        rw [hdst]
        simp only [List.length_append, List.length_replicate]
        omega), hdst, hout]
    simp [memset_zero]

theorem first_byte_of_publish (b0 : Nat) (h : b0 &&& 0xF0 = MQTT_MSG_PUBLISH) :
    b0 ≠ MQTT_MSG_CONNACK ∧ b0 ≠ MQTT_MSG_PUBACK ∧ b0 ≠ MQTT_MSG_PUBREC ∧
    b0 ≠ MQTT_MSG_SUBACK ∧ b0 ≠ MQTT_MSG_UNSUBACK ∧ b0 ≠ MQTT_MSG_PINGRESP := by
  refine ⟨?_, ?_, ?_, ?_, ?_, ?_⟩ <;> intro e <;> rw [e] at h <;> revert h <;> decide

theorem rx_buffer_first (b0 : Nat) (tail : List Nat) :
    rd (rx_buffer_after_read (b0 :: tail)) 0 = b0 := by
  unfold rx_buffer_after_read MQTT_RX_BUFFER_MAX_LEN rd
  rfl

/-! ## The whole CONNECT packet -/

theorem connect_fill_full (fh vh s1 s2 s3 : List Nat)
    (f L o0 o1 o2 o3 o4 o5 o6 o7 o8 o9 : Nat) (a1 a2 a3 a4 a5 a6 n1 n2 n3 : Nat)
    (hf : fh.length = f) (hv : vh.length = 10)
    (hn1 : n1 ≤ s1.length) (hn2 : n2 ≤ s2.length) (hn3 : n3 ≤ s3.length)
    (hL : L = f + 10 + (2 + n1) + (2 + n2) + (2 + n3)) (h0 : o0 = f)
    (h1 : o1 = f + 10) (h2 : o2 = f + 11) (h3 : o3 = f + 12) (h4 : o4 = f + 12 + n1)
    (h5 : o5 = f + 13 + n1) (h6 : o6 = f + 14 + n1) (h7 : o7 = f + 14 + n1 + n2)
    (h8 : o8 = f + 15 + n1 + n2) (h9 : o9 = f + 16 + n1 + n2) :
    ((((((((((((malloc L).memcpy 0 fh f).memcpy o0 vh 10).store o1 a1).store o2 a2).memcpy o3
      s1 n1).store o4 a3).store o5 a4).memcpy o6 s2 n2).store o7 a5).store o8 a6).memcpy o9 s3
      n3)
      = ⟨fh ++ vh ++ [a1, a2] ++ s1.take n1 ++ [a3, a4] ++ s2.take n2 ++ [a5, a6]
          ++ s3.take n3, false⟩ := by
  subst hL h1 h2 h3 h4 h5 h6 h7 h8 h9
  rw [h0]
  have hfl : (fh.take f).length = f := by simp [hf]
  have hvl : (vh.take 10).length = 10 := by simp [hv]
  have l1 : (s1.take n1).length = n1 := by simp [hn1]
  have l2 : (s2.take n2).length = n2 := by simp [hn2]
  have l3 : (s3.take n3).length = n3 := by simp [hn3]
  rw [malloc_eq,
    memcpy_seq _ _ _ _ _ _ (by simp) (by omega) (by omega),
    memcpy_seq _ _ _ _ _ _
      (by simp only [List.length_append, List.length_nil, hfl]; omega) (by omega) (by omega),
    store_seq _ _ _ _ _
      (by simp only [List.length_append, List.length_nil, hfl, hvl]; omega) (by omega),
    store_seq _ _ _ _ _
      (by simp only [List.length_append, List.length_nil, List.length_cons, hfl, hvl]; omega)
      (by omega),
    memcpy_seq _ _ _ _ _ _
      (by simp only [List.length_append, List.length_nil, List.length_cons, hfl, hvl]; omega)
      hn1 (by omega),
    store_seq _ _ _ _ _
      (by simp only [List.length_append, List.length_nil, List.length_cons, hfl, hvl, l1]; omega)
      (by omega),
    store_seq _ _ _ _ _
      (by simp only [List.length_append, List.length_nil, List.length_cons, hfl, hvl, l1]; omega)
      (by omega),
    memcpy_seq _ _ _ _ _ _
      (by simp only [List.length_append, List.length_nil, List.length_cons, hfl, hvl, l1]; omega)
      hn2 (by omega),
    store_seq _ _ _ _ _
      (by
        simp only [List.length_append, List.length_nil, List.length_cons, hfl, hvl, l1, l2]
        omega)
      (by omega),
    store_seq _ _ _ _ _
      (by
        simp only [List.length_append, List.length_nil, List.length_cons, hfl, hvl, l1, l2]
        omega)
      (by omega),
    memcpy_seq _ _ _ _ _ _
      (by
        simp only [List.length_append, List.length_nil, List.length_cons, hfl, hvl, l1, l2]
        omega)
      hn3 (by omega)]
  have e1 : fh.take f = fh := List.take_of_length_le (by omega)
  have e2 : vh.take 10 = vh := List.take_of_length_le (by omega)
  have e3 : f + 10 + (2 + n1) + (2 + n2) + (2 + n3) - f - 10 - 1 - 1 - n1 - 1 - 1 - n2 - 1 - 1
      - n3 = 0 := by omega
  rw [e1, e2, e3]
  simp

theorem connect_layout_full (st : MqttState)
    (hc : strlen st.gsst_mqtt_param_data.client_id ≤ 63)
    (hu : strlen st.gsst_mqtt_param_data.user_name ≤ 63)
    (hp : strlen st.gsst_mqtt_param_data.password ≤ 63)
    (hu1 : strlen st.gsst_mqtt_param_data.user_name ≠ 0)
    (hp1 : strlen st.gsst_mqtt_param_data.password ≠ 0) :
    mqtt_connect st = ⟨MQTT_MSG_CONNECT ::
        (publish_remain_bytes (16 + strlen st.gsst_mqtt_param_data.client_id
            + strlen st.gsst_mqtt_param_data.user_name
            + strlen st.gsst_mqtt_param_data.password) ++
          [0x00, 0x04, 0x4D, 0x51, 0x54, 0x54, 0x04, 0xC2,
            (st.gsst_mqtt_param_data.keep_alive >>> 8) &&& 0xFF,
            st.gsst_mqtt_param_data.keep_alive &&& 0xFF] ++
          [(strlen st.gsst_mqtt_param_data.client_id >>> 8) &&& 0xFF,
            strlen st.gsst_mqtt_param_data.client_id &&& 0xFF] ++
          st.gsst_mqtt_param_data.client_id.take (strlen st.gsst_mqtt_param_data.client_id) ++
          [(strlen st.gsst_mqtt_param_data.user_name >>> 8) &&& 0xFF,
            strlen st.gsst_mqtt_param_data.user_name &&& 0xFF] ++
          st.gsst_mqtt_param_data.user_name.take (strlen st.gsst_mqtt_param_data.user_name) ++
          [(strlen st.gsst_mqtt_param_data.password >>> 8) &&& 0xFF,
            strlen st.gsst_mqtt_param_data.password &&& 0xFF] ++
          st.gsst_mqtt_param_data.password.take (strlen st.gsst_mqtt_param_data.password)),
        false⟩ := by
  have h1 : strlen st.gsst_mqtt_param_data.client_id % 65536
      = strlen st.gsst_mqtt_param_data.client_id := Nat.mod_eq_of_lt (by omega)
  have h2 : strlen st.gsst_mqtt_param_data.user_name % 65536
      = strlen st.gsst_mqtt_param_data.user_name := Nat.mod_eq_of_lt (by omega)
  have h3 : strlen st.gsst_mqtt_param_data.password % 65536
      = strlen st.gsst_mqtt_param_data.password := Nat.mod_eq_of_lt (by omega)
  have hcl := strlen_le_length st.gsst_mqtt_param_data.client_id
  have hul := strlen_le_length st.gsst_mqtt_param_data.user_name
  have hpl := strlen_le_length st.gsst_mqtt_param_data.password
  unfold mqtt_connect
  simp only [h1, h2, h3]
  generalize strlen st.gsst_mqtt_param_data.client_id = c at *
  generalize strlen st.gsst_mqtt_param_data.user_name = u at *
  generalize strlen st.gsst_mqtt_param_data.password = p at *
  have hF : (((0x00 ||| MQTT_USERNAME_FLAG) ||| MQTT_PASSWORD_FLAG) ||| MQTT_CLEAN_SESSION)
      = 0xC2 := by decide
  have hE : (((c + 2) % 65536 + (u + 2)) % 65536 + (p + 2)) % 65536 = 6 + c + u + p := by
    omega
  simp only [ne_eq, hu1, hp1, not_false_eq_true, if_true, hF, hE]
  have hR : (10 + (6 + c + u + p)) % 256 = 16 + c + u + p := by omega
  simp only [hR]
  by_cases hs : 16 + c + u + p ≤ 127
  · have hs' : ¬ (16 + c + u + p > 127) := by omega
    simp only [if_pos hs, if_neg hs', fixed_header_short]
    rw [connect_fill_full _ _ _ _ _ 2 _ _ _ _ _ _ _ _ _ _ _ _ _ _ _ _ _ _ _ _ (by rfl) (by rfl)
      hcl hul hpl
      (by omega) (by omega) (by omega) (by omega) (by omega) (by omega) (by omega) (by omega)
      (by omega) (by omega) (by omega)]
    unfold publish_remain_bytes
    rw [if_pos hs, Nat.mod_eq_of_lt (show 16 + c + u + p < 256 by omega)]
    simp
  · have hs' : 16 + c + u + p > 127 := by omega
    simp only [if_neg hs, if_pos hs', Nat.reduceAdd, fixed_header_long]
    rw [connect_fill_full _ _ _ _ _ 3 _ _ _ _ _ _ _ _ _ _ _ _ _ _ _ _ _ _ _ _ (by rfl) (by rfl)
      hcl hul hpl
      (by omega) (by omega) (by omega) (by omega) (by omega) (by omega) (by omega) (by omega)
      (by omega) (by omega) (by omega)]
    unfold publish_remain_bytes
    rw [if_neg hs, Nat.mod_eq_of_lt (show (16 + c + u + p) / 128 < 256 by omega)]
    simp

/-! ## The client-identifier field of the CONNECT packet, and `mqtt_init` -/

theorem connect_fill_take_client (fh vh s1 s2 s3 : List Nat)
    (f L o0 o1 o2 o3 o4 o5 o6 o7 o8 o9 : Nat) (a1 a2 a3 a4 a5 a6 n1 n2 n3 : Nat)
    (hf : fh.length = f) (hv : vh.length = 10) (hn1 : n1 ≤ s1.length)
    (hL : f + 12 + n1 ≤ L) (h0 : o0 = f)
    (h1 : o1 = f + 10) (h2 : o2 = f + 11) (h3 : o3 = f + 12) (h4 : f + 12 + n1 ≤ o4)
    (h5 : f + 12 + n1 ≤ o5) (h6 : f + 12 + n1 ≤ o6) (h7 : f + 12 + n1 ≤ o7)
    (h8 : f + 12 + n1 ≤ o8) (h9 : f + 12 + n1 ≤ o9) :
    ((((((((((((malloc L).memcpy 0 fh f).memcpy o0 vh 10).store o1 a1).store o2 a2).memcpy o3
      s1 n1).store o4 a3).store o5 a4).memcpy o6 s2 n2).store o7 a5).store o8 a6).memcpy o9 s3
      n3).bytes.take (f + 12 + n1) = fh ++ vh ++ [a1, a2] ++ s1.take n1 := by
  subst h1 h2 h3
  rw [h0]
  have hfl : (fh.take f).length = f := by simp [hf]
  have hvl : (vh.take 10).length = 10 := by simp [hv]
  have l1 : (s1.take n1).length = n1 := by simp [hn1]
  rw [memcpy_take _ _ _ _ _ h9, store_take _ _ _ _ h8, store_take _ _ _ _ h7,
    memcpy_take _ _ _ _ _ h6, store_take _ _ _ _ h5, store_take _ _ _ _ h4,
    malloc_eq,
    memcpy_seq _ _ _ _ _ _ (by simp) (by omega) (by omega),
    memcpy_seq _ _ _ _ _ _
      (by simp only [List.length_append, List.length_nil, hfl]; omega) (by omega) (by omega),
    store_seq _ _ _ _ _
      (by simp only [List.length_append, List.length_nil, hfl, hvl]; omega) (by omega),
    store_seq _ _ _ _ _
      (by simp only [List.length_append, List.length_nil, List.length_cons, hfl, hvl]; omega)
      (by omega),
    memcpy_seq _ _ _ _ _ _
      (by simp only [List.length_append, List.length_nil, List.length_cons, hfl, hvl]; omega)
      hn1 (by omega)]
  have e1 : fh.take f = fh := List.take_of_length_le (by omega)
  have e2 : vh.take 10 = vh := List.take_of_length_le (by omega)
  rw [e1, e2]
  simp only [List.nil_append]
  rw [List.take_append_of_le_length
    (by simp only [List.length_append, List.length_cons, List.length_nil, l1, hv]; omega),
    List.take_of_length_le
    (by simp only [List.length_append, List.length_cons, List.length_nil, l1, hv]; omega)]
  simp

theorem connect_prefix_client (st : MqttState)
    (hc : strlen st.gsst_mqtt_param_data.client_id ≤ 63)
    (hu : strlen st.gsst_mqtt_param_data.user_name ≤ 63)
    (hp : strlen st.gsst_mqtt_param_data.password ≤ 63) :
    (mqtt_connect st).bytes.take
        ((if 10 + connect_payload_length (strlen st.gsst_mqtt_param_data.client_id)
            (strlen st.gsst_mqtt_param_data.user_name)
            (strlen st.gsst_mqtt_param_data.password) ≤ 127 then 2 else 3) + 12
          + strlen st.gsst_mqtt_param_data.client_id)
      = MQTT_MSG_CONNECT ::
        (publish_remain_bytes (10 + connect_payload_length
            (strlen st.gsst_mqtt_param_data.client_id)
            (strlen st.gsst_mqtt_param_data.user_name)
            (strlen st.gsst_mqtt_param_data.password)) ++
          [0x00, 0x04, 0x4D, 0x51, 0x54, 0x54, 0x04,
            connect_flags (strlen st.gsst_mqtt_param_data.user_name)
              (strlen st.gsst_mqtt_param_data.password),
            (st.gsst_mqtt_param_data.keep_alive >>> 8) &&& 0xFF,
            st.gsst_mqtt_param_data.keep_alive &&& 0xFF] ++
          [(strlen st.gsst_mqtt_param_data.client_id >>> 8) &&& 0xFF,
            strlen st.gsst_mqtt_param_data.client_id &&& 0xFF] ++
          st.gsst_mqtt_param_data.client_id.take (strlen st.gsst_mqtt_param_data.client_id)) := by
  have h1 : strlen st.gsst_mqtt_param_data.client_id % 65536
      = strlen st.gsst_mqtt_param_data.client_id := Nat.mod_eq_of_lt (by omega)
  have h2 : strlen st.gsst_mqtt_param_data.user_name % 65536
      = strlen st.gsst_mqtt_param_data.user_name := Nat.mod_eq_of_lt (by omega)
  have h3 : strlen st.gsst_mqtt_param_data.password % 65536
      = strlen st.gsst_mqtt_param_data.password := Nat.mod_eq_of_lt (by omega)
  have hpl := connect_payload_length_eq _ _ _ hc hu hp
  have hb1 : (if strlen st.gsst_mqtt_param_data.user_name ≠ 0
      then strlen st.gsst_mqtt_param_data.user_name + 2 else 0) ≤ 65 := by split <;> omega
  have hb2 : (if strlen st.gsst_mqtt_param_data.password ≠ 0
      then strlen st.gsst_mqtt_param_data.password + 2 else 0) ≤ 65 := by split <;> omega
  have hcl := strlen_le_length st.gsst_mqtt_param_data.client_id
  unfold mqtt_connect
  simp only [h1, h2, h3]
  generalize strlen st.gsst_mqtt_param_data.client_id = c at *
  generalize strlen st.gsst_mqtt_param_data.user_name = u at *
  generalize strlen st.gsst_mqtt_param_data.password = p at *
  have hE : (if p ≠ 0 then
      ((if u ≠ 0 then ((c + 2) % 65536 + (u + 2)) % 65536 else (c + 2) % 65536) + (p + 2))
        % 65536
      else if u ≠ 0 then ((c + 2) % 65536 + (u + 2)) % 65536 else (c + 2) % 65536)
      = connect_payload_length c u p := rfl
  have hF : ((if p ≠ 0 then (if u ≠ 0 then 0x00 ||| MQTT_USERNAME_FLAG else 0x00)
      ||| MQTT_PASSWORD_FLAG else if u ≠ 0 then 0x00 ||| MQTT_USERNAME_FLAG else 0x00)
      ||| MQTT_CLEAN_SESSION) = connect_flags u p := rfl
  simp only [hE, hF]
  generalize connect_payload_length c u p = PL at *
  have hR : (10 + PL) % 256 = 10 + PL := Nat.mod_eq_of_lt (by omega)
  simp only [hR]
  by_cases hs : 10 + PL ≤ 127
  · have hs' : ¬ (10 + PL > 127) := by omega
    simp only [if_pos hs, if_neg hs', fixed_header_short]
    rw [connect_fill_take_client _ _ _ _ _ 2 _ _ _ _ _ _ _ _ _ _ _ _ _ _ _ _ _ _ _ _ (by rfl)
      (by rfl) hcl
      (by omega) (by omega) (by omega) (by omega) (by omega) (by omega) (by omega) (by omega)
      (by omega) (by omega) (by omega)]
    unfold publish_remain_bytes
    rw [if_pos hs, hR]
    simp
  · have hs' : 10 + PL > 127 := by omega
    simp only [if_neg hs, if_pos hs', Nat.reduceAdd, fixed_header_long]
    rw [connect_fill_take_client _ _ _ _ _ 3 _ _ _ _ _ _ _ _ _ _ _ _ _ _ _ _ _ _ _ _ (by rfl)
      (by rfl) hcl
      (by omega) (by omega) (by omega) (by omega) (by omega) (by omega) (by omega) (by omega)
      (by omega) (by omega) (by omega)]
    unfold publish_remain_bytes
    rw [if_neg hs, Nat.mod_eq_of_lt (show (10 + PL) / 128 < 256 by omega)]
    simp

theorem strlen_take_pad (s : List Nat) (k : Nat) :
    strlen (s.take (strlen s) ++ List.replicate (k + 1) 0) = strlen s := by
  induction s with
  | nil => simp [strlen, List.replicate_succ, List.takeWhile]
  | cons a t ih =>
    unfold strlen at ih ⊢
    by_cases ha : a = 0
    · subst ha
      simp [List.takeWhile, List.replicate_succ]
    · have hb : (a != 0) = true := by simpa using ha
      simp only [List.takeWhile, hb, List.length_cons, List.take_succ_cons, List.cons_append]
      rw [ih]

theorem init_field (s : List Nat) (n : Nat) (h : strlen s < n) :
    (memset_zero n).memcpy 0 s (strlen s)
      = ⟨s.take (strlen s) ++ List.replicate (n - strlen s) 0, false⟩ := by
  have e : memset_zero n = ⟨[] ++ List.replicate n 0, false⟩ := rfl
  rw [e, memcpy_seq _ _ _ _ _ _ (by simp) (strlen_le_length s) (by omega)]
  simp

theorem init_field_strlen (s : List Nat) (n : Nat) (h : strlen s < n) :
    strlen ((memset_zero n).memcpy 0 s (strlen s)).bytes = strlen s ∧
    ((memset_zero n).memcpy 0 s (strlen s)).bytes.take (strlen s) = s.take (strlen s) := by
  rw [init_field s n h]
  obtain ⟨k, hk⟩ : ∃ k, n - strlen s = k + 1 := ⟨n - strlen s - 1, by omega⟩
  simp only [hk]
  refine ⟨strlen_take_pad s k, ?_⟩
  rw [List.take_append_of_le_length (by simp [strlen_le_length s])]
  simp

theorem connect_client_field (st : MqttState)
    (hc : strlen st.gsst_mqtt_param_data.client_id ≤ 63)
    (hu : strlen st.gsst_mqtt_param_data.user_name ≤ 63)
    (hp : strlen st.gsst_mqtt_param_data.password ≤ 63) :
    ((mqtt_connect st).bytes.drop (fixed_header_length (mqtt_connect st).bytes + 10)).take
        (2 + strlen st.gsst_mqtt_param_data.client_id)
      = [strlen st.gsst_mqtt_param_data.client_id / 256,
          strlen st.gsst_mqtt_param_data.client_id % 256] ++
        st.gsst_mqtt_param_data.client_id.take (strlen st.gsst_mqtt_param_data.client_id) := by
  have hpre := connect_prefix_client st hc hu hp
  have hpl := connect_payload_length_eq _ _ _ hc hu hp
  have hb1 : (if strlen st.gsst_mqtt_param_data.user_name ≠ 0
      then strlen st.gsst_mqtt_param_data.user_name + 2 else 0) ≤ 65 := by split <;> omega
  have hb2 : (if strlen st.gsst_mqtt_param_data.password ≠ 0
      then strlen st.gsst_mqtt_param_data.password + 2 else 0) ≤ 65 := by split <;> omega
  have hcl := strlen_le_length st.gsst_mqtt_param_data.client_id
  generalize connect_payload_length (strlen st.gsst_mqtt_param_data.client_id)
    (strlen st.gsst_mqtt_param_data.user_name) (strlen st.gsst_mqtt_param_data.password)
    = PL at *
  obtain ⟨tail, ht⟩ : ∃ tail, (mqtt_connect st).bytes = MQTT_MSG_CONNECT ::
      (publish_remain_bytes (10 + PL) ++
        [0x00, 0x04, 0x4D, 0x51, 0x54, 0x54, 0x04,
          connect_flags (strlen st.gsst_mqtt_param_data.user_name)
            (strlen st.gsst_mqtt_param_data.password),
          (st.gsst_mqtt_param_data.keep_alive >>> 8) &&& 0xFF,
          st.gsst_mqtt_param_data.keep_alive &&& 0xFF] ++
        [(strlen st.gsst_mqtt_param_data.client_id >>> 8) &&& 0xFF,
          strlen st.gsst_mqtt_param_data.client_id &&& 0xFF] ++
        st.gsst_mqtt_param_data.client_id.take (strlen st.gsst_mqtt_param_data.client_id))
      ++ tail := by
    refine ⟨List.drop ((if 10 + PL ≤ 127 then 2 else 3) + 12 +
      strlen st.gsst_mqtt_param_data.client_id) (mqtt_connect st).bytes, ?_⟩
    rw [← hpre, List.take_append_drop]
  rw [ht]
  simp only [List.cons_append, List.append_assoc, List.nil_append]
  rw [fixed_header_length_of_layout _ _ _ (by omega)]
  have htake : List.take (2 + strlen st.gsst_mqtt_param_data.client_id)
      ((strlen st.gsst_mqtt_param_data.client_id >>> 8 &&& 0xFF) ::
        (strlen st.gsst_mqtt_param_data.client_id &&& 0xFF) ::
        (List.take (strlen st.gsst_mqtt_param_data.client_id) st.gsst_mqtt_param_data.client_id
          ++ tail))
      = [strlen st.gsst_mqtt_param_data.client_id / 256,
          strlen st.gsst_mqtt_param_data.client_id % 256] ++
        st.gsst_mqtt_param_data.client_id.take (strlen st.gsst_mqtt_param_data.client_id) := by
    rw [show 2 + strlen st.gsst_mqtt_param_data.client_id
      = strlen st.gsst_mqtt_param_data.client_id + 1 + 1 from by omega]
    simp only [List.take_succ_cons]
    rw [List.take_append_of_le_length (by simp [hcl]), shr8_and_255, and_255,
      Nat.mod_eq_of_lt (show strlen st.gsst_mqtt_param_data.client_id / 256 < 256 by omega)]
    simp [hcl]
  unfold publish_remain_bytes
  by_cases hs : 10 + PL ≤ 127
  · simp only [if_pos hs, Nat.reduceAdd, List.cons_append, List.nil_append, List.drop_succ_cons,
      List.drop_zero]
    exact htake
  · simp only [if_neg hs, Nat.reduceAdd, List.cons_append, List.nil_append, List.drop_succ_cons,
      List.drop_zero]
    exact htake

theorem connect_length_lt (st : MqttState) : (mqtt_connect st).bytes.length < 65536 := by
  unfold mqtt_connect
  simp only [memcpy_length, store_length, malloc, List.length_replicate]
  exact Nat.mod_lt _ (by decide)

theorem connect_length_pos (st : MqttState)
    (hc : strlen st.gsst_mqtt_param_data.client_id ≤ 63)
    (hu : strlen st.gsst_mqtt_param_data.user_name ≤ 63)
    (hp : strlen st.gsst_mqtt_param_data.password ≤ 63) :
    0 < (mqtt_connect st).bytes.length := by
  obtain ⟨tail, ht⟩ := connect_split st hc hu hp
  rw [ht]
  simp

/-! ## The decode loop on continuation bytes -/

theorem decode_loop_all_continue (n : Nat) :
    ∀ (value multiplier count : Nat),
      (decode_loop (List.replicate n 0xFF) value multiplier count).2 = (count + n, true) := by
  induction n with
  | zero => intro value multiplier count; rfl
  | succ n ih =>
    intro value multiplier count
    rw [List.replicate_succ, decode_loop_more _ _ _ _ _ (by decide), ih]
    simp only [Prod.mk.injEq, and_true]
    omega

theorem remain_bytes_four (b0 d1 d2 d3 : Nat) (T : List Nat) (h1 : d1 &&& 0x80 = 0x80)
    (h2 : d2 &&& 0x80 = 0x80) (h3 : d3 &&& 0x80 = 0x80) :
    (parse_locals (b0 :: d1 :: d2 :: d3 :: T)).remain_bytes = 4 := by
  unfold parse_locals
  simp only [rd, List.getD_cons_zero, List.getD_cons_succ, h1, h2, h3, if_true]

theorem digits_read_eq (src : List Nat) :
    (parse_locals src).digits_read = (decode_loop (src.drop 1) 0 1 0).2.1 := rfl

theorem ran_off_of_loop (src : List Nat) (h : (decode_loop (src.drop 1) 0 1 0).2.2 = true) :
    (parse_locals src).ran_off = true := by
  unfold parse_locals
  simp only [h, Bool.true_or]

theorem parse_oob_of_ran_off (src : List Nat) (dst : Buf)
    (hb : rd src 0 &&& 0xF0 = MQTT_MSG_PUBLISH) (h : (parse_locals src).ran_off = true) :
    (mqtt_receive_data_parse src dst).2.oob = true := by
  unfold mqtt_receive_data_parse
  rw [if_pos hb]
  simp only [h, Bool.or_true]

/-! ## The parser's offset and length on a consistent packet -/

theorem bits_byte_low (d : Nat) (h : d < 128) : d &&& 128 = 0 ∧ d &&& 127 = d :=
  ⟨(bits_lt_128 d h).1, (bits_lt_128 d h).2.1⟩

theorem bits_byte_high (d : Nat) (h : 128 ≤ d) (h' : d < 256) :
    d &&& 128 = 128 ∧ d &&& 127 = d - 128 := by
  have hx := bits_lt_128 (d - 128) (by omega)
  have hd : (d - 128) ||| 128 = d := by rw [hx.2.2.2.2]; omega
  rw [hd] at hx
  exact ⟨hx.2.2.1, hx.2.2.2.1⟩

theorem shl8_mod_256 (x : Nat) : (x <<< 8) % 256 = 0 := by
  rw [Nat.shiftLeft_eq]
  omega

theorem field_cases (field : List Nat) (h : remaining_length_field field = true)
    (h4 : field.length ≤ 4) :
    (∃ d1, field = [d1] ∧ d1 < 128) ∨
    (∃ d1 d2, field = [d1, d2] ∧ 128 ≤ d1 ∧ d1 < 256 ∧ d2 < 128) ∨
    (∃ d1 d2 d3, field = [d1, d2, d3] ∧ 128 ≤ d1 ∧ d1 < 256 ∧ 128 ≤ d2 ∧ d2 < 256 ∧ d3 < 128) ∨
    (∃ d1 d2 d3 d4, field = [d1, d2, d3, d4] ∧ 128 ≤ d1 ∧ d1 < 256 ∧ 128 ≤ d2 ∧ d2 < 256 ∧
      128 ≤ d3 ∧ d3 < 256 ∧ d4 < 128) := by
  match field, h, h4 with
  | [], h, _ => simp [remaining_length_field] at h
  | [d1], h, _ =>
    simp only [remaining_length_field, decide_eq_true_eq] at h
    exact Or.inl ⟨d1, rfl, h⟩
  | [d1, d2], h, _ =>
    simp only [remaining_length_field, decide_eq_true_eq, Bool.and_eq_true] at h
    exact Or.inr (Or.inl ⟨d1, d2, rfl, h.1.1, h.1.2, h.2⟩)
  | [d1, d2, d3], h, _ =>
    simp only [remaining_length_field, decide_eq_true_eq, Bool.and_eq_true] at h
    exact Or.inr (Or.inr (Or.inl ⟨d1, d2, d3, rfl, h.1.1, h.1.2, h.2.1.1, h.2.1.2, h.2.2⟩))
  | [d1, d2, d3, d4], h, _ =>
    simp only [remaining_length_field, decide_eq_true_eq, Bool.and_eq_true] at h
    exact Or.inr (Or.inr (Or.inr ⟨d1, d2, d3, d4, rfl, h.1.1, h.1.2, h.2.1.1, h.2.1.2,
      h.2.2.1.1, h.2.2.1.2, h.2.2.2⟩))
  | _ :: _ :: _ :: _ :: _ :: _, _, h4 =>
    simp only [List.length_cons] at h4
    omega

theorem parse_locals_consistent (b0 thi tlo : Nat) (field rest : List Nat)
    (hfield : remaining_length_field field = true) (hr4 : field.length ≤ 4)
    (hfit : 1 + field.length + base128_value field ≤ 1024)
    (hT : 2 + (thi * 256 + tlo) + (if (b0 &&& 0x06) >>> 1 ≠ 0 then 2 else 0)
      ≤ base128_value field) :
    (parse_locals (b0 :: (field ++ thi :: tlo :: rest))).remain_bytes = field.length ∧
    (parse_locals (b0 :: (field ++ thi :: tlo :: rest))).digits_read = field.length ∧
    (parse_locals (b0 :: (field ++ thi :: tlo :: rest))).value = base128_value field ∧
    (parse_locals (b0 :: (field ++ thi :: tlo :: rest))).src_data_offset
      = (1 + field.length + 2 + (thi * 256 + tlo)
          + (if (b0 &&& 0x06) >>> 1 ≠ 0 then 2 else 0)) % 256 ∧
    (parse_locals (b0 :: (field ++ thi :: tlo :: rest))).src_data_offset
        + (parse_locals (b0 :: (field ++ thi :: tlo :: rest))).msg_length
      = 1 + field.length + base128_value field ∧
    (parse_locals (b0 :: (field ++ thi :: tlo :: rest))).msg_length ≤ 1024 ∧
    (parse_locals (b0 :: (field ++ thi :: tlo :: rest))).ran_off = false := by
  rcases field_cases field hfield hr4 with ⟨d1, rfl, h1⟩ | ⟨d1, d2, rfl, h1, h1', h2⟩ |
    ⟨d1, d2, d3, rfl, h1, h1', h2, h2', h3⟩ | ⟨d1, d2, d3, d4, rfl, h1, h1', h2, h2', h3, h3', h4⟩
  · have a1 := bits_byte_low d1 h1
    have hv : base128_value [d1] ≤ 1024 := by omega
    have hloop : decode_loop (d1 :: thi :: tlo :: rest) 0 1 0
        = (base128_value [d1], 1, false) := by
      rw [decode_loop_last _ _ _ _ _ a1.1]
      simp only [base128_value, a1.2, Nat.one_mul, Nat.reduceMul, Nat.reduceMod,
        Prod.mk.injEq, and_true] at hv ⊢
      omega
    unfold parse_locals
    simp only [List.cons_append, List.nil_append, rd, List.getD_cons_zero, List.getD_cons_succ,
      List.drop_succ_cons, List.drop_zero, a1.1, if_true,
      show ((0 : Nat) = 128) = False from by decide, if_false, hloop, shl8_mod_256,
      Nat.zero_or, List.length_cons, List.length_nil]
    generalize base128_value [d1] = V at hfit hT hv ⊢
    simp only [List.length_cons, List.length_nil] at hfit
    by_cases hc : (b0 &&& 6) >>> 1 ≠ 0
    · simp only [if_pos hc, Bool.false_or, decide_eq_false_iff_not] at hT ⊢
      refine ⟨trivial, trivial, trivial, ?_, ?_, ?_, ?_⟩ <;> omega
    · simp only [if_neg hc, Bool.false_or, decide_eq_false_iff_not] at hT ⊢
      refine ⟨trivial, trivial, trivial, ?_, ?_, ?_, ?_⟩ <;> omega
  · have a1 := bits_byte_high d1 h1 h1'
    have a2 := bits_byte_low d2 h2
    have hv : base128_value [d1, d2] ≤ 1024 := by omega
    have hloop : decode_loop (d1 :: d2 :: thi :: tlo :: rest) 0 1 0
        = (base128_value [d1, d2], 2, false) := by
      rw [decode_loop_more _ _ _ _ _ (show d1 &&& 128 ≠ 0 by rw [a1.1]; decide),
        decode_loop_last _ _ _ _ _ a2.1]
      simp only [base128_value, a1.2, a2.2, Nat.one_mul, Nat.reduceMul, Nat.reduceMod,
        Prod.mk.injEq, and_true] at hv ⊢
      omega
    unfold parse_locals
    simp only [List.cons_append, List.nil_append, rd, List.getD_cons_zero, List.getD_cons_succ,
      List.drop_succ_cons, List.drop_zero, a1.1, a2.1, if_true,
      show ((0 : Nat) = 128) = False from by decide, if_false, hloop, shl8_mod_256,
      Nat.zero_or, List.length_cons, List.length_nil]
    generalize base128_value [d1, d2] = V at hfit hT hv ⊢
    simp only [List.length_cons, List.length_nil] at hfit
    by_cases hc : (b0 &&& 6) >>> 1 ≠ 0
    · simp only [if_pos hc, Bool.false_or, decide_eq_false_iff_not] at hT ⊢
      refine ⟨trivial, trivial, trivial, ?_, ?_, ?_, ?_⟩ <;> omega
    · simp only [if_neg hc, Bool.false_or, decide_eq_false_iff_not] at hT ⊢
      refine ⟨trivial, trivial, trivial, ?_, ?_, ?_, ?_⟩ <;> omega
  · have a1 := bits_byte_high d1 h1 h1'
    have a2 := bits_byte_high d2 h2 h2'
    have a3 := bits_byte_low d3 h3
    have hv : base128_value [d1, d2, d3] ≤ 1024 := by omega
    have hloop : decode_loop (d1 :: d2 :: d3 :: thi :: tlo :: rest) 0 1 0
        = (base128_value [d1, d2, d3], 3, false) := by
      rw [decode_loop_more _ _ _ _ _ (show d1 &&& 128 ≠ 0 by rw [a1.1]; decide),
        decode_loop_more _ _ _ _ _ (show d2 &&& 128 ≠ 0 by rw [a2.1]; decide),
        decode_loop_last _ _ _ _ _ a3.1]
      simp only [base128_value, a1.2, a2.2, a3.2, Nat.one_mul, Nat.reduceMul, Nat.reduceMod,
        Prod.mk.injEq, and_true] at hv ⊢
      omega
    unfold parse_locals
    simp only [List.cons_append, List.nil_append, rd, List.getD_cons_zero, List.getD_cons_succ,
      List.drop_succ_cons, List.drop_zero, a1.1, a2.1, a3.1, if_true,
      show ((0 : Nat) = 128) = False from by decide, if_false, hloop, shl8_mod_256,
      Nat.zero_or, List.length_cons, List.length_nil]
    generalize base128_value [d1, d2, d3] = V at hfit hT hv ⊢
    simp only [List.length_cons, List.length_nil] at hfit
    by_cases hc : (b0 &&& 6) >>> 1 ≠ 0
    · simp only [if_pos hc, Bool.false_or, decide_eq_false_iff_not] at hT ⊢
      refine ⟨trivial, trivial, trivial, ?_, ?_, ?_, ?_⟩ <;> omega
    · simp only [if_neg hc, Bool.false_or, decide_eq_false_iff_not] at hT ⊢
      refine ⟨trivial, trivial, trivial, ?_, ?_, ?_, ?_⟩ <;> omega
  · have a1 := bits_byte_high d1 h1 h1'
    have a2 := bits_byte_high d2 h2 h2'
    have a3 := bits_byte_high d3 h3 h3'
    have a4 := bits_byte_low d4 h4
    have hv : base128_value [d1, d2, d3, d4] ≤ 1024 := by omega
    have hloop : decode_loop (d1 :: d2 :: d3 :: d4 :: thi :: tlo :: rest) 0 1 0
        = (base128_value [d1, d2, d3, d4], 4, false) := by
      rw [decode_loop_more _ _ _ _ _ (show d1 &&& 128 ≠ 0 by rw [a1.1]; decide),
        decode_loop_more _ _ _ _ _ (show d2 &&& 128 ≠ 0 by rw [a2.1]; decide),
        decode_loop_more _ _ _ _ _ (show d3 &&& 128 ≠ 0 by rw [a3.1]; decide),
        decode_loop_last _ _ _ _ _ a4.1]
      simp only [base128_value, a1.2, a2.2, a3.2, a4.2, Nat.one_mul, Nat.reduceMul, Nat.reduceMod,
        Prod.mk.injEq, and_true] at hv ⊢
      omega
    unfold parse_locals
    simp only [List.cons_append, List.nil_append, rd, List.getD_cons_zero, List.getD_cons_succ,
      List.drop_succ_cons, List.drop_zero, a1.1, a2.1, a3.1, a4.1, if_true,
      show ((0 : Nat) = 128) = False from by decide, if_false, hloop, shl8_mod_256,
      Nat.zero_or, List.length_cons, List.length_nil]
    generalize base128_value [d1, d2, d3, d4] = V at hfit hT hv ⊢
    simp only [List.length_cons, List.length_nil] at hfit
    by_cases hc : (b0 &&& 6) >>> 1 ≠ 0
    · simp only [if_pos hc, Bool.false_or, decide_eq_false_iff_not] at hT ⊢
      refine ⟨trivial, trivial, trivial, ?_, ?_, ?_, ?_⟩ <;> omega
    · simp only [if_neg hc, Bool.false_or, decide_eq_false_iff_not] at hT ⊢
      refine ⟨trivial, trivial, trivial, ?_, ?_, ?_, ?_⟩ <;> omega

theorem parse_copy_fits (src : List Nat) (n : Nat)
    (hb : rd src 0 &&& 0xF0 = MQTT_MSG_PUBLISH) (hro : (parse_locals src).ran_off = false)
    (hsrc : (parse_locals src).src_data_offset + (parse_locals src).msg_length ≤ src.length)
    (hn : (parse_locals src).msg_length ≤ n) :
    mqtt_receive_data_parse src (memset_zero n)
      = ((parse_locals src).msg_length,
          ⟨(src.drop (parse_locals src).src_data_offset).take (parse_locals src).msg_length
            ++ List.replicate (n - (parse_locals src).msg_length) 0, false⟩) := by
  unfold mqtt_receive_data_parse
  rw [if_pos hb]
  simp only [hro, Bool.or_false]
  rw [memcpy_fits _ _ _ (by rw [List.length_drop]; omega)
    (by simp only [memset_zero, List.length_replicate]; exact hn)]
  simp only [memset_zero, List.drop_replicate]

/-! ## `mqtt_publish` on a topic longer than its 16-bit length -/

theorem strlen_take (s : List Nat) : ∀ k, k ≤ strlen s →
    strlen (s.take k) = k ∧ ∀ b ∈ s.take k, b ≠ 0 := by
  induction s with
  | nil =>
    intro k hk
    have : k = 0 := by
      have h0 : strlen ([] : List Nat) = 0 := rfl
      omega
    subst this
    exact ⟨rfl, by simp⟩
  | cons a t ih =>
    intro k hk
    cases k with
    | zero => exact ⟨rfl, by simp⟩
    | succ k =>
      by_cases ha : a = 0
      · subst ha
        have h0 : strlen (0 :: t) = 0 := by simp [strlen]
        omega
      · have hs : strlen (a :: t) = strlen t + 1 := by simp [strlen, ha]
        have hk' : k ≤ strlen t := by omega
        obtain ⟨h1, h2⟩ := ih k hk'
        refine ⟨?_, ?_⟩
        · have : strlen (a :: t.take k) = strlen (t.take k) + 1 := by simp [strlen, ha]
          rw [List.take_succ_cons, this, h1]
        · intro b hb
          rw [List.take_succ_cons, List.mem_cons] at hb
          rcases hb with rfl | hb
          · exact ha
          · exact h2 b hb

theorem publish_topic_truncated (st : MqttState) (topic msg : List Nat)
    (msg_len retain qos : Nat) :
    mqtt_publish st topic msg msg_len retain qos
      = mqtt_publish st (topic.take (strlen topic % 65536)) msg msg_len retain qos := by
  have hle : strlen topic % 65536 ≤ strlen topic := Nat.mod_le _ _
  have hlen := strlen_le_length topic
  have hs := (strlen_take topic _ hle).1
  have hm : strlen topic % 65536 % 65536 = strlen topic % 65536 := Nat.mod_mod _ _
  have hl : (topic.take (strlen topic % 65536)).length = strlen topic % 65536 := by
    rw [List.length_take]
    omega
  have h1 : decide (topic.length < strlen topic % 65536) = false := by
    rw [decide_eq_false_iff_not]
    omega
  have h2 : decide ((topic.take (strlen topic % 65536)).length < strlen topic % 65536)
      = false := by
    rw [decide_eq_false_iff_not, hl]
    omega
  unfold mqtt_publish
  simp only [hs, hm, Buf.memcpy, List.take_take, Nat.min_self, h1, h2]

/-! ## Claims -/

/-- C1. PUBLISH encode-then-decode round trip: for a NUL-free topic of at most 240 bytes, a
payload `msg` of `msg_len` bytes, any `retain` and `qos` in {0,1,2} such that the whole encoded
packet (type byte, remaining-length bytes, remaining length) is at most 1024 bytes,
`mqtt_receive_data_parse` run on the receive buffer holding the bytes that `mqtt_publish` hands
to the transport returns exactly `msg_len`, and the first `msg_len` bytes of the output buffer
are `msg`; neither function leaves its buffers. -/
theorem C1_publish_parse_roundtrip (st : MqttState) (topic msg : List Nat)
    (msg_len retain qos : Nat)
    (hnul : ∀ b ∈ topic, b ≠ 0) (htopic : topic.length ≤ 240) (hmsg : msg.length = msg_len)
    (hqos : qos = 0 ∨ qos = 1 ∨ qos = 2)
    (hsize : 1 + (if 2 + topic.length + (if qos = 0 then 0 else 2) + msg_len ≤ 127 then 1 else 2)
      + (2 + topic.length + (if qos = 0 then 0 else 2) + msg_len) ≤ 1024) :
    let sent := (mqtt_publish st topic msg msg_len retain qos).2
    let parsed := mqtt_receive_data_parse (rx_buffer_after_read sent.bytes)
      (malloc MQTT_RX_BUFFER_MAX_LEN)
    sent.oob = false ∧
    sent.bytes.length
      = 1 + (if 2 + topic.length + (if qos = 0 then 0 else 2) + msg_len ≤ 127 then 1 else 2)
        + (2 + topic.length + (if qos = 0 then 0 else 2) + msg_len) ∧
    parsed.1 = msg_len ∧ parsed.2.bytes.take msg_len = msg ∧ parsed.2.oob = false := by
  intro sent parsed
  have hqs : (if qos = 1 ∨ qos = 2 then 2 else 0) = (if qos = 0 then 0 else 2) := by
    rcases hqos with h | h | h <;> subst h <;> simp
  have hq2 : (if qos = 0 then 0 else 2) ≤ 2 := by split <;> omega
  have hNb : 2 + topic.length + (if qos = 0 then 0 else 2) + msg_len ≤ 1021 := by
    by_cases h : 2 + topic.length + (if qos = 0 then 0 else 2) + msg_len ≤ 127
    · omega
    · rw [if_neg h] at hsize
      omega
  have hlay := publish_layout st topic msg msg_len retain qos hnul
    (by rw [hqs]; omega) (by omega) (by rw [hqs]; omega)
  obtain ⟨hb0, hbq⟩ := publish_byte0_bits retain qos
  have hhi : (topic.length >>> 8) &&& 0xFF = 0 := by
    rw [shr8_and_255]
    omega
  have hlo : topic.length &&& 0xFF = topic.length := by
    rw [and_255]
    omega
  have hsent : sent = (mqtt_publish st topic msg msg_len retain qos).2 := rfl
  rw [hlay, hhi, hlo, hqs, List.take_of_length_le (by omega)] at hsent
  simp only at hsent
  have hidlen : ∀ (a b : Nat), (if qos = 1 ∨ qos = 2 then [a, b] else []).length
      = if (publish_byte0 retain qos &&& 0x06) >>> 1 ≠ 0 then 2 else 0 := by
    intro a b
    by_cases h : qos = 1 ∨ qos = 2
    · rw [if_pos h, if_pos (hbq.mpr h)]
      rfl
    · rw [if_neg h, if_neg (fun hc => h (hbq.mp hc))]
      rfl
  have hidlen' : ∀ (a b : Nat), (if qos = 1 ∨ qos = 2 then [a, b] else []).length
      = if qos = 0 then 0 else 2 := by
    intro a b
    rcases hqos with h | h | h <;> subst h <;> simp
  have hdst : msg.length ≤ (malloc MQTT_RX_BUFFER_MAX_LEN).bytes.length := by
    simp only [malloc, MQTT_RX_BUFFER_MAX_LEN, List.length_replicate]
    omega
  have hout : ∀ (n : Nat), List.take msg_len (msg ++ List.drop msg.length
      (malloc n).bytes) = msg := by
    intro n
    rw [← hmsg, List.take_left]
  by_cases hN : 2 + topic.length + (if qos = 0 then 0 else 2) + msg_len ≤ 127
  · rw [if_pos hN] at hsize ⊢
    have hrb : publish_remain_bytes (2 + topic.length + (if qos = 0 then 0 else 2) + msg_len)
        = [2 + topic.length + (if qos = 0 then 0 else 2) + msg_len] := by
      unfold publish_remain_bytes
      rw [if_pos hN, Nat.mod_eq_of_lt (by omega)]
    rw [hrb] at hsent
    have hl : sent.bytes.length
        = 1 + 1 + (2 + topic.length + (if qos = 0 then 0 else 2) + msg_len) := by
      rw [hsent]
      simp [hidlen', hmsg]
      omega
    have hp : parsed = (msg.length, ⟨msg ++ (malloc MQTT_RX_BUFFER_MAX_LEN).bytes.drop
        msg.length, false⟩) := by
      show mqtt_receive_data_parse (rx_buffer_after_read sent.bytes) _ = _
      rw [rx_buffer_of_short _ (by omega), hsent]
      simp only [List.cons_append, List.nil_append, List.append_assoc]
      exact parse_short _ _ _ _ _ _ _ _ hb0 (hidlen _ _) rfl
        (by rw [hidlen', hmsg]) hN hdst
    refine ⟨by rw [hsent], hl, ?_, ?_, ?_⟩
    · rw [hp, hmsg]
    · rw [hp]
      exact hout _
    · rw [hp]
  · rw [if_neg hN] at hsize ⊢
    have hrb : publish_remain_bytes (2 + topic.length + (if qos = 0 then 0 else 2) + msg_len)
        = [((2 + topic.length + (if qos = 0 then 0 else 2) + msg_len) % 128) ||| 0x80,
            (2 + topic.length + (if qos = 0 then 0 else 2) + msg_len) / 128] := by
      unfold publish_remain_bytes
      rw [if_neg hN, Nat.mod_eq_of_lt (show (2 + topic.length + (if qos = 0 then 0 else 2)
        + msg_len) / 128 < 256 by omega)]
    rw [hrb] at hsent
    have hl : sent.bytes.length
        = 1 + 2 + (2 + topic.length + (if qos = 0 then 0 else 2) + msg_len) := by
      rw [hsent]
      simp [hidlen', hmsg]
      omega
    have hp : parsed = (msg.length, ⟨msg ++ (malloc MQTT_RX_BUFFER_MAX_LEN).bytes.drop
        msg.length, false⟩) := by
      show mqtt_receive_data_parse (rx_buffer_after_read sent.bytes) _ = _
      rw [rx_buffer_of_short _ (by omega), hsent]
      simp only [List.cons_append, List.nil_append, List.append_assoc]
      exact parse_long _ _ _ _ _ _ _ _ hb0 (hidlen _ _) rfl
        (by rw [hidlen']; omega) (by rw [hidlen', hmsg]) (by omega) (by omega) hdst
    refine ⟨by rw [hsent], hl, ?_, ?_, ?_⟩
    · rw [hp, hmsg]
    · rw [hp]
      exact hout _
    · rw [hp]

/-- Instance of C1: topic "t", payload `[1, 2, 3]`, QoS 0, retain 0 is sent as
`30 06 00 01 74 01 02 03` and parsed back to length 3 and bytes `[1, 2, 3]`. -/
theorem C1_publish_parse_roundtrip_witness :
    (mqtt_publish initial_state [116] [1, 2, 3] 3 0 0).2.bytes
        = [0x30, 0x06, 0x00, 0x01, 116, 1, 2, 3] ∧
    (mqtt_receive_data_parse
        (rx_buffer_after_read (mqtt_publish initial_state [116] [1, 2, 3] 3 0 0).2.bytes)
        (malloc MQTT_RX_BUFFER_MAX_LEN)).1 = 3 ∧
    (mqtt_receive_data_parse
        (rx_buffer_after_read (mqtt_publish initial_state [116] [1, 2, 3] 3 0 0).2.bytes)
        (malloc MQTT_RX_BUFFER_MAX_LEN)).2.bytes.take 3 = [1, 2, 3] := by
  have h := C1_publish_parse_roundtrip initial_state [116] [1, 2, 3] 3 0 0
    (by decide) (by decide) rfl (by decide) (by decide)
  exact ⟨by decide, h.2.2.1, h.2.2.2.1⟩

/-- C2. PUBLISH wire layout: for a NUL-free topic of at most 251 bytes, a payload of `msg_len`
bytes and `qos` in {0,1,2} with remaining length
`N = 2 + topic_len + (2 if qos > 0 else 0) + msg_len <= 16383`, the bytes `mqtt_publish` sends are
exactly the byte `0x30 | (qos << 1) | (1 if retain != 0 else 0)` (DUP bit clear), the base-128
encoding of `N` (1 byte if `N <= 127`, else 2), `topic_len` as big-endian 16-bit, the topic, the
packet identifier as big-endian 16-bit iff `qos > 0` (the value of the publish counter after the
call), and the payload. -/
theorem C2_publish_wire_layout (st : MqttState) (topic msg : List Nat)
    (msg_len retain qos : Nat)
    (hnul : ∀ b ∈ topic, b ≠ 0) (htopic : topic.length ≤ 251) (hmsg : msg.length = msg_len)
    (hqos : qos = 0 ∨ qos = 1 ∨ qos = 2)
    (hN : 2 + topic.length + (if 0 < qos then 2 else 0) + msg_len ≤ 16383) :
    let r := mqtt_publish st topic msg msg_len retain qos
    let N := 2 + topic.length + (if 0 < qos then 2 else 0) + msg_len
    let id := r.1.gs_publish_identifier
    r.2 = ⟨(0x30 ||| (qos <<< 1) ||| (if retain ≠ 0 then 1 else 0)) ::
        (spec_encode_remaining_length N ++ [topic.length / 256, topic.length % 256] ++ topic ++
          (if 0 < qos then [id / 256, id % 256] else []) ++ msg), false⟩ ∧
    (spec_encode_remaining_length N).length = (if N ≤ 127 then 1 else 2) ∧
    (0x30 ||| (qos <<< 1) ||| (if retain ≠ 0 then 1 else 0)) &&& MQTT_DUP_FLAG = 0 ∧
    (0 < qos → 0 < id ∧ id < 65536) := by
  intro r N id
  have hqs : (if qos = 1 ∨ qos = 2 then 2 else 0) = (if 0 < qos then 2 else 0) := by
    rcases hqos with h | h | h <;> subst h <;> simp
  have hq2 : (if 0 < qos then 2 else 0) ≤ 2 := by split <;> omega
  have hlay := publish_layout st topic msg msg_len retain qos hnul
    (by rw [hqs]; omega) (by omega) (by rw [hqs]; omega)
  have hr : r = mqtt_publish st topic msg msg_len retain qos := rfl
  have hid : id = if qos = 1 ∨ qos = 2 then next_publish_identifier st.gs_publish_identifier
      else st.gs_publish_identifier := by
    show (mqtt_publish st topic msg msg_len retain qos).1.gs_publish_identifier = _
    rw [hlay]
  obtain ⟨hpos, hlt⟩ := next_publish_identifier_bounds st.gs_publish_identifier
  refine ⟨?_, ?_, ?_, ?_⟩
  · rw [hr, hlay, hid, publish_byte0_eq retain qos hqos, hqs,
      ← spec_encode_eq_publish _ (by omega), shr8_and_255, and_255, shr8_and_255, and_255,
      List.take_of_length_le (by omega)]
    show _ = Buf.mk ((0x30 ||| (qos <<< 1) ||| (if retain ≠ 0 then 1 else 0)) ::
        (spec_encode_remaining_length (2 + topic.length + (if 0 < qos then 2 else 0) + msg_len)
          ++ [topic.length / 256, topic.length % 256] ++ topic ++ _ ++ msg)) false
    rcases hqos with h | h | h <;> subst h <;>
      simp [Nat.mod_eq_of_lt (show topic.length / 256 < 256 by omega),
        Nat.mod_eq_of_lt (show next_publish_identifier st.gs_publish_identifier / 256 < 256
          by omega)]
  · show (spec_encode_remaining_length N).length = _
    rw [spec_encode_eq_publish N hN]
    unfold publish_remain_bytes
    split <;> rfl
  · rcases hqos with h | h | h <;> subst h <;> by_cases hr : retain = 0 <;> simp [hr] <;> decide
  · intro hq
    have : qos = 1 ∨ qos = 2 := by omega
    rw [hid, if_pos this]
    exact ⟨hpos, hlt⟩

/-- Instance of C2: topic "t", payload `[1, 2, 3]`, QoS 1, retain set, first identifier. -/
theorem C2_publish_wire_layout_witness :
    (mqtt_publish initial_state [116] [1, 2, 3] 3 1 1).2
      = ⟨[0x33, 0x08, 0x00, 0x01, 116, 0x00, 0x01, 1, 2, 3], false⟩ := by
  have h := (C2_publish_wire_layout initial_state [116] [1, 2, 3] 3 1 1
    (by decide) (by decide) rfl (by decide) (by decide)).1
  have e : spec_encode_remaining_length ((2 + [116].length + if 0 < 1 then 2 else 0) + 3)
      = [8] := spec_encode_one 8 (by decide)
  rw [h, e]
  decide

/-- C3 (as amended). Remaining-length codec in PUBLISH up to the documented two-byte limit: for
every `mqtt_publish` call with a NUL-free topic whose variable header fits its 8-bit size
(`2 + topic_len + identifier bytes <= 255`) and with
`N = 2 + topic_len + identifier bytes + msg_len <= 16383`, exactly `N` bytes follow the fixed
header, the remaining-length field is the base-128 encoding of `N` in 1 byte (`N <= 127`) or
2 bytes, and the decode loop of the parser reproduces `N` and reads exactly that many bytes. -/
theorem C3_remaining_length_up_to_16383 (st : MqttState) (topic msg : List Nat)
    (msg_len retain qos : Nat)
    (hnul : ∀ b ∈ topic, b ≠ 0)
    (hvh : 2 + topic.length + (if qos = 1 ∨ qos = 2 then 2 else 0) ≤ 255)
    (hmsg : msg.length = msg_len)
    (hN : 2 + topic.length + (if qos = 1 ∨ qos = 2 then 2 else 0) + msg_len ≤ 16383) :
    let packet := (mqtt_publish st topic msg msg_len retain qos).2.bytes
    let N := 2 + topic.length + (if qos = 1 ∨ qos = 2 then 2 else 0) + msg_len
    let field := spec_encode_remaining_length N
    field.length = (if N ≤ 127 then 1 else 2) ∧
    packet.length = 1 + field.length + N ∧
    (packet.drop 1).take field.length = field ∧
    decode_loop (packet.drop 1) 0 1 0 = (N, field.length, false) := by
  intro packet N field
  have hlay := publish_layout st topic msg msg_len retain qos hnul hvh (by omega) (by omega)
  have hpk : packet = (mqtt_publish st topic msg msg_len retain qos).2.bytes := rfl
  have hfield : field = publish_remain_bytes N := spec_encode_eq_publish N hN
  have hidlen : ∀ (a b : Nat), (if qos = 1 ∨ qos = 2 then [a, b] else []).length
      = if qos = 1 ∨ qos = 2 then 2 else 0 := by
    intro a b
    split <;> rfl
  rw [hlay] at hpk
  simp only at hpk
  by_cases h : N ≤ 127
  · have hf : field = [N] := by
      rw [hfield]
      unfold publish_remain_bytes
      rw [if_pos h, Nat.mod_eq_of_lt (show N < 256 by omega)]
    have hrb : publish_remain_bytes
        (2 + topic.length + (if qos = 1 ∨ qos = 2 then 2 else 0) + msg_len) = [N] := by
      rw [← hf, hfield]
    rw [hrb] at hpk
    rw [hf, if_pos h, hpk]
    refine ⟨rfl, ?_, by simp, ?_⟩
    · simp [hidlen, hmsg]
      omega
    · rw [List.drop_succ_cons, List.drop_zero]
      show decode_loop (N :: _) 0 1 0 = _
      rw [decode_loop_last _ _ _ _ _ (bits_lt_128 N (by omega)).1,
        (bits_lt_128 N (by omega)).2.1]
      simp
      omega
  · have hf : field = [(N % 128) ||| 0x80, N / 128] := by
      rw [hfield]
      unfold publish_remain_bytes
      rw [if_neg h, Nat.mod_eq_of_lt (show N / 128 < 256 by omega)]
    have hrb : publish_remain_bytes
        (2 + topic.length + (if qos = 1 ∨ qos = 2 then 2 else 0) + msg_len)
        = [(N % 128) ||| 0x80, N / 128] := by
      rw [← hf, hfield]
    rw [hrb] at hpk
    rw [hf, if_neg h, hpk]
    refine ⟨rfl, ?_, by simp, ?_⟩
    · simp [hidlen, hmsg]
      omega
    · rw [List.drop_succ_cons, List.drop_zero]
      show decode_loop (((N % 128) ||| 0x80) :: (N / 128) :: _) 0 1 0 = _
      rw [decode_loop_two N _ (by omega) hN]
      rfl

/-- Instance of C3 at the boundary `N = 16383`: topic "t", 16380 payload bytes, QoS 0. -/
theorem C3_remaining_length_up_to_16383_witness :
    decode_loop ((mqtt_publish initial_state [116] (List.replicate 16380 0) 16380 0 0).2.bytes.drop
      1) 0 1 0 = (16383, 2, false) := by
  have h := (C3_remaining_length_up_to_16383 initial_state [116] (List.replicate 16380 0) 16380
    0 0 (by decide) (by decide) (List.length_replicate _ _) (by decide)).2.2.2
  have e : (spec_encode_remaining_length 16383).length = 2 := by
    rw [spec_encode_two 16383 (by decide) (by decide)]
    rfl
  rw [← e]
  exact h

/-- C3 fails as stated: with topic "t", QoS 0 and a payload of 16381 bytes, 16384 bytes follow
the 3-byte fixed header; the base-128 encoding of 16384 is the three bytes `80 80 01`, but the
remaining-length field written is the two bytes `80 80`, and decoding from it runs into the
topic-length byte and yields 0 after 3 bytes. -/
theorem C3_counterexample :
    ((mqtt_publish initial_state [116] (List.replicate 16381 0) 16381 0 0).2.bytes.length
        = 3 + 16384 ∧
      spec_encode_remaining_length 16384 = [0x80, 0x80, 0x01] ∧
      (mqtt_publish initial_state [116] (List.replicate 16381 0) 16381 0 0).2.bytes.take 4
        = [0x30, 0x80, 0x80, 0x00] ∧
      decode_loop ((mqtt_publish initial_state [116] (List.replicate 16381 0) 16381 0
        0).2.bytes.drop 1) 0 1 0 = (0, 3, false)) ∧
    ¬ (((mqtt_publish initial_state [116] (List.replicate 16381 0) 16381 0 0).2.bytes.drop
          1).take (spec_encode_remaining_length 16384).length
        = spec_encode_remaining_length 16384 ∧
      decode_loop ((mqtt_publish initial_state [116] (List.replicate 16381 0) 16381 0
        0).2.bytes.drop 1) 0 1 0 = (16384, (spec_encode_remaining_length 16384).length, false)) := by
  have hpk : ∀ msg : List Nat, msg.length = 16381 →
      (mqtt_publish initial_state [116] msg 16381 0 0).2.bytes
        = 0x30 :: 0x80 :: 0x80 :: 0x00 :: 0x01 :: 116 :: msg := by
    intro msg hm
    rw [publish_layout initial_state [116] msg 16381 0 0 (by decide) (by decide) (by omega)
      (by decide), List.take_of_length_le (by omega)]
    simp [publish_byte0, publish_remain_bytes, MQTT_MSG_PUBLISH, MQTT_QOS0_FLAG]
  have henc : spec_encode_remaining_length 16384 = [0x80, 0x80, 0x01] := by
    simp [spec_encode_remaining_length]
  have hlen : (List.replicate 16381 0).length = 16381 := List.length_replicate _ _
  rw [hpk _ hlen, henc]
  generalize List.replicate 16381 0 = tail at hlen
  refine ⟨⟨?_, rfl, ?_, ?_⟩, ?_⟩
  · simp only [List.length_cons, hlen]
  · simp
  · simp only [List.drop_succ_cons, List.drop_zero]
    rw [decode_loop_more _ _ _ _ _ (by decide), decode_loop_more _ _ _ _ _ (by decide),
      decode_loop_last _ _ _ _ _ (by decide)]
    decide
  · intro hc
    have h1 := hc.1
    simp at h1

/-- C4. Publish packet identifiers never equal zero and wrap from 0xFFFF to 1: after any
sequence of API calls from the initial state, the next `mqtt_publish` call with `qos` in {1,2},
the `k`-th such call, leaves the publish counter at `((k - 1) mod 65535) + 1`, which is never 0
and is 1 when the counter stood at 0xFFFF; and when the call has a NUL-free topic of at most 251
bytes and remaining length at most 16383, the packet carries that identifier as big-endian
16-bit right after the topic. -/
theorem C4_publish_identifier_sequence (calls : List ApiCall) (topic msg : List Nat)
    (msg_len retain qos : Nat) (hqos : qos = 1 ∨ qos = 2) :
    let k := count_publish_qos calls + 1
    let r := mqtt_publish (api_run initial_state calls) topic msg msg_len retain qos
    r.1.gs_publish_identifier = (k - 1) % 65535 + 1 ∧
    r.1.gs_publish_identifier ≠ 0 ∧
    ((api_run initial_state calls).gs_publish_identifier = 0xFFFF →
      r.1.gs_publish_identifier = 1) ∧
    ((∀ b ∈ topic, b ≠ 0) → topic.length ≤ 251 → msg.length = msg_len →
      2 + topic.length + 2 + msg_len ≤ 16383 →
      r.2 = ⟨(0x30 ||| (qos <<< 1) ||| (if retain ≠ 0 then 1 else 0)) ::
        (spec_encode_remaining_length (2 + topic.length + 2 + msg_len) ++
          [topic.length / 256, topic.length % 256] ++ topic ++
          [((k - 1) % 65535 + 1) / 256, ((k - 1) % 65535 + 1) % 256] ++ msg), false⟩) := by
  intro k r
  have hrun := api_run_publish_identifier calls initial_state 0 rfl
  simp only [Nat.zero_add] at hrun
  have hst : r.1 = _ := publish_state (api_run initial_state calls) topic msg msg_len retain qos
  have hnext : r.1.gs_publish_identifier
      = next_publish_identifier (api_run initial_state calls).gs_publish_identifier := by
    rw [hst, if_pos hqos]
  have hid : r.1.gs_publish_identifier = (k - 1) % 65535 + 1 := by
    rw [hnext, hrun, next_publish_identifier_step]
    simp [k]
  refine ⟨hid, by rw [hid]; omega, ?_, ?_⟩
  · intro h
    rw [hnext, h]
    decide
  · intro hnul hlen hmsg hN
    have hlay := publish_layout (api_run initial_state calls) topic msg msg_len retain qos hnul
      (by rw [if_pos hqos]; omega) (by omega) (by rw [if_pos hqos]; omega)
    have hq' : qos = 0 ∨ qos = 1 ∨ qos = 2 := Or.inr hqos
    have hidlt : (k - 1) % 65535 + 1 < 65536 := by omega
    have hn : next_publish_identifier (api_run initial_state calls).gs_publish_identifier
        = (k - 1) % 65535 + 1 := by
      rw [← hnext]
      exact hid
    show (mqtt_publish (api_run initial_state calls) topic msg msg_len retain qos).2 = _
    rw [hlay]
    simp only [if_pos hqos, hn]
    rw [publish_byte0_eq retain qos hq', ← spec_encode_eq_publish _ (by omega), shr8_and_255,
      and_255, shr8_and_255, and_255, List.take_of_length_le (by omega),
      Nat.mod_eq_of_lt (show topic.length / 256 < 256 by omega),
      Nat.mod_eq_of_lt (show ((k - 1) % 65535 + 1) / 256 < 256 by omega)]
    simp

/-- Instance of C4: after 65535 QoS 1 publishes the next identifier is 1 again. -/
theorem C4_publish_identifier_sequence_witness :
    (mqtt_publish
      (api_run initial_state (List.replicate 65535 (ApiCall.publish [116] [] 0 0 1)))
      [116] [1, 2, 3] 3 0 1).1.gs_publish_identifier = 1 := by
  have h := (C4_publish_identifier_sequence
    (List.replicate 65535 (ApiCall.publish [116] [] 0 0 1)) [116] [1, 2, 3] 3 0 1
    (Or.inl rfl)).1
  rw [count_publish_qos_replicate] at h
  exact h

/-- C5 fails on the code: `mqtt_subscribe` and `mqtt_unsubscribe` take the identifier with a
plain 16-bit post-increment, so after 65535 calls from the initial state the counter has wrapped
to 0, and the 65536-th SUBSCRIBE (resp. UNSUBSCRIBE) packet carries the identifier bytes
`00 00`. -/
theorem C5_identifier_zero_at_call_65536 :
    (mqtt_subscribe
        (api_run initial_state (List.replicate 65535 (ApiCall.subscribe [47] 0)))
        [47, 97, 47, 98, 47] 1).2
      = ⟨[0x82, 0x0A, 0x00, 0x00, 0x00, 0x05, 47, 97, 47, 98, 47, 1], false⟩ ∧
    (mqtt_unsubscribe
        (api_run initial_state (List.replicate 65535 (ApiCall.unsubscribe [47])))
        [47, 97, 47, 98, 47]).2
      = ⟨[0xA2, 0x09, 0x00, 0x00, 0x00, 0x05, 47, 97, 47, 98, 47], false⟩ := by
  have hs := api_run_subscribe_identifier (List.replicate 65535 (ApiCall.subscribe [47] 0))
    initial_state (by decide)
  have hu := api_run_unsubscribe_identifier (List.replicate 65535 (ApiCall.unsubscribe [47]))
    initial_state (by decide)
  rw [count_subscribe_replicate] at hs
  rw [count_unsubscribe_replicate] at hu
  have hs0 : (api_run initial_state
      (List.replicate 65535 (ApiCall.subscribe [47] 0))).gs_subscribe_identifier = 0 := by
    rw [hs]
    decide
  have hu0 : (api_run initial_state
      (List.replicate 65535 (ApiCall.unsubscribe [47]))).gs_unsubscribe_identifier = 0 := by
    rw [hu]
    decide
  constructor
  · rw [subscribe_layout _ _ _ (by decide) (by decide), hs0]
    decide
  · rw [unsubscribe_layout _ _ (by decide) (by decide), hu0]
    decide

/-- C6. SUBSCRIBE wire layout for short topics: for a NUL-free topic of `n <= 122` bytes and any
`qos` byte, the bytes `mqtt_subscribe` sends are exactly `0x82`, `n + 5`, identifier high byte,
identifier low byte, `0x00`, `n`, the `n` topic bytes, `qos`: `n + 7` bytes in total, with
remaining length `2 + 2 + n + 1`. -/
theorem C6_subscribe_wire_layout (st : MqttState) (topic : List Nat) (qos : Nat)
    (hnul : ∀ b ∈ topic, b ≠ 0) (hlen : topic.length ≤ 122) :
    (mqtt_subscribe st topic qos).2
      = ⟨[0x82, topic.length + 5, st.gs_subscribe_identifier / 256 % 256,
          st.gs_subscribe_identifier % 256, 0x00, topic.length] ++ topic ++ [qos], false⟩ ∧
    (mqtt_subscribe st topic qos).2.bytes.length = topic.length + 7 ∧
    topic.length + 5 = 2 + 2 + topic.length + 1 ∧
    spec_encode_remaining_length (2 + 2 + topic.length + 1) = [topic.length + 5] := by
  have hlay := subscribe_layout st topic qos hnul (by omega)
  have hpk : (mqtt_subscribe st topic qos).2
      = ⟨[0x82, topic.length + 5, st.gs_subscribe_identifier / 256 % 256,
          st.gs_subscribe_identifier % 256, 0x00, topic.length] ++ topic ++ [qos], false⟩ := by
    rw [hlay, shr8_and_255, and_255, shr8_and_255, and_255,
      Nat.mod_eq_of_lt (show topic.length + 5 < 256 by omega),
      Nat.mod_eq_of_lt (show topic.length < 256 by omega),
      Nat.div_eq_of_lt (show topic.length < 256 by omega)]
    simp [MQTT_MSG_SUBSCRIBE]
  refine ⟨hpk, ?_, by omega, ?_⟩
  · rw [hpk]
    simp
  · rw [spec_encode_one _ (by omega)]
    simp
    omega

/-- Instance of C6: topic "/a/b/" with QoS 1 gives remaining length 10 and a stream beginning
`82 0A`. -/
theorem C6_subscribe_wire_layout_witness :
    (mqtt_subscribe initial_state [47, 97, 47, 98, 47] 1).2
      = ⟨[0x82, 0x0A, 0x00, 0x01, 0x00, 0x05, 47, 97, 47, 98, 47, 1], false⟩ := by
  rw [(C6_subscribe_wire_layout initial_state [47, 97, 47, 98, 47] 1 (by decide)
    (by decide)).1]
  decide

/-- C7 fails on the code: `mqtt_subscribe` and `mqtt_unsubscribe` always write the remaining
length into one byte.  For a 123-byte topic `mqtt_subscribe` sends 130 bytes whose second byte is
`0x80`: 128 bytes follow the two-byte header, the base-128 encoding of 128 is `80 01`, and the
decode loop run on the field reads the identifier high byte as a continuation and yields 0.  The
same happens in `mqtt_unsubscribe` for a 124-byte topic. -/
theorem C7_remaining_length_single_byte :
    ((mqtt_subscribe initial_state (List.replicate 123 97) 0).2
        = ⟨[0x82, 0x80, 0x00, 0x01, 0x00, 123] ++ List.replicate 123 97 ++ [0], false⟩ ∧
      spec_encode_remaining_length (5 + 123) = [0x80, 0x01] ∧
      decode_loop ((mqtt_subscribe initial_state (List.replicate 123 97) 0).2.bytes.drop 1)
        0 1 0 = (0, 2, false)) ∧
    ((mqtt_unsubscribe initial_state (List.replicate 124 97)).2
        = ⟨[0xA2, 0x80, 0x00, 0x01, 0x00, 124] ++ List.replicate 124 97, false⟩ ∧
      spec_encode_remaining_length (4 + 124) = [0x80, 0x01] ∧
      decode_loop ((mqtt_unsubscribe initial_state (List.replicate 124 97)).2.bytes.drop 1)
        0 1 0 = (0, 2, false)) := by
  have hnul : ∀ n : Nat, ∀ b ∈ List.replicate n 97, b ≠ 0 := by
    intro n b hb
    rw [List.eq_of_mem_replicate hb]
    decide
  have hs : (mqtt_subscribe initial_state (List.replicate 123 97) 0).2
      = ⟨[0x82, 0x80, 0x00, 0x01, 0x00, 123] ++ List.replicate 123 97 ++ [0], false⟩ := by
    rw [subscribe_layout _ _ _ (hnul 123) (by rw [List.length_replicate]; decide),
      List.length_replicate]
    rfl
  have hu : (mqtt_unsubscribe initial_state (List.replicate 124 97)).2
      = ⟨[0xA2, 0x80, 0x00, 0x01, 0x00, 124] ++ List.replicate 124 97, false⟩ := by
    rw [unsubscribe_layout _ _ (hnul 124) (by rw [List.length_replicate]; decide),
      List.length_replicate]
    rfl
  have henc : spec_encode_remaining_length 128 = [0x80, 0x01] := by
    simp [spec_encode_remaining_length]
  refine ⟨⟨hs, henc, ?_⟩, ⟨hu, henc, ?_⟩⟩
  · rw [hs]
    show decode_loop (0x80 :: 0x00 :: _) 0 1 0 = _
    rw [decode_loop_more _ _ _ _ _ (by decide), decode_loop_last _ _ _ _ _ (by decide)]
    decide
  · rw [hu]
    show decode_loop (0x80 :: 0x00 :: _) 0 1 0 = _
    rw [decode_loop_more _ _ _ _ _ (by decide), decode_loop_last _ _ _ _ _ (by decide)]
    decide

/-- C8. CONNECT protocol header: for every stored configuration whose client id, user name and
password are NUL-terminated strings in their 64-byte fields (any keep-alive), the seven bytes
that follow the fixed header of the packet built by `mqtt_connect` are
`0x00, 0x04, 'M', 'Q', 'T', 'T', 0x04`. -/
theorem C8_connect_protocol_header (st : MqttState)
    (hcl : st.gsst_mqtt_param_data.client_id.length = 64)
    (hc0 : 0 ∈ st.gsst_mqtt_param_data.client_id)
    (hul : st.gsst_mqtt_param_data.user_name.length = 64)
    (hu0 : 0 ∈ st.gsst_mqtt_param_data.user_name)
    (hpl : st.gsst_mqtt_param_data.password.length = 64)
    (hp0 : 0 ∈ st.gsst_mqtt_param_data.password) :
    ((mqtt_connect st).bytes.drop (fixed_header_length (mqtt_connect st).bytes)).take 7
      = [0x00, 0x04, 0x4D, 0x51, 0x54, 0x54, 0x04] := by
  have hc := strlen_lt_of_mem_zero _ hc0
  have hu := strlen_lt_of_mem_zero _ hu0
  have hp := strlen_lt_of_mem_zero _ hp0
  obtain ⟨tail, ht⟩ := connect_split st (by omega) (by omega) (by omega)
  have hR := connect_payload_length_eq (strlen st.gsst_mqtt_param_data.client_id)
    (strlen st.gsst_mqtt_param_data.user_name) (strlen st.gsst_mqtt_param_data.password)
    (by omega) (by omega) (by omega)
  have hb1 : (if strlen st.gsst_mqtt_param_data.user_name ≠ 0
      then strlen st.gsst_mqtt_param_data.user_name + 2 else 0) ≤ 65 := by split <;> omega
  have hb2 : (if strlen st.gsst_mqtt_param_data.password ≠ 0
      then strlen st.gsst_mqtt_param_data.password + 2 else 0) ≤ 65 := by split <;> omega
  rw [ht, fixed_header_length_of_layout _ _ _ (by omega)]
  unfold publish_remain_bytes
  split <;> simp

/-- Instance of C8: client id "c", user name "mqtt", password "pw", keep-alive 120. -/
theorem C8_connect_protocol_header_witness :
    ((mqtt_connect ⟨⟨120, 1883, List.replicate 32 0,
        [109, 113, 116, 116] ++ List.replicate 60 0, [99] ++ List.replicate 63 0,
        [112, 119] ++ List.replicate 62 0⟩, 1, 1, 0⟩).bytes.drop 2).take 7
      = [0x00, 0x04, 0x4D, 0x51, 0x54, 0x54, 0x04] := by
  have h := C8_connect_protocol_header ⟨⟨120, 1883, List.replicate 32 0,
        [109, 113, 116, 116] ++ List.replicate 60 0, [99] ++ List.replicate 63 0,
        [112, 119] ++ List.replicate 62 0⟩, 1, 1, 0⟩
    (by decide) (by decide) (by decide) (by decide) (by decide) (by decide)
  have e : fixed_header_length (mqtt_connect ⟨⟨120, 1883, List.replicate 32 0,
        [109, 113, 116, 116] ++ List.replicate 60 0, [99] ++ List.replicate 63 0,
        [112, 119] ++ List.replicate 62 0⟩, 1, 1, 0⟩).bytes = 2 := by decide
  rw [e] at h
  exact h

/-- C9 fails on the code: `mqtt_connect` counts the user-name and password fields in
`payload_length` only when they are non-empty but writes both fields unconditionally.  With
client id "c", an empty user name and password "pw", the 19-byte packet holds the client-id
field `00 01 63` followed by an empty field `00 00` and the length `00 02`; the two password
bytes are stored past the end of the packet. -/
theorem C9_connect_empty_username_password :
    mqtt_connect ⟨⟨120, 1883, List.replicate 32 0, List.replicate 64 0,
        [99] ++ List.replicate 63 0, [112, 119] ++ List.replicate 62 0⟩, 1, 1, 0⟩
      = ⟨[0x10, 0x11, 0x00, 0x04, 0x4D, 0x51, 0x54, 0x54, 0x04, 0x42, 0x00, 0x78,
          0x00, 0x01, 99, 0x00, 0x00, 0x00, 0x02], true⟩ := by
  decide

/-- C10. CONNECT flags byte: for every stored configuration (NUL-terminated strings in the
64-byte fields), the connect-flags byte, the 8th byte of the variable header of the packet built
by `mqtt_connect`, equals `0x02 | (0x80 if the user name is non-empty) | (0x40 if the password is
non-empty)`: clean-session is set, bit 7 is set exactly when a user name is present, bit 6
exactly when a password is present, and bits 0, 2, 3, 4 and 5 are clear. -/
theorem C10_connect_flags_byte (st : MqttState)
    (hcl : st.gsst_mqtt_param_data.client_id.length = 64)
    (hc0 : 0 ∈ st.gsst_mqtt_param_data.client_id)
    (hul : st.gsst_mqtt_param_data.user_name.length = 64)
    (hu0 : 0 ∈ st.gsst_mqtt_param_data.user_name)
    (hpl : st.gsst_mqtt_param_data.password.length = 64)
    (hp0 : 0 ∈ st.gsst_mqtt_param_data.password) :
    let flags := rd (mqtt_connect st).bytes (fixed_header_length (mqtt_connect st).bytes + 7)
    flags = 0x02 ||| (if strlen st.gsst_mqtt_param_data.user_name ≠ 0 then 0x80 else 0)
      ||| (if strlen st.gsst_mqtt_param_data.password ≠ 0 then 0x40 else 0) ∧
    flags &&& MQTT_CLEAN_SESSION = MQTT_CLEAN_SESSION ∧
    (flags &&& MQTT_USERNAME_FLAG = MQTT_USERNAME_FLAG
      ↔ strlen st.gsst_mqtt_param_data.user_name ≠ 0) ∧
    (flags &&& MQTT_PASSWORD_FLAG = MQTT_PASSWORD_FLAG
      ↔ strlen st.gsst_mqtt_param_data.password ≠ 0) ∧
    flags &&& (MQTT_WILL_FLAG ||| 0x18 ||| MQTT_WILL_RETAIN ||| 0x01) = 0 := by
  intro flags
  have hc := strlen_lt_of_mem_zero _ hc0
  have hu := strlen_lt_of_mem_zero _ hu0
  have hp := strlen_lt_of_mem_zero _ hp0
  obtain ⟨tail, ht⟩ := connect_split st (by omega) (by omega) (by omega)
  have hR := connect_payload_length_eq (strlen st.gsst_mqtt_param_data.client_id)
    (strlen st.gsst_mqtt_param_data.user_name) (strlen st.gsst_mqtt_param_data.password)
    (by omega) (by omega) (by omega)
  have hb1 : (if strlen st.gsst_mqtt_param_data.user_name ≠ 0
      then strlen st.gsst_mqtt_param_data.user_name + 2 else 0) ≤ 65 := by split <;> omega
  have hb2 : (if strlen st.gsst_mqtt_param_data.password ≠ 0
      then strlen st.gsst_mqtt_param_data.password + 2 else 0) ≤ 65 := by split <;> omega
  have hf : flags = connect_flags (strlen st.gsst_mqtt_param_data.user_name)
      (strlen st.gsst_mqtt_param_data.password) := by
    show rd (mqtt_connect st).bytes (fixed_header_length (mqtt_connect st).bytes + 7) = _
    rw [ht, fixed_header_length_of_layout _ _ _ (by omega)]
    unfold publish_remain_bytes rd
    split <;> simp
  rw [hf, connect_flags_eq]
  by_cases h1 : strlen st.gsst_mqtt_param_data.user_name = 0 <;>
    by_cases h2 : strlen st.gsst_mqtt_param_data.password = 0 <;>
    simp [h1, h2] <;> decide

/-- Instance of C10: client id "c", user name "mqtt", no password gives the flags byte
`0x82`. -/
theorem C10_connect_flags_byte_witness :
    rd (mqtt_connect ⟨⟨120, 1883, List.replicate 32 0,
        [109, 113, 116, 116] ++ List.replicate 60 0, [99] ++ List.replicate 63 0,
        List.replicate 64 0⟩, 1, 1, 0⟩).bytes 9 = 0x82 := by
  have h := (C10_connect_flags_byte ⟨⟨120, 1883, List.replicate 32 0,
        [109, 113, 116, 116] ++ List.replicate 60 0, [99] ++ List.replicate 63 0,
        List.replicate 64 0⟩, 1, 1, 0⟩
    (by decide) (by decide) (by decide) (by decide) (by decide) (by decide)).1
  have e : fixed_header_length (mqtt_connect ⟨⟨120, 1883, List.replicate 32 0,
        [109, 113, 116, 116] ++ List.replicate 60 0, [99] ++ List.replicate 63 0,
        List.replicate 64 0⟩, 1, 1, 0⟩).bytes + 7 = 9 := by decide
  rw [e] at h
  rw [h]
  decide

/-- C11. CONNECT full layout when all credentials are present: for every stored configuration
whose client id, user name and password are each 1 to 63 bytes long (any 16-bit keep-alive), the
bytes `mqtt_connect` sends are exactly `0x10`, the base-128 encoding of `N = 16 + c + u + p`
(1 byte if `N <= 127`, else 2), `00 04 'M' 'Q' 'T' 'T' 04`, flags `0xC2`, the keep-alive as
big-endian 16-bit, then client id, user name and password, each prefixed by its big-endian
16-bit length; decoding the remaining-length field gives `N`, the packet length minus the
fixed-header size. -/
theorem C11_connect_full_layout (st : MqttState)
    (hc1 : 1 ≤ strlen st.gsst_mqtt_param_data.client_id)
    (hc : strlen st.gsst_mqtt_param_data.client_id ≤ 63)
    (hu1 : 1 ≤ strlen st.gsst_mqtt_param_data.user_name)
    (hu : strlen st.gsst_mqtt_param_data.user_name ≤ 63)
    (hp1 : 1 ≤ strlen st.gsst_mqtt_param_data.password)
    (hp : strlen st.gsst_mqtt_param_data.password ≤ 63)
    (hka : st.gsst_mqtt_param_data.keep_alive < 65536) :
    mqtt_connect st = ⟨0x10 ::
        (spec_encode_remaining_length (16 + strlen st.gsst_mqtt_param_data.client_id
            + strlen st.gsst_mqtt_param_data.user_name
            + strlen st.gsst_mqtt_param_data.password) ++
          [0x00, 0x04, 0x4D, 0x51, 0x54, 0x54, 0x04, 0xC2,
            st.gsst_mqtt_param_data.keep_alive / 256,
            st.gsst_mqtt_param_data.keep_alive % 256] ++
          [strlen st.gsst_mqtt_param_data.client_id / 256,
            strlen st.gsst_mqtt_param_data.client_id % 256] ++
          st.gsst_mqtt_param_data.client_id.take (strlen st.gsst_mqtt_param_data.client_id) ++
          [strlen st.gsst_mqtt_param_data.user_name / 256,
            strlen st.gsst_mqtt_param_data.user_name % 256] ++
          st.gsst_mqtt_param_data.user_name.take (strlen st.gsst_mqtt_param_data.user_name) ++
          [strlen st.gsst_mqtt_param_data.password / 256,
            strlen st.gsst_mqtt_param_data.password % 256] ++
          st.gsst_mqtt_param_data.password.take (strlen st.gsst_mqtt_param_data.password)),
        false⟩ ∧
    (spec_encode_remaining_length (16 + strlen st.gsst_mqtt_param_data.client_id
        + strlen st.gsst_mqtt_param_data.user_name
        + strlen st.gsst_mqtt_param_data.password)).length
      = (if 16 + strlen st.gsst_mqtt_param_data.client_id
          + strlen st.gsst_mqtt_param_data.user_name
          + strlen st.gsst_mqtt_param_data.password ≤ 127 then 1 else 2) ∧
    (decode_loop ((mqtt_connect st).bytes.drop 1) 0 1 0).1
      = 16 + strlen st.gsst_mqtt_param_data.client_id
          + strlen st.gsst_mqtt_param_data.user_name
          + strlen st.gsst_mqtt_param_data.password ∧
    (decode_loop ((mqtt_connect st).bytes.drop 1) 0 1 0).1
      = (mqtt_connect st).bytes.length - fixed_header_length (mqtt_connect st).bytes := by
  have hlay := connect_layout_full st hc hu hp (by omega) (by omega)
  have hcl := strlen_le_length st.gsst_mqtt_param_data.client_id
  have hul := strlen_le_length st.gsst_mqtt_param_data.user_name
  have hpl := strlen_le_length st.gsst_mqtt_param_data.password
  generalize hN : 16 + strlen st.gsst_mqtt_param_data.client_id
    + strlen st.gsst_mqtt_param_data.user_name + strlen st.gsst_mqtt_param_data.password
    = N at *
  have hN' : N ≤ 16383 := by omega
  have hfl : fixed_header_length (mqtt_connect st).bytes = if N ≤ 127 then 2 else 3 := by
    rw [hlay]
    simp only [List.append_assoc]
    exact fixed_header_length_of_layout _ _ _ hN'
  have henc := spec_encode_eq_publish N hN'
  have hrl : (publish_remain_bytes N).length = if N ≤ 127 then 1 else 2 := by
    unfold publish_remain_bytes
    split <;> rfl
  have hlen : (mqtt_connect st).bytes.length = (if N ≤ 127 then 2 else 3) + N := by
    rw [hlay]
    simp only [List.length_cons, List.length_append, List.length_nil, List.length_take, hrl]
    split <;> omega
  have hdec : (decode_loop ((mqtt_connect st).bytes.drop 1) 0 1 0).1 = N := by
    have := hfl
    unfold fixed_header_length at this
    rw [hlay]
    simp only [List.drop_succ_cons, List.drop_zero, List.append_assoc]
    unfold publish_remain_bytes
    by_cases hs : N ≤ 127
    · rw [if_pos hs, Nat.mod_eq_of_lt (show N < 256 by omega)]
      show (decode_loop (N :: _) 0 1 0).1 = N
      rw [decode_loop_last _ _ _ _ _ (bits_lt_128 N (by omega)).1,
        (bits_lt_128 N (by omega)).2.1]
      simp only
      omega
    · rw [if_neg hs, Nat.mod_eq_of_lt (show N / 128 < 256 by omega)]
      show (decode_loop (((N % 128) ||| 0x80) :: (N / 128) :: _) 0 1 0).1 = N
      rw [decode_loop_two N _ (by omega) hN']
  refine ⟨?_, ?_, hdec, ?_⟩
  · rw [hlay, henc, shr8_and_255, and_255, shr8_and_255, and_255, shr8_and_255, and_255,
      shr8_and_255, and_255,
      Nat.mod_eq_of_lt (show st.gsst_mqtt_param_data.keep_alive / 256 < 256 by omega),
      Nat.mod_eq_of_lt
        (show strlen st.gsst_mqtt_param_data.client_id / 256 < 256 by omega),
      Nat.mod_eq_of_lt
        (show strlen st.gsst_mqtt_param_data.user_name / 256 < 256 by omega),
      Nat.mod_eq_of_lt
        (show strlen st.gsst_mqtt_param_data.password / 256 < 256 by omega)]
    rfl
  · rw [henc, hrl]
  · rw [hdec, hlen, hfl]
    omega

/-- Instance of C11: client id "c", user name "mqtt", password "pw", keep-alive 0x1234. -/
theorem C11_connect_full_layout_witness :
    (decode_loop ((mqtt_connect ⟨⟨0x1234, 1883, List.replicate 32 0,
        [109, 113, 116, 116] ++ List.replicate 60 0, [99] ++ List.replicate 63 0,
        [112, 119] ++ List.replicate 62 0⟩, 1, 1, 0⟩).bytes.drop 1) 0 1 0).1 = 23 := by
  have h := (C11_connect_full_layout ⟨⟨0x1234, 1883, List.replicate 32 0,
        [109, 113, 116, 116] ++ List.replicate 60 0, [99] ++ List.replicate 63 0,
        [112, 119] ++ List.replicate 62 0⟩, 1, 1, 0⟩
    (by decide) (by decide) (by decide) (by decide) (by decide) (by decide)
    (by decide)).2.2.1
  rw [h]
  decide

/-- C12 fails on the code: `src_data_offset` is a `uint8_t`, so the high byte of the topic
length is shifted out and the offset wraps modulo 256.  For the 264-byte PUBLISH packet
`30 85 02 01 00`, a 256-byte topic, payload `01 02 03` (QoS 0, remaining length 261) the
offset is 5 instead of 261, the function returns 259 instead of 3, and the output buffer starts
with topic bytes instead of the payload. -/
theorem C12_topic_length_high_byte_dropped :
    ([0x30, 0x85, 0x02, 0x01, 0x00] ++ List.replicate 256 97 ++ [1, 2, 3]).length = 264 ∧
    (parse_locals (rx_buffer_after_read
      ([0x30, 0x85, 0x02, 0x01, 0x00] ++ List.replicate 256 97 ++ [1, 2, 3]))).value = 261 ∧
    (parse_locals (rx_buffer_after_read
      ([0x30, 0x85, 0x02, 0x01, 0x00] ++ List.replicate 256 97 ++ [1, 2, 3]))).src_data_offset
      = 5 ∧
    (mqtt_receive_data_parse
      (rx_buffer_after_read ([0x30, 0x85, 0x02, 0x01, 0x00] ++ List.replicate 256 97 ++ [1, 2, 3]))
      (memset_zero MQTT_RX_BUFFER_MAX_LEN)).1 = 259 ∧
    (mqtt_receive_data_parse
      (rx_buffer_after_read ([0x30, 0x85, 0x02, 0x01, 0x00] ++ List.replicate 256 97 ++ [1, 2, 3]))
      (memset_zero MQTT_RX_BUFFER_MAX_LEN)).2.bytes.take 3 = [97, 97, 97] := by
  have hlen : ([0x30, 0x85, 0x02, 0x01, 0x00] ++ List.replicate 256 97 ++ [1, 2, 3]).length
      = 264 := by
    simp only [List.length_append, List.length_cons, List.length_nil, List.length_replicate]
  have hrx : rx_buffer_after_read ([0x30, 0x85, 0x02, 0x01, 0x00] ++ List.replicate 256 97
      ++ [1, 2, 3])
      = 0x30 :: 0x85 :: 0x02 :: 0x01 :: 0x00 ::
        (97 :: 97 :: 97 :: (List.replicate 253 97 ++ [1, 2, 3] ++ List.replicate 760 0)) := by
    rw [rx_buffer_of_short _ (by rw [hlen]; decide), hlen]
    have : List.replicate 256 97 = 97 :: 97 :: 97 :: List.replicate 253 97 := rfl
    rw [this]
    rfl
  rw [hrx]
  have hT : 259 ≤ (97 :: 97 :: 97 ::
      (List.replicate 253 97 ++ [1, 2, 3] ++ List.replicate 760 0)).length := by
    simp only [List.length_append, List.length_cons, List.length_nil, List.length_replicate]
    omega
  have hd : 259 ≤ (memset_zero MQTT_RX_BUFFER_MAX_LEN).bytes.length := by
    simp only [memset_zero, MQTT_RX_BUFFER_MAX_LEN, List.length_replicate]
    omega
  rw [parse_topic_256 _ _ hT hd, parse_locals_topic_256]
  refine ⟨hlen, rfl, rfl, rfl, ?_⟩
  simp only [List.take_succ_cons, List.cons_append, List.take_zero]

/-- C13 (as amended). The decoder does not detect a short buffer: for a received byte sequence
that is a PUBLISH packet cut short inside its payload (first byte with high nibble `0x3`,
remaining length `n <= 16383`, identifier present iff the QoS bits are set, header offset
`1 + remaining-length bytes + 2 + topic length + identifier bytes <= 255`, whole packet at most
1024 bytes, `m` payload bytes missing), `mqtt_receive_data_parse` returns the full payload length
that the header implies, the output buffer holds the received payload bytes followed by zeros,
and the dispatcher gives the user callback that buffer and that length. -/
theorem C13_short_buffer_not_detected (b0 t m n : Nat) (topic ids p1 : List Nat)
    (hb0 : b0 &&& 0xF0 = 0x30)
    (hids : ids.length = if (b0 &&& 0x06) >>> 1 ≠ 0 then 2 else 0)
    (ht : topic.length = t)
    (hn : n = 2 + t + ids.length + (p1.length + m)) (hn' : n ≤ 16383)
    (hoff : (if n ≤ 127 then 2 else 3) + 2 + t + ids.length ≤ 255)
    (hfull : (if n ≤ 127 then 2 else 3) + n ≤ 1024) :
    mqtt_receive_data_parse
        (rx_buffer_after_read
          (b0 :: (spec_encode_remaining_length n ++ [0x00, t] ++ topic ++ ids ++ p1)))
        (memset_zero MQTT_RX_BUFFER_MAX_LEN)
      = (p1.length + m, ⟨p1 ++ List.replicate (1024 - p1.length) 0, false⟩) ∧
    mqtt_fasync_callback_function
        (some (b0 :: (spec_encode_remaining_length n ++ [0x00, t] ++ topic ++ ids ++ p1)))
      = [Event.callback ⟨p1 ++ List.replicate (1024 - p1.length) 0, false⟩ (p1.length + m)] := by
  have hp := parse_truncated b0 t m n topic ids p1 hb0 hids ht hn hn' hoff hfull
  have hshape : b0 :: (spec_encode_remaining_length n ++ [0x00, t] ++ topic ++ ids ++ p1)
      = b0 :: (publish_remain_bytes n ++ (0 :: t :: (topic ++ (ids ++ p1)))) := by
    rw [spec_encode_eq_publish n hn']
    simp
  rw [hshape]
  refine ⟨hp, ?_⟩
  obtain ⟨h1, h2, h3, h4, h5, h6⟩ := first_byte_of_publish b0 hb0
  rw [dispatch_default _ (by rw [rx_buffer_first]; exact h1) (by rw [rx_buffer_first]; exact h2)
    (by rw [rx_buffer_first]; exact h3) (by rw [rx_buffer_first]; exact h4)
    (by rw [rx_buffer_first]; exact h5) (by rw [rx_buffer_first]; exact h6), hp]

/-- Instance of C13: the PUBLISH for topic "t" with payload `09 08 07` received without its last
two bytes is decoded to length 3 and bytes `09 00 00`. -/
theorem C13_short_buffer_not_detected_witness :
    (mqtt_receive_data_parse (rx_buffer_after_read [0x30, 0x06, 0x00, 0x01, 0x74, 9])
      (memset_zero MQTT_RX_BUFFER_MAX_LEN)).1 = 3 := by
  have h := (C13_short_buffer_not_detected 0x30 1 2 6 [0x74] [] [9] (by decide) (by decide) rfl
    (by decide) (by decide) (by decide) (by decide)).1
  have e : spec_encode_remaining_length 6 = [6] := spec_encode_one 6 (by decide)
  rw [e] at h
  have h' := congrArg Prod.fst h
  exact h'

/-- C13 fails as stated: the five bytes `30 06 00 01 74` (a PUBLISH whose header announces 6
remaining bytes, of which 3 arrived) are decoded, inside both buffers, to length 3, not 0, and
the callback is given length 3. -/
theorem C13_counterexample :
    mqtt_receive_data_parse (rx_buffer_after_read [0x30, 0x06, 0x00, 0x01, 0x74])
        (memset_zero MQTT_RX_BUFFER_MAX_LEN)
      = (3, ⟨List.replicate 1024 0, false⟩) ∧
    mqtt_fasync_callback_function (some [0x30, 0x06, 0x00, 0x01, 0x74])
      = [Event.callback ⟨List.replicate 1024 0, false⟩ 3] := by
  have hp : mqtt_receive_data_parse (rx_buffer_after_read [0x30, 0x06, 0x00, 0x01, 0x74])
      (memset_zero MQTT_RX_BUFFER_MAX_LEN) = (3, ⟨List.replicate 1024 0, false⟩) :=
    parse_truncated 0x30 1 3 6 [0x74] [] [] (by decide) (by decide) rfl (by decide) (by decide)
      (by decide) (by decide)
  refine ⟨hp, ?_⟩
  rw [dispatch_default _ (by decide) (by decide) (by decide) (by decide) (by decide)
    (by decide), hp]

/-- C14 (as amended). The dispatcher `mqtt_fasync_callback_function` selects on the exact value
of the first byte.  For a successfully read buffer it does not invoke the user callback when the
first byte is one of `0x20, 0x40, 0x50, 0x90, 0xB0, 0xD0`.  When the first byte is none of the
six and the decoder stays inside the receive and output buffers, it invokes the callback exactly
once, with the decoder's output and result (so once for every such read whose first byte has
high nibble `0x3`).  When the first byte is none of the six and its high nibble is not `0x3`,
the decoder touches no buffer and the callback is invoked once with length 0 and the zeroed
buffer.  A failed read invokes nothing. -/
theorem C14_callback_for_every_unlisted_first_byte (data : List Nat) :
    (rd (rx_buffer_after_read data) 0 ∈
        [MQTT_MSG_CONNACK, MQTT_MSG_PUBACK, MQTT_MSG_PUBREC, MQTT_MSG_SUBACK, MQTT_MSG_UNSUBACK,
          MQTT_MSG_PINGRESP] →
      count_callbacks (mqtt_fasync_callback_function (some data)) = 0) ∧
    (rd (rx_buffer_after_read data) 0 ∉
        [MQTT_MSG_CONNACK, MQTT_MSG_PUBACK, MQTT_MSG_PUBREC, MQTT_MSG_SUBACK, MQTT_MSG_UNSUBACK,
          MQTT_MSG_PINGRESP] →
      (mqtt_receive_data_parse (rx_buffer_after_read data)
        (memset_zero MQTT_RX_BUFFER_MAX_LEN)).2.oob = false →
      mqtt_fasync_callback_function (some data)
        = [Event.callback
            ⟨(mqtt_receive_data_parse (rx_buffer_after_read data)
              (memset_zero MQTT_RX_BUFFER_MAX_LEN)).2.bytes, false⟩
            (mqtt_receive_data_parse (rx_buffer_after_read data)
              (memset_zero MQTT_RX_BUFFER_MAX_LEN)).1] ∧
      count_callbacks (mqtt_fasync_callback_function (some data)) = 1) ∧
    (rd (rx_buffer_after_read data) 0 &&& 0xF0 = MQTT_MSG_PUBLISH →
      (mqtt_receive_data_parse (rx_buffer_after_read data)
        (memset_zero MQTT_RX_BUFFER_MAX_LEN)).2.oob = false →
      count_callbacks (mqtt_fasync_callback_function (some data)) = 1) ∧
    (rd (rx_buffer_after_read data) 0 ∉
        [MQTT_MSG_CONNACK, MQTT_MSG_PUBACK, MQTT_MSG_PUBREC, MQTT_MSG_SUBACK, MQTT_MSG_UNSUBACK,
          MQTT_MSG_PINGRESP] →
      rd (rx_buffer_after_read data) 0 &&& 0xF0 ≠ MQTT_MSG_PUBLISH →
      mqtt_fasync_callback_function (some data)
        = [Event.callback ⟨List.replicate 1024 0, false⟩ 0]) ∧
    count_callbacks (mqtt_fasync_callback_function none) = 0 := by
  have hnot : rd (rx_buffer_after_read data) 0 ∉
        [MQTT_MSG_CONNACK, MQTT_MSG_PUBACK, MQTT_MSG_PUBREC, MQTT_MSG_SUBACK, MQTT_MSG_UNSUBACK,
          MQTT_MSG_PINGRESP] →
      mqtt_fasync_callback_function (some data)
        = [Event.callback
          (mqtt_receive_data_parse (rx_buffer_after_read data)
            (memset_zero MQTT_RX_BUFFER_MAX_LEN)).2
          (mqtt_receive_data_parse (rx_buffer_after_read data)
            (memset_zero MQTT_RX_BUFFER_MAX_LEN)).1] := by
    intro h
    simp only [List.mem_cons, List.mem_singleton, List.not_mem_nil, or_false, not_or] at h
    exact dispatch_default data h.1 h.2.1 h.2.2.1 h.2.2.2.1 h.2.2.2.2.1 h.2.2.2.2.2
  have hbuf : ∀ b : Buf, b.oob = false → b = ⟨b.bytes, false⟩ := by
    intro b hb
    cases b
    simp only at hb
    rw [hb]
  refine ⟨?_, ?_, ?_, ?_, rfl⟩
  · intro h
    simp only [List.mem_cons, List.mem_singleton, List.not_mem_nil, or_false] at h
    have hack := count_callbacks_ack_code
    rcases h with h | h | h | h | h | h <;>
      simp [mqtt_fasync_callback_function, h, MQTT_MSG_CONNACK, MQTT_MSG_PUBACK,
        MQTT_MSG_PUBREC, MQTT_MSG_SUBACK, MQTT_MSG_UNSUBACK, MQTT_MSG_PINGRESP,
        count_callbacks, PRINT_LOG] <;>
      exact hack _ _
  · intro h hoob
    rw [hnot h]
    refine ⟨?_, rfl⟩
    rw [← hbuf _ hoob]
  · intro h _
    have : rd (rx_buffer_after_read data) 0 ∉
        [MQTT_MSG_CONNACK, MQTT_MSG_PUBACK, MQTT_MSG_PUBREC, MQTT_MSG_SUBACK, MQTT_MSG_UNSUBACK,
          MQTT_MSG_PINGRESP] := by
      intro hm
      simp only [List.mem_cons, List.mem_singleton, List.not_mem_nil, or_false] at hm
      rcases hm with e | e | e | e | e | e <;> rw [e] at h <;> revert h <;> decide
    rw [hnot this]
    rfl
  · intro h hp
    rw [hnot h, parse_not_publish _ _ hp]
    rfl

/-- Instance of C14: a complete PUBLISH for topic "t" with payload `[1, 2, 3]` is decoded inside
the buffers and invokes the callback once. -/
theorem C14_callback_for_every_unlisted_first_byte_witness :
    count_callbacks
      (mqtt_fasync_callback_function (some [0x30, 0x06, 0x00, 0x01, 0x74, 1, 2, 3])) = 1 := by
  have hp : mqtt_receive_data_parse
      (rx_buffer_after_read [0x30, 0x06, 0x00, 0x01, 0x74, 1, 2, 3])
      (memset_zero MQTT_RX_BUFFER_MAX_LEN)
      = (3, ⟨[1, 2, 3] ++ List.replicate (1024 - 3) 0, false⟩) :=
    parse_truncated 0x30 1 0 6 [0x74] [] [1, 2, 3] (by decide) (by decide) rfl (by decide)
      (by decide) (by decide) (by decide)
  exact (C14_callback_for_every_unlisted_first_byte [0x30, 0x06, 0x00, 0x01, 0x74, 1, 2, 3]).2.2.1
    (by decide) (by rw [hp])

/-- C14 fails as stated: a successfully read buffer whose first byte is PUBREL `0x62` (high
nibble `0x6`) reaches the `default` branch and the user callback is invoked once, with
length 0. -/
theorem C14_counterexample :
    rd (rx_buffer_after_read [0x62, 0x02, 0x00, 0x01]) 0 &&& 0xF0 = 0x60 ∧
    count_callbacks (mqtt_fasync_callback_function (some [0x62, 0x02, 0x00, 0x01])) = 1 ∧
    mqtt_fasync_callback_function (some [0x62, 0x02, 0x00, 0x01])
      = [Event.callback (memset_zero MQTT_RX_BUFFER_MAX_LEN) 0] := by
  have h := dispatch_default [0x62, 0x02, 0x00, 0x01] (by decide) (by decide) (by decide)
    (by decide) (by decide) (by decide)
  rw [parse_not_publish _ _ (by decide)] at h
  rw [h]
  exact ⟨by decide, rfl, rfl⟩

/-- C15. CONNACK never falsely reports success: for every buffer read whose first byte is
`0x20`, the dispatcher logs the CONNACK line followed by what `mqtt_receive_ack_code` logs for
the return code in byte 3; the line "The connection has been accepted by the server" is logged
if and only if that code is `0x00`; for code `0x02` exactly the rejected-identifier line is
logged; the user callback is not invoked. -/
theorem C15_connack_report (data : List Nat)
    (h : rd (rx_buffer_after_read data) 0 = MQTT_MSG_CONNACK) :
    mqtt_fasync_callback_function (some data)
      = PRINT_LOG ("receive mqtt CONNACK ack") ::
        mqtt_receive_ack_code MQTT_MSG_CONNACK (rd (rx_buffer_after_read data) 3) ∧
    (PRINT_LOG ("The connection has been accepted by the server")
        ∈ mqtt_fasync_callback_function (some data)
      ↔ rd (rx_buffer_after_read data) 3 = 0x00) ∧
    (rd (rx_buffer_after_read data) 3 = 0x02 →
      mqtt_fasync_callback_function (some data)
        = [PRINT_LOG ("receive mqtt CONNACK ack"),
            PRINT_LOG ("The client identifier is the correct UTF-8 encoding, but is not " ++
              "allowed on the server")]) ∧
    count_callbacks (mqtt_fasync_callback_function (some data)) = 0 := by
  have hev : mqtt_fasync_callback_function (some data)
      = PRINT_LOG ("receive mqtt CONNACK ack") ::
        mqtt_receive_ack_code MQTT_MSG_CONNACK (rd (rx_buffer_after_read data) 3) := by
    simp only [mqtt_fasync_callback_function, if_pos h]
  rw [hev]
  generalize rd (rx_buffer_after_read data) 3 = code
  refine ⟨rfl, ?_, ?_, ?_⟩
  · unfold mqtt_receive_ack_code PRINT_LOG
    simp only [if_true]
    constructor
    · intro hm
      by_contra hc
      rw [if_neg hc] at hm
      repeat' split at hm
      all_goals simp at hm
    · intro hc
      rw [if_pos hc]
      simp
  · intro hc
    subst hc
    rfl
  · show count_callbacks (mqtt_receive_ack_code MQTT_MSG_CONNACK code) = 0
    exact count_callbacks_ack_code _ _

/-- Instance of C15: the CONNACK `20 02 00 02` is reported as a rejected identifier. -/
theorem C15_connack_report_witness :
    mqtt_fasync_callback_function (some [0x20, 0x02, 0x00, 0x02])
      = [PRINT_LOG ("receive mqtt CONNACK ack"),
          PRINT_LOG ("The client identifier is the correct UTF-8 encoding, but is not " ++
            "allowed on the server")] :=
  (C15_connack_report [0x20, 0x02, 0x00, 0x02] (by decide)).2.2.1 (by decide)

/-- C16 (as amended). `mqtt_publish` makes no field-size check and does not fail the encode: for
every topic, topics longer than 65535 bytes included, whose length modulo 65536 (the value of
the 16-bit `topic_length`) keeps the variable header within its 8-bit size
(`2 + topic_length + identifier bytes <= 255`), with `msg_len` payload bytes present and a
remaining length of at most 65532, it builds, inside its buffers, the PUBLISH packet of the
first `topic_length` bytes of the topic and hands it to `socket_send_data`; it returns -1 only
when some `write` fails with an `errno` other than `EINTR` and `EAGAIN`, and it returns 0 when
the transport accepts the whole packet at once. -/
theorem C16_publish_fails_only_on_transport_error (outcomes : List WriteOutcome)
    (st : MqttState) (topic msg : List Nat) (msg_len retain qos : Nat)
    (hvh : 2 + strlen topic % 65536 + (if qos = 1 ∨ qos = 2 then 2 else 0) ≤ 255)
    (hmsg : msg_len ≤ msg.length)
    (hN : 2 + strlen topic % 65536 + (if qos = 1 ∨ qos = 2 then 2 else 0) + msg_len ≤ 65532) :
    (mqtt_publish st topic msg msg_len retain qos).2
      = ⟨publish_byte0 retain qos ::
          (publish_remain_bytes
              (2 + strlen topic % 65536 + (if qos = 1 ∨ qos = 2 then 2 else 0) + msg_len) ++
            (((strlen topic % 65536) >>> 8) &&& 0xFF) :: ((strlen topic % 65536) &&& 0xFF) ::
              topic.take (strlen topic % 65536) ++
            (if qos = 1 ∨ qos = 2 then
              [(next_publish_identifier st.gs_publish_identifier >>> 8) &&& 0xFF,
                next_publish_identifier st.gs_publish_identifier &&& 0xFF]
             else []) ++ msg.take msg_len), false⟩ ∧
    (mqtt_publish_send outcomes st topic msg msg_len retain qos).2.2
      = socket_send_data outcomes (mqtt_publish st topic msg msg_len retain qos).2.bytes
          (mqtt_publish st topic msg msg_len retain qos).2.bytes.length ∧
    ((mqtt_publish_send outcomes st topic msg msg_len retain qos).1 = some (-1) →
      ∃ o ∈ outcomes, o.fatal = true) ∧
    (∀ errno : Nat,
      (mqtt_publish_send
          (⟨((mqtt_publish st topic msg msg_len retain qos).2.bytes.length : Int), errno⟩ ::
            outcomes) st topic msg msg_len retain qos).1 = some 0 ∧
      (mqtt_publish_send
          (⟨((mqtt_publish st topic msg msg_len retain qos).2.bytes.length : Int), errno⟩ ::
            outcomes) st topic msg msg_len retain qos).2.2.chunks
        = [(mqtt_publish st topic msg msg_len retain qos).2.bytes]) := by
  have hlt := packet_length_lt st topic msg msg_len retain qos
  have hle : strlen topic % 65536 ≤ strlen topic := Nat.mod_le _ _
  have hlen := strlen_le_length topic
  have hl : (topic.take (strlen topic % 65536)).length = strlen topic % 65536 := by
    rw [List.length_take]
    omega
  have hlay := publish_layout st (topic.take (strlen topic % 65536)) msg msg_len retain qos
    (strlen_take topic _ hle).2 (by rw [hl]; exact hvh) hmsg (by rw [hl]; exact hN)
  rw [← publish_topic_truncated, hl] at hlay
  have hpos : 0 < (mqtt_publish st topic msg msg_len retain qos).2.bytes.length := by
    rw [hlay]
    simp
  refine ⟨by rw [hlay], rfl, ?_, ?_⟩
  · intro h
    unfold mqtt_publish_send at h
    simp only at h
    generalize hs : socket_send_data outcomes
      (mqtt_publish st topic msg msg_len retain qos).2.bytes
      (mqtt_publish st topic msg msg_len retain qos).2.bytes.length = sent at h
    cases hr : sent.ret with
    | none => rw [hr] at h; simp at h
    | some v =>
      rw [hr] at h
      simp only [Option.map_some', Option.some.injEq] at h
      have hv : v < 0 := by
        by_contra hc
        rw [if_neg hc] at h
        omega
      unfold socket_send_data at hs
      have hm : (mqtt_publish st topic msg msg_len retain qos).2.bytes.length
          % 18446744073709551616
          = (mqtt_publish st topic msg msg_len retain qos).2.bytes.length :=
        Nat.mod_eq_of_lt (by omega)
      rw [hm] at hs
      exact send_loop_negative (mqtt_publish st topic msg msg_len retain qos).2.bytes.length
        (by rw [int_of_uint64_nonneg _ (by omega)]; omega) outcomes _ _ _ v
        (by rw [hs]; exact hr) hv
  · intro errno
    unfold mqtt_publish_send
    simp only
    rw [send_all_at_once _ errno outcomes hpos (by omega)]
    simp only [Option.map_some', Option.some.injEq, and_true]
    rw [if_neg (by omega)]

/-- Instance of C16: topic "t", payload `[1, 2, 3]`, QoS 0 over a transport that takes the eight
bytes at once returns 0. -/
theorem C16_publish_fails_only_on_transport_error_witness :
    (mqtt_publish_send [⟨8, 0⟩] initial_state [116] [1, 2, 3] 3 0 0).1 = some 0 :=
  ((C16_publish_fails_only_on_transport_error [] initial_state [116] [1, 2, 3] 3 0 0
    (by decide) (by decide) (by decide)).2.2.2 0).1

/-- C16 fails as stated: for a topic of 65536 bytes `'a'` (no payload, QoS 0) over a transport
that accepts every byte, `topic_length` is `strlen(topic)` truncated to 16 bits, that is 0;
`mqtt_publish` builds the PUBLISH packet `30 02 00 00` of the empty topic without leaving its
buffers, the transport receives it, and the function returns 0. -/
theorem C16_counterexample :
    (List.replicate 65536 97).length = 65536 ∧
    (mqtt_publish initial_state (List.replicate 65536 97) [] 0 0 0).2
      = ⟨[0x30, 0x02, 0x00, 0x00], false⟩ ∧
    mqtt_publish_send [⟨4, 0⟩] initial_state (List.replicate 65536 97) [] 0 0 0
      = (some 0, initial_state, ⟨some 4, [[0x30, 0x02, 0x00, 0x00]], []⟩) := by
  have hs : strlen (List.replicate 65536 97) % 65536 = 0 := by
    rw [strlen_of_nul_free _ (by
      intro b hb
      rw [List.eq_of_mem_replicate hb]
      decide), List.length_replicate]
  refine ⟨List.length_replicate _ _, ?_, ?_⟩
  · rw [publish_topic_length_zero _ _ _ _ _ _ hs]
    decide
  · unfold mqtt_publish_send
    rw [publish_topic_length_zero _ _ _ _ _ _ hs]
    decide

/-- C17. The three identifier counters are independent and are the encoders' only effect on the
globals: `mqtt_publish` with `qos` 0 leaves the globals unchanged; with `qos` 1 or 2 it changes
only the publish counter; `mqtt_subscribe` changes only the subscribe counter;
`mqtt_unsubscribe` changes only the unsubscribe counter; `mqtt_connect`, `mqtt_pingreq` and
`mqtt_disconnect` change none; all this whatever the transport does. -/
theorem C17_counters_frame (outcomes : List WriteOutcome) (st : MqttState) :
    (∀ topic msg msg_len retain,
      (client_call outcomes st (.publish topic msg msg_len retain 0)).1 = st) ∧
    (∀ topic msg msg_len retain qos, qos = 1 ∨ qos = 2 →
      (client_call outcomes st (.publish topic msg msg_len retain qos)).1
        = ⟨st.gsst_mqtt_param_data, st.gs_unsubscribe_identifier, st.gs_subscribe_identifier,
            next_publish_identifier st.gs_publish_identifier⟩ ∧
      next_publish_identifier st.gs_publish_identifier ≠ st.gs_publish_identifier) ∧
    (∀ topic qos,
      (client_call outcomes st (.subscribe topic qos)).1
        = ⟨st.gsst_mqtt_param_data, st.gs_unsubscribe_identifier,
            (st.gs_subscribe_identifier + 1) % 65536, st.gs_publish_identifier⟩) ∧
    (∀ topic,
      (client_call outcomes st (.unsubscribe topic)).1
        = ⟨st.gsst_mqtt_param_data, (st.gs_unsubscribe_identifier + 1) % 65536,
            st.gs_subscribe_identifier, st.gs_publish_identifier⟩) ∧
    (client_call outcomes st .connect).1 = st ∧
    (client_call outcomes st .pingreq).1 = st ∧
    (client_call outcomes st .disconnect).1 = st := by
  refine ⟨?_, ?_, ?_, ?_, rfl, rfl, rfl⟩
  · intro topic msg msg_len retain
    show (mqtt_publish st topic msg msg_len retain 0).1 = st
    rw [publish_state]
    rfl
  · intro topic msg msg_len retain qos hq
    refine ⟨?_, next_publish_identifier_ne _⟩
    show (mqtt_publish st topic msg msg_len retain qos).1 = _
    rw [publish_state, if_pos hq]
  · intro topic qos
    rfl
  · intro topic
    rfl

/-- Instance of C17: a QoS 1 publish in the initial state moves only the publish counter, from
0 to 1. -/
theorem C17_counters_frame_witness :
    (client_call [] initial_state (.publish [116] [1, 2, 3] 3 0 1)).1
      = ⟨initial_state.gsst_mqtt_param_data, 1, 1, 1⟩ :=
  ((C17_counters_frame [] initial_state).2.1 [116] [1, 2, 3] 3 0 1 (Or.inl rfl)).1

/-- C18. UNSUBSCRIBE wire layout for short topics: for a NUL-free topic of `n <= 123` bytes,
the bytes `mqtt_unsubscribe` sends are exactly `0xA2`, `n + 4`, identifier high byte,
identifier low byte, `0x00`, `n`, the `n` topic bytes: `n + 6` bytes in total. -/
theorem C18_unsubscribe_wire_layout (st : MqttState) (topic : List Nat)
    (hnul : ∀ b ∈ topic, b ≠ 0) (hlen : topic.length ≤ 123) :
    (mqtt_unsubscribe st topic).2
      = ⟨[0xA2, topic.length + 4, st.gs_unsubscribe_identifier / 256 % 256,
          st.gs_unsubscribe_identifier % 256, 0x00, topic.length] ++ topic, false⟩ ∧
    (mqtt_unsubscribe st topic).2.bytes.length = topic.length + 6 := by
  have hlay := unsubscribe_layout st topic hnul (by omega)
  have hpk : (mqtt_unsubscribe st topic).2
      = ⟨[0xA2, topic.length + 4, st.gs_unsubscribe_identifier / 256 % 256,
          st.gs_unsubscribe_identifier % 256, 0x00, topic.length] ++ topic, false⟩ := by
    rw [hlay, shr8_and_255, and_255, shr8_and_255, and_255,
      Nat.mod_eq_of_lt (show topic.length + 4 < 256 by omega),
      Nat.mod_eq_of_lt (show topic.length < 256 by omega),
      Nat.div_eq_of_lt (show topic.length < 256 by omega)]
    simp [MQTT_MSG_UNSUBSCRIBE]
  refine ⟨hpk, ?_⟩
  rw [hpk]
  simp

/-- Instance of C18: topic "/a/b/" in the initial state. -/
theorem C18_unsubscribe_wire_layout_witness :
    (mqtt_unsubscribe initial_state [47, 97, 47, 98, 47]).2
      = ⟨[0xA2, 0x09, 0x00, 0x01, 0x00, 0x05, 47, 97, 47, 98, 47], false⟩ := by
  rw [(C18_unsubscribe_wire_layout initial_state [47, 97, 47, 98, 47] (by decide)
    (by decide)).1]
  decide

/-- C19 (as amended). The client identifier is not validated: for every configuration whose
address is shorter than 32 bytes and whose client id, user name and password are shorter than
64 bytes (the client id may be empty), `mqtt_init` stores the configuration and returns 0
whenever `socket_init` succeeds (-1 only when `socket_init` fails); the CONNECT packet that
`mqtt_connect` then builds carries, right after the variable header, the big-endian 16-bit
length of the client id followed by its bytes (`00 00` when the client id is empty), and that
packet is handed to the transport. -/
theorem C19_client_id_not_validated (st : MqttState) (param_data : MqttParamStruct)
    (socket_init_ret : Int)
    (hi : strlen param_data.ipaddr < 32) (hc : strlen param_data.client_id < 64)
    (hu : strlen param_data.user_name < 64) (hp : strlen param_data.password < 64) :
    (mqtt_init st param_data socket_init_ret).ret = (if socket_init_ret < 0 then -1 else 0) ∧
    (mqtt_init st param_data socket_init_ret).oob = false ∧
    strlen (mqtt_init st param_data socket_init_ret).state.gsst_mqtt_param_data.client_id
      = strlen param_data.client_id ∧
    ((mqtt_connect (mqtt_init st param_data socket_init_ret).state).bytes.drop
        (fixed_header_length (mqtt_connect (mqtt_init st param_data socket_init_ret).state).bytes
          + 10)).take (2 + strlen param_data.client_id)
      = [strlen param_data.client_id / 256, strlen param_data.client_id % 256] ++
          param_data.client_id.take (strlen param_data.client_id) ∧
    (∀ (errno : Nat) (rest : List WriteOutcome),
      mqtt_connect_send
          (⟨((mqtt_connect (mqtt_init st param_data socket_init_ret).state).bytes.length : Int),
            errno⟩ :: rest) (mqtt_init st param_data socket_init_ret).state
        = ⟨some ((mqtt_connect (mqtt_init st param_data socket_init_ret).state).bytes.length
              : Int),
            [(mqtt_connect (mqtt_init st param_data socket_init_ret).state).bytes], rest⟩) := by
  have fi := init_field param_data.ipaddr 32 hi
  have fc := init_field param_data.client_id 64 hc
  have fu := init_field param_data.user_name 64 hu
  have fp := init_field param_data.password 64 hp
  have sc := init_field_strlen param_data.client_id 64 hc
  have su := init_field_strlen param_data.user_name 64 hu
  have sp := init_field_strlen param_data.password 64 hp
  have hsc : strlen (mqtt_init st param_data socket_init_ret).state.gsst_mqtt_param_data.client_id
      = strlen param_data.client_id := sc.1
  have hsu : strlen (mqtt_init st param_data socket_init_ret).state.gsst_mqtt_param_data.user_name
      = strlen param_data.user_name := su.1
  have hsp : strlen (mqtt_init st param_data socket_init_ret).state.gsst_mqtt_param_data.password
      = strlen param_data.password := sp.1
  have htk : (mqtt_init st param_data socket_init_ret).state.gsst_mqtt_param_data.client_id.take
      (strlen param_data.client_id) = param_data.client_id.take (strlen param_data.client_id) :=
    sc.2
  have hfield := connect_client_field (mqtt_init st param_data socket_init_ret).state
    (by omega) (by omega) (by omega)
  rw [hsc, htk] at hfield
  refine ⟨rfl, ?_, hsc, hfield, ?_⟩
  · show (((memset_zero 32).memcpy 0 param_data.ipaddr (strlen param_data.ipaddr)).oob
      || ((memset_zero 64).memcpy 0 param_data.client_id (strlen param_data.client_id)).oob
      || ((memset_zero 64).memcpy 0 param_data.password (strlen param_data.password)).oob
      || ((memset_zero 64).memcpy 0 param_data.user_name (strlen param_data.user_name)).oob)
      = false
    rw [fi, fc, fu, fp]
    rfl
  · intro errno rest
    exact send_all_at_once _ errno rest
      (connect_length_pos _ (by omega) (by omega) (by omega))
      (by have := connect_length_lt (mqtt_init st param_data socket_init_ret).state; omega)

/-- Instance of C19: the configuration with client id "c", user name "u", password "p" is stored
and `mqtt_init` returns 0. -/
theorem C19_client_id_not_validated_witness :
    (mqtt_init initial_state ⟨120, 1883, [49, 0], [117, 0], [99, 0], [112, 0]⟩ 0).ret = 0 :=
  (C19_client_id_not_validated initial_state ⟨120, 1883, [49, 0], [117, 0], [99, 0], [112, 0]⟩ 0
    (by decide) (by decide) (by decide) (by decide)).1

/-- C19 fails as stated: with the empty client id (user name "u", password "p", keep-alive 120)
`mqtt_init` returns 0, and `mqtt_connect` builds and sends the 20-byte CONNECT packet
`10 12 00 04 4D 51 54 54 04 C2 00 78 00 00 00 01 75 00 01 70`, whose client-identifier field
is the zero length `00 00`. -/
theorem C19_counterexample :
    (mqtt_init initial_state ⟨120, 1883, [49, 0], [117, 0], [0], [112, 0]⟩ 0).ret = 0 ∧
    (mqtt_connect (mqtt_init initial_state ⟨120, 1883, [49, 0], [117, 0], [0], [112, 0]⟩
        0).state).bytes
      = [0x10, 0x12, 0x00, 0x04, 0x4D, 0x51, 0x54, 0x54, 0x04, 0xC2, 0x00, 0x78, 0x00, 0x00,
          0x00, 0x01, 0x75, 0x00, 0x01, 0x70] ∧
    mqtt_connect_send [⟨20, 0⟩]
        (mqtt_init initial_state ⟨120, 1883, [49, 0], [117, 0], [0], [112, 0]⟩ 0).state
      = ⟨some 20, [[0x10, 0x12, 0x00, 0x04, 0x4D, 0x51, 0x54, 0x54, 0x04, 0xC2, 0x00, 0x78,
          0x00, 0x00, 0x00, 0x01, 0x75, 0x00, 0x01, 0x70]], []⟩ := by
  refine ⟨by decide, by decide, by decide⟩

/-- C20. Send loop over a modelled transport: for a buffer of `len` bytes (`len < 2^31`) and a
finite sequence of `write` outcomes in which every accepted count is positive and at most the
bytes left, `socket_send_data` returns -1 if and only if some `write` returns a non-positive
result with `errno` other than `EINTR` and `EAGAIN` before all bytes are flushed; it is still
retrying at the end of the outcomes if and only if no outcome is fatal and fewer than `len` bytes
were accepted; when it returns success it returns `len` and the accepted chunks concatenate to
the buffer; in every case the accepted chunks concatenate to a prefix of the buffer. -/
theorem C20_send_loop (buffer : List Nat) (len : Nat) (outcomes : List WriteOutcome)
    (hlen : buffer.length = len) (hlt : len < 2147483648)
    (hfit : outcomes_fit outcomes len = true) :
    ((socket_send_data outcomes buffer len).ret = some (-1) ↔
      ∃ pre o post, outcomes = pre ++ o :: post ∧
        (o.ret ≤ 0 ∧ o.errno ≠ EINTR ∧ o.errno ≠ EAGAIN) ∧
        (∀ x ∈ pre, ¬ (x.ret ≤ 0 ∧ x.errno ≠ EINTR ∧ x.errno ≠ EAGAIN)) ∧
        accepted_bytes pre < len) ∧
    ((socket_send_data outcomes buffer len).ret = none ↔
      (∀ x ∈ outcomes, ¬ (x.ret ≤ 0 ∧ x.errno ≠ EINTR ∧ x.errno ≠ EAGAIN)) ∧
        accepted_bytes outcomes < len) ∧
    (∀ v, (socket_send_data outcomes buffer len).ret = some v → v ≠ -1 →
      v = (len : Int) ∧ (socket_send_data outcomes buffer len).chunks.flatten = buffer) ∧
    (∃ k, (socket_send_data outcomes buffer len).chunks.flatten = buffer.take k) := by
  have hm : len % 18446744073709551616 = len := Nat.mod_eq_of_lt (by omega)
  have hf : ∀ x : WriteOutcome,
      x.fatal = true ↔ (x.ret ≤ 0 ∧ x.errno ≠ EINTR ∧ x.errno ≠ EAGAIN) := by
    intro x
    simp [WriteOutcome.fatal]
  have hnf : ∀ x : WriteOutcome,
      x.fatal = false ↔ ¬ (x.ret ≤ 0 ∧ x.errno ≠ EINTR ∧ x.errno ≠ EAGAIN) := by
    intro x
    rw [← hf]
    simp
  have hint := int_of_uint64_nonneg len hlt
  obtain ⟨h1, h2, h3, h4⟩ := send_loop_spec len (by rw [hint]; omega) outcomes buffer len []
    hlen (by omega) hfit
  unfold socket_send_data
  rw [hm]
  refine ⟨?_, ?_, ?_, ?_⟩
  · rw [h1]
    unfold fatal_before_flush
    simp only [hf, hnf]
  · rw [h2]
    simp only [hnf]
  · intro v hv hne
    obtain ⟨e1, e2⟩ := h3 v hv hne
    rw [hint] at e1
    exact ⟨e1, by simpa using e2⟩
  · obtain ⟨k, hk⟩ := h4
    exact ⟨k, by simpa using hk⟩

/-- Instance of C20: three bytes sent as a chunk of two, a would-block, an interrupt and a chunk
of one. -/
theorem C20_send_loop_witness :
    socket_send_data [⟨2, 0⟩, ⟨-1, EAGAIN⟩, ⟨0, EINTR⟩, ⟨1, 0⟩] [1, 2, 3] 3
        = ⟨some 3, [[1, 2], [3]], []⟩ ∧
    ∃ k, (socket_send_data [⟨2, 0⟩, ⟨-1, EAGAIN⟩, ⟨0, EINTR⟩, ⟨1, 0⟩] [1, 2, 3] 3).chunks.flatten
      = [1, 2, 3].take k :=
  ⟨by decide, (C20_send_loop [1, 2, 3] 3 [⟨2, 0⟩, ⟨-1, EAGAIN⟩, ⟨0, EINTR⟩, ⟨1, 0⟩] rfl
    (by decide) (by decide)).2.2.2⟩

/-- C21 fails on the code: `mqtt_disconnect` returns right after a failed send, before
`socket_deinit`.  When the first `write` fails with `EPIPE` (32), or when one byte is accepted
and the next `write` fails with `ECONNRESET` (104), the function ends without closing the
socket; the socket is closed when the two bytes `E0 00` are accepted, at once or after
retries. -/
theorem C21_disconnect_returns_before_close :
    mqtt_disconnect [⟨-1, 32⟩] = (⟨some (-1), [], []⟩, false) ∧
    mqtt_disconnect [⟨1, 0⟩, ⟨-1, 104⟩] = (⟨some (-1), [[0xE0]], []⟩, false) ∧
    mqtt_disconnect [⟨2, 0⟩] = (⟨some 2, [[0xE0, 0x00]], []⟩, true) ∧
    mqtt_disconnect [⟨0, 11⟩, ⟨0, 4⟩, ⟨1, 0⟩, ⟨1, 0⟩]
      = (⟨some 2, [[0xE0], [0x00]], []⟩, true) := by
  decide

/-- C22 fails on the code: the `do .. while` decode loop of `mqtt_receive_data_parse` has no
bound.  For the read `30 80 80 80 80 00` the count `remain_bytes` is 4 but the loop reads 5
bytes (indices 1 to 5); for a read of 1024 bytes `30 FF FF ..` the count is 4 but the loop reads
all 1023 bytes that follow the first one and then indexes outside the 1024-byte buffer. -/
theorem C22_decode_loop_unbounded :
    (rx_buffer_after_read [0x30, 0x80, 0x80, 0x80, 0x80, 0x00]).length = 1024 ∧
    (parse_locals (rx_buffer_after_read [0x30, 0x80, 0x80, 0x80, 0x80, 0x00])).remain_bytes = 4 ∧
    (parse_locals (rx_buffer_after_read [0x30, 0x80, 0x80, 0x80, 0x80, 0x00])).digits_read = 5 ∧
    (rx_buffer_after_read (0x30 :: List.replicate 1023 0xFF)).length = 1024 ∧
    (parse_locals (rx_buffer_after_read (0x30 :: List.replicate 1023 0xFF))).remain_bytes = 4 ∧
    (parse_locals (rx_buffer_after_read (0x30 :: List.replicate 1023 0xFF))).digits_read
      = 1023 ∧
    (parse_locals (rx_buffer_after_read (0x30 :: List.replicate 1023 0xFF))).ran_off = true ∧
    (mqtt_receive_data_parse (rx_buffer_after_read (0x30 :: List.replicate 1023 0xFF))
      (memset_zero MQTT_RX_BUFFER_MAX_LEN)).2.oob = true := by
  have e1 : rx_buffer_after_read [0x30, 0x80, 0x80, 0x80, 0x80, 0x00]
      = 0x30 :: 0x80 :: 0x80 :: 0x80 :: 0x80 :: 0x00 :: List.replicate 1018 0 :=
    rx_buffer_of_short _ (by decide)
  have e2 : rx_buffer_after_read (0x30 :: List.replicate 1023 0xFF)
      = 0x30 :: List.replicate 1023 0xFF := by
    have hl : (0x30 :: List.replicate 1023 0xFF).length = 1024 := by
      rw [List.length_cons, List.length_replicate]
    rw [rx_buffer_of_short _ (by rw [hl]), hl]
    exact List.append_nil _
  have e3 : List.replicate 1023 0xFF = 0xFF :: 0xFF :: 0xFF :: List.replicate 1020 0xFF := rfl
  have hloop := decode_loop_all_continue 1023 0 1 0
  refine ⟨rx_buffer_length _, ?_, ?_, rx_buffer_length _, ?_, ?_, ?_, ?_⟩
  · rw [e1]
    exact remain_bytes_four _ _ _ _ _ (by decide) (by decide) (by decide)
  · rw [e1, digits_read_eq, List.drop_succ_cons, List.drop_zero,
      decode_loop_more _ _ _ _ _ (by decide), decode_loop_more _ _ _ _ _ (by decide),
      decode_loop_more _ _ _ _ _ (by decide), decode_loop_more _ _ _ _ _ (by decide),
      decode_loop_last _ _ _ _ _ (by decide)]
  · rw [e2, e3]
    exact remain_bytes_four _ _ _ _ _ (by decide) (by decide) (by decide)
  · rw [e2, digits_read_eq, List.drop_succ_cons, List.drop_zero, hloop]
  · rw [e2]
    exact ran_off_of_loop _ (by rw [List.drop_succ_cons, List.drop_zero, hloop])
  · rw [e2]
    exact parse_oob_of_ran_off _ _ (by decide)
      (ran_off_of_loop _ (by rw [List.drop_succ_cons, List.drop_zero, hloop]))

/-- C23. Parser copy stays in bounds on consistent packets despite its 8-bit offset: for a
buffer whose first byte has high nibble `0x3`, whose remaining-length field has `r <= 4` bytes
and base-128 value `V` with `1 + r + V <= 1024`, whose 16-bit topic length `T` satisfies
`2 + T + identifier bytes <= V`, and that holds the whole packet, the offset and length that
`mqtt_receive_data_parse` passes to `memcpy` satisfy `offset + msg_length = 1 + r + V` and
`msg_length <= 1024`, where `offset` is `1 + r + 2 + T + identifier bytes` reduced modulo 256;
the decode loop stays inside the buffer, the copy reads `msg_length` bytes of the packet from
`offset` and writes them into the 1024-byte output buffer without leaving either object. -/
theorem C23_copy_in_bounds (src : List Nat) (b0 thi tlo : Nat) (field rest : List Nat)
    (hshape : src = b0 :: (field ++ thi :: tlo :: rest))
    (hb0 : b0 &&& 0xF0 = 0x30)
    (hfield : remaining_length_field field = true) (hr4 : field.length ≤ 4)
    (hfit : 1 + field.length + base128_value field ≤ 1024)
    (hT : 2 + (thi * 256 + tlo) + (if (b0 &&& 0x06) >>> 1 ≠ 0 then 2 else 0)
      ≤ base128_value field)
    (hwhole : 1 + field.length + base128_value field ≤ src.length) :
    (parse_locals src).remain_bytes = field.length ∧
    (parse_locals src).value = base128_value field ∧
    (parse_locals src).src_data_offset
      = (1 + field.length + 2 + (thi * 256 + tlo)
          + (if (b0 &&& 0x06) >>> 1 ≠ 0 then 2 else 0)) % 256 ∧
    (parse_locals src).src_data_offset + (parse_locals src).msg_length
      = 1 + field.length + base128_value field ∧
    (parse_locals src).msg_length ≤ 1024 ∧
    mqtt_receive_data_parse src (memset_zero MQTT_RX_BUFFER_MAX_LEN)
      = ((parse_locals src).msg_length,
          ⟨(src.drop (parse_locals src).src_data_offset).take (parse_locals src).msg_length
            ++ List.replicate (1024 - (parse_locals src).msg_length) 0, false⟩) := by
  have h := parse_locals_consistent b0 thi tlo field rest hfield hr4 hfit hT
  rw [← hshape] at h
  obtain ⟨h1, _, h3, h4, h5, h6, h7⟩ := h
  refine ⟨h1, h3, h4, h5, h6, ?_⟩
  exact parse_copy_fits src 1024 (by rw [hshape]; exact hb0) h7 (by omega) h6

/-- Instance of C23: the 264-byte PUBLISH `30 85 02 01 00`, 256 topic bytes, payload
`01 02 03` (topic length 256, so the 8-bit offset wraps to 5): offset and length add up to the
264 bytes of the packet. -/
theorem C23_copy_in_bounds_witness :
    ParseLocals.src_data_offset
        (parse_locals (0x30 :: ([0x85, 0x02] ++ 1 :: 0 :: (List.replicate 256 97 ++ [1, 2, 3]))))
      + ParseLocals.msg_length
        (parse_locals (0x30 :: ([0x85, 0x02] ++ 1 :: 0 :: (List.replicate 256 97 ++ [1, 2, 3]))))
      = 264 ∧
    ParseLocals.src_data_offset
        (parse_locals (0x30 :: ([0x85, 0x02] ++ 1 :: 0 :: (List.replicate 256 97 ++ [1, 2, 3]))))
      = 5 := by
  have hv : base128_value [0x85, 0x02] = 261 := by decide
  have h := C23_copy_in_bounds
    (0x30 :: ([0x85, 0x02] ++ 1 :: 0 :: (List.replicate 256 97 ++ [1, 2, 3])))
    0x30 1 0 [0x85, 0x02] (List.replicate 256 97 ++ [1, 2, 3]) rfl (by decide) (by decide)
    (by decide) (by rw [hv]; decide) (by rw [hv]; decide)
    (by
      rw [hv]
      simp only [List.length_cons, List.length_append, List.length_replicate, List.length_nil]
      decide)
  rw [hv] at h
  exact ⟨h.2.2.2.1, h.2.2.1⟩

/-- C24. Out-of-range QoS is encoded as QoS 0: for every `qos` value `q >= 3` and every topic,
payload, `retain` and state, `mqtt_publish` called with `q` builds and sends exactly what it
builds and sends when called with `qos` 0, over every transport; the first header byte it
computes has the QoS bits clear, and the globals, the publish identifier counter among them,
are left unchanged. -/
theorem C24_out_of_range_qos_is_qos0 (outcomes : List WriteOutcome) (st : MqttState)
    (topic msg : List Nat) (msg_len retain q : Nat) (hq : 3 ≤ q) :
    mqtt_publish st topic msg msg_len retain q = mqtt_publish st topic msg msg_len retain 0 ∧
    mqtt_publish_send outcomes st topic msg msg_len retain q
      = mqtt_publish_send outcomes st topic msg msg_len retain 0 ∧
    (mqtt_publish st topic msg msg_len retain q).1 = st ∧
    publish_byte0 retain q &&& 0x06 = 0 ∧
    publish_byte0 retain q = publish_byte0 retain 0 := by
  have h1 : q ≠ 1 := by omega
  have h2 : q ≠ 2 := by omega
  have heq : mqtt_publish st topic msg msg_len retain q
      = mqtt_publish st topic msg msg_len retain 0 := by
    unfold mqtt_publish
    simp only [h1, h2, if_false, show ((0 : Nat) = 1) = False from by decide,
      show ((0 : Nat) = 2) = False from by decide]
  have hst : (mqtt_publish st topic msg msg_len retain q).1 = st := by
    rw [publish_state, if_neg (by omega)]
  have hb : publish_byte0 retain q = publish_byte0 retain 0 := by
    unfold publish_byte0
    simp only [h1, h2, if_false, show ((0 : Nat) = 1) = False from by decide,
      show ((0 : Nat) = 2) = False from by decide]
  refine ⟨heq, ?_, hst, ?_, hb⟩
  · unfold mqtt_publish_send
    rw [heq]
  · rw [hb]
    unfold publish_byte0
    by_cases hr : retain = 0
    · simp only [hr, ne_eq, not_true_eq_false, if_false]
      decide
    · simp only [hr, ne_eq, not_false_eq_true, if_true]
      decide

/-- Instance of C24: `qos = 3` and `qos = 255` for topic "t", payload `01 02 03`, with the
publish counter at 7: the packet is `30 06 00 01 74 01 02 03` and the counter stays 7. -/
theorem C24_out_of_range_qos_is_qos0_witness :
    mqtt_publish ⟨initial_state.gsst_mqtt_param_data, 1, 1, 7⟩ [0x74] [1, 2, 3] 3 0 3
      = (⟨initial_state.gsst_mqtt_param_data, 1, 1, 7⟩,
          ⟨[0x30, 0x06, 0x00, 0x01, 0x74, 0x01, 0x02, 0x03], false⟩) ∧
    mqtt_publish ⟨initial_state.gsst_mqtt_param_data, 1, 1, 7⟩ [0x74] [1, 2, 3] 3 0 255
      = (⟨initial_state.gsst_mqtt_param_data, 1, 1, 7⟩,
          ⟨[0x30, 0x06, 0x00, 0x01, 0x74, 0x01, 0x02, 0x03], false⟩) := by
  have h3 := (C24_out_of_range_qos_is_qos0 [] ⟨initial_state.gsst_mqtt_param_data, 1, 1, 7⟩
    [0x74] [1, 2, 3] 3 0 3 (by decide)).1
  have h255 := (C24_out_of_range_qos_is_qos0 [] ⟨initial_state.gsst_mqtt_param_data, 1, 1, 7⟩
    [0x74] [1, 2, 3] 3 0 255 (by decide)).1
  rw [h3, h255]
  exact ⟨by decide, by decide⟩

end Mqtt
